import Mathlib

/-!
# crackcomm/onion: the composition engine and the tor layer

A shallow embedding of `onion.go`, `layer.go`, `tls/tls.go`,
`layer/tor/tor.go` and `sch/layer.go`.

Conventions of the embedding.

* A Go interface value that may be nil (`net.Conn`, `net.Listener`, `error`)
  is an `Option`; a Go result pair `(value, error)` is a pair of options, so
  that the four combinations Go allows are all representable.
* A layer is an arbitrary implementation of the `Layer` interface: its
  methods are functions on an explicit world state `σ`, which they may read
  and change.
* Every method invocation the engine makes on a layer is recorded, in order,
  in the `calls` of the outcome, with the argument given and the result
  returned.  The `glog.Infof` lines of verbose mode are recorded in `logs`.
* The arguments of a `glog.Infof` call are evaluated before the line is
  written.  The one call whose arguments invoke a method, `l.Addr()` in the
  loop of `Listener`, is modelled with that invocation, which may panic.
-/

namespace Onion

/-- Result pair of a Go call returning `(value, error)`. -/
abbrev Ret (V E : Type) := Option V × Option E

/-- One second as a `time.Duration` (nanoseconds). -/
def Second : Int := 1000000000

/-- The interface `Layer` of `layer.go`.  `σ` is the state of the world the
layers live in, `C` the connections, `L` the listeners, `E` the errors. -/
structure Layer (σ C L E : Type) where
  /-- Field for `Name() string`. -/
  Name : String
  /-- Field for `Conn(net.Conn) (net.Conn, error)`. -/
  Conn : Option C → σ → Ret C E × σ
  /-- Field for `Listener(net.Listener) (net.Listener, error)`. -/
  Listener : Option L → σ → Ret L E × σ
  /-- Field for `Dial(addr string, timeout time.Duration) (net.Conn, error)`. -/
  Dial : String → Int → σ → Ret C E × σ
  /-- Field for `IsDialer() bool`. -/
  IsDialer : σ → Bool
  /-- Field for `Close() error`. -/
  Close : σ → Option E × σ

/-- One method invocation made by the engine on the layer at position
`layer` of the list, with what it was given and what it returned. -/
inductive Call (C L E : Type) where
  | dial (layer : Nat) (addr : String) (timeout : Int) (ret : Ret C E)
  | conn (layer : Nat) (arg : Option C) (ret : Ret C E)
  | listener (layer : Nat) (arg : Option L) (ret : Ret L E)
  | close (layer : Nat) (ret : Option E)
  deriving DecidableEq, Repr

/-- One line written by `glog.Infof` in verbose mode. -/
inductive LogLine (L : Type) where
  /-- Line `[name] dial => addr`. -/
  | dial (name addr : String)
  /-- Line `[name] conn => addr`. -/
  | conn (name addr : String)
  /-- Line `[name] listen init`. -/
  | listenInit (name : String)
  /-- Line `[name] listen => l.Addr()`, with the address `l.Addr()` returned
  as `%s` prints it. -/
  | listen (name : String) (l : L) (addr : String)
  /-- Line `[name] close`. -/
  | close (name : String)
  deriving DecidableEq, Repr

/-- What one engine call leaves behind: the returned pair, the world, the
layer calls made and the lines logged. -/
structure Outcome (σ V C L E : Type) where
  value : Option V
  err : Option E
  state : σ
  calls : List (Call C L E)
  logs : List (LogLine L)
  deriving DecidableEq, Repr

/-- Put one call (and the lines logged before it) in front of what follows. -/
def Outcome.after {σ V C L E : Type} (c : Call C L E) (lg : List (LogLine L))
    (o : Outcome σ V C L E) : Outcome σ V C L E :=
  { o with calls := c :: o.calls, logs := lg ++ o.logs }

/-- The struct `onion` of `onion.go`. -/
structure onion (σ C L E : Type) where
  layers : List (Layer σ C L E)
  verbose : Bool

/-- The constructor `New(layers ...Layer)`. -/
def New {σ C L E : Type} (layers : List (Layer σ C L E)) : onion σ C L E :=
  { layers := layers, verbose := false }

/-- The method `SetVerbose`. -/
def onion.SetVerbose {σ C L E : Type} (o : onion σ C L E) (v : Bool) : onion σ C L E :=
  { o with verbose := v }

/-- The lines a verbose engine logs. -/
def logIf {L : Type} (verbose : Bool) (l : LogLine L) : List (LogLine L) :=
  if verbose then [l] else []

/-- The `for` loop of `Connect`, from the layer at position `i` on, holding
`conn`. -/
def connectLoop {σ C L E : Type} (verbose : Bool) (addr : String) (timeout : Int) :
    Nat → List (Layer σ C L E) → Option C → σ → Outcome σ C C L E
  | _, [], conn, s => { value := conn, err := none, state := s, calls := [], logs := [] }
  | i, layer :: rest, conn, s =>
    if conn.isNone && layer.IsDialer s then
      match layer.Dial addr timeout s with
      | ((c, none), s1) =>
        (connectLoop verbose addr timeout (i + 1) rest c s1).after
          (Call.dial i addr timeout (c, none)) (logIf verbose (LogLine.dial layer.Name addr))
      | ((c, some e), s1) =>
        { value := none, err := some e, state := s1,
          calls := [Call.dial i addr timeout (c, some e)],
          logs := logIf verbose (LogLine.dial layer.Name addr) }
    else
      match layer.Conn conn s with
      | ((c, some e), s1) =>
        { value := none, err := some e, state := s1,
          calls := [Call.conn i conn (c, some e)],
          logs := logIf verbose (LogLine.conn layer.Name addr) }
      | ((c, none), s1) =>
        (connectLoop verbose addr timeout (i + 1) rest c s1).after
          (Call.conn i conn (c, none)) (logIf verbose (LogLine.conn layer.Name addr))

/-- The method `Connect(addr string, timeout time.Duration)`. -/
def onion.Connect {σ C L E : Type} (o : onion σ C L E) (addr : String) (timeout : Int)
    (s : σ) : Outcome σ C C L E :=
  connectLoop o.verbose addr timeout 0 o.layers none s

/-- The method `Dial(network, addr string)`. -/
def onion.Dial {σ C L E : Type} (o : onion σ C L E) (_network addr : String)
    (s : σ) : Outcome σ C C L E :=
  o.Connect addr (Second * 30) s

/-- How a call of `l.Addr()` on a listener ends: it returns the address
(given here as `%s` prints it), or it panics, as it does on a listener
struct whose embedded `net.Listener` is nil. -/
inductive AddrResult where
  | returned (addr : String)
  | panicked (msg : String)
  deriving DecidableEq, Repr

/-- What a call of `Listener` leaves behind.  The call either returns the
pair `(value, err)` or panics: `panicked` is then the panic value, and
`value` and `err` are not delivered to anyone. -/
structure ListenerOutcome (σ C L E : Type) where
  value : Option L
  err : Option E
  state : σ
  calls : List (Call C L E)
  logs : List (LogLine L)
  panicked : Option String
  deriving DecidableEq, Repr

/-- Put one call (and the lines logged before it) in front of what follows. -/
def ListenerOutcome.after {σ C L E : Type} (c : Call C L E) (lg : List (LogLine L))
    (o : ListenerOutcome σ C L E) : ListenerOutcome σ C L E :=
  { o with calls := c :: o.calls, logs := lg ++ o.logs }

/-- The statement `if on.verbose { ... }` at the head of the loop of
`Listener`, holding `l`: nothing when not verbose; the line `listen init`
when `l == nil`; otherwise the arguments of `glog.Infof` are evaluated, which
calls `l.Addr()`, and the line `listen => l.Addr()` is written if that call
returns.  The result is the lines written, or the panic value. -/
def listenLog {σ L : Type} (verbose : Bool) (Addr : L → σ → AddrResult) (name : String)
    (l : Option L) (s : σ) : Except String (List (LogLine L)) :=
  if verbose then
    match l with
    | none => Except.ok [LogLine.listenInit name]
    | some l0 =>
      match Addr l0 s with
      | AddrResult.returned a => Except.ok [LogLine.listen name l0 a]
      | AddrResult.panicked msg => Except.error msg
  else Except.ok []

/-- The `for` loop of `Listener`, from the layer at position `i` on, holding
`l`.  The method `Addr()` of the listeners is the parameter `Addr`. -/
def listenerLoop {σ C L E : Type} (verbose : Bool) (Addr : L → σ → AddrResult) :
    Nat → List (Layer σ C L E) → Option L → σ → ListenerOutcome σ C L E
  | _, [], l, s =>
    { value := l, err := none, state := s, calls := [], logs := [], panicked := none }
  | i, layer :: rest, l, s =>
    match listenLog verbose Addr layer.Name l s with
    | Except.error msg =>
      { value := none, err := none, state := s, calls := [], logs := [],
        panicked := some msg }
    | Except.ok lg =>
      match layer.Listener l s with
      | ((l1, some e), s1) =>
        { value := l1, err := some e, state := s1,
          calls := [Call.listener i l (l1, some e)], logs := lg, panicked := none }
      | ((l1, none), s1) =>
        (listenerLoop verbose Addr (i + 1) rest l1 s1).after (Call.listener i l (l1, none)) lg

/-- The method `Listener(in net.Listener)`. -/
def onion.Listener {σ C L E : Type} (o : onion σ C L E) (Addr : L → σ → AddrResult)
    ( in_ : Option L) (s : σ) : ListenerOutcome σ C L E :=
  listenerLoop o.verbose Addr 0 o.layers in_ s

/-- The `for` loop of `Close`, from the layer at position `i` on.  `Close`
returns an error only, so the `value` of the outcome is unused. -/
def closeLoop {σ C L E : Type} (verbose : Bool) :
    Nat → List (Layer σ C L E) → σ → Outcome σ Unit C L E
  | _, [], s => { value := none, err := none, state := s, calls := [], logs := [] }
  | i, layer :: rest, s =>
    match layer.Close s with
    | (some e, s1) =>
      { value := none, err := some e, state := s1,
        calls := [Call.close i (some e)], logs := logIf verbose (LogLine.close layer.Name) }
    | (none, s1) =>
      (closeLoop verbose (i + 1) rest s1).after (Call.close i none)
        (logIf verbose (LogLine.close layer.Name))

/-- The method `Close()`. -/
def onion.Close {σ C L E : Type} (o : onion σ C L E) (s : σ) : Outcome σ Unit C L E :=
  closeLoop o.verbose 0 o.layers s

/-! ## Reading the record of calls -/

/-- Position in the layer list of the layer a call was made on. -/
def Call.layer {C L E : Type} : Call C L E → Nat
  | .dial i _ _ _ => i
  | .conn i _ _ => i
  | .listener i _ _ => i
  | .close i _ => i

/-- The error a call returned (`none` for a nil error). -/
def Call.error {C L E : Type} : Call C L E → Option E
  | .dial _ _ _ r => r.2
  | .conn _ _ r => r.2
  | .listener _ _ r => r.2
  | .close _ r => r

/-- Whether the call is an invocation of `Dial`. -/
def Call.isDial {C L E : Type} : Call C L E → Bool
  | .dial _ _ _ _ => true
  | _ => false

/-- Whether the call is an invocation of `Conn`. -/
def Call.isConn {C L E : Type} : Call C L E → Bool
  | .conn _ _ _ => true
  | _ => false

/-- The connection a `Conn` call was given. -/
def Call.connArg {C L E : Type} : Call C L E → Option C
  | .conn _ a _ => a
  | _ => none

/-- The connection a `Dial` or `Conn` call returned. -/
def Call.connRet {C L E : Type} : Call C L E → Option C
  | .dial _ _ _ r => r.1
  | .conn _ _ r => r.1
  | _ => none

/-- The connection held after the calls `cs`, when `start` was held before
them: the one the last call returned. -/
def heldAfter {C L E : Type} : Option C → List (Call C L E) → Option C
  | start, [] => start
  | _, c :: cs => heldAfter c.connRet cs

/-- The engine restricted to its first `k` layers. -/
def onion.upTo {σ C L E : Type} (o : onion σ C L E) (k : Nat) : onion σ C L E :=
  { o with layers := o.layers.take k }

/-- The test `conn == nil && layer.IsDialer()` as `Connect` meets it at layer
`k`: after the first `k` layers no connection is held, and layer `k` answers
`IsDialer()` with true. -/
def onion.dialGuard {σ C L E : Type} (o : onion σ C L E) (addr : String) (timeout : Int)
    (s : σ) (k : Nat) : Prop :=
  ((o.upTo k).Connect addr timeout s).value = none ∧
    ∃ layer, o.layers[k]? = some layer ∧
      layer.IsDialer ((o.upTo k).Connect addr timeout s).state = true

/-- A call that was to produce a connection did: a `Dial`, or a `Conn` that
was given a connection, returned a connection. -/
def Call.keepsConn {C L E : Type} (c : Call C L E) : Prop :=
  (c.isDial = true ∨ c.connArg.isSome = true) → c.connRet.isSome = true

/-! ## The layers applied one after the other

The two loops are compared with the plain iteration of the layers' own
functions: every layer of a list applied in list order, each from what the
one before left, with no test in between. -/

/-- The listener held and the world after every layer of `ls` has had its
`Listener` applied in list order, the first to `l` in the world `s`, each
next one to the listener the one before returned. -/
def listenersThrough {σ C L E : Type} (ls : List (Layer σ C L E)) (l : Option L) (s : σ) :
    Option L × σ :=
  ls.foldl (fun p layer => ((layer.Listener p.1 p.2).1.1, (layer.Listener p.1 p.2).2)) (l, s)

/-- The error `Listener` of the layer at position `k` of `ls` returns when
given what the layers before it produced from `l` and `s`; `none` for a nil
error, and past the end of the list. -/
def listenerErrAt {σ C L E : Type} (ls : List (Layer σ C L E)) (l : Option L) (s : σ)
    (k : Nat) : Option E :=
  match ls[k]? with
  | none => none
  | some layer =>
    (layer.Listener (listenersThrough (ls.take k) l s).1 (listenersThrough (ls.take k) l s).2).1.2

/-- The panic value of `l.Addr()` on the listener the first `k` layers of
`ls` produced from `l` and `s`, in the world they left, if a verbose engine
holds a listener there and the call panics; `none` otherwise. -/
def addrPanicAt {σ C L E : Type} (verbose : Bool) (Addr : L → σ → AddrResult)
    (ls : List (Layer σ C L E)) (l : Option L) (s : σ) (k : Nat) : Option String :=
  if verbose then
    match (listenersThrough (ls.take k) l s).1 with
    | none => none
    | some l0 =>
      match Addr l0 (listenersThrough (ls.take k) l s).2 with
      | AddrResult.returned _ => none
      | AddrResult.panicked msg => some msg
  else none

/-- The world after every layer of `ls` has had its `Close` applied in list
order, the first in the world `s`, each next one in the world the one before
left. -/
def closedThrough {σ C L E : Type} (ls : List (Layer σ C L E)) (s : σ) : σ :=
  ls.foldl (fun s1 layer => (layer.Close s1).2) s

/-- The error `Close` of the layer at position `k` of `ls` returns in the
world the layers before it left when closed in order from `s`; `none` for a
nil error, and past the end of the list. -/
def closeErrAt {σ C L E : Type} (ls : List (Layer σ C L E)) (s : σ) (k : Nat) : Option E :=
  match ls[k]? with
  | none => none
  | some layer => (layer.Close (closedThrough (ls.take k) s)).1

/-! ## The TLS layer (`tls/tls.go`) -/

/-- The layer of `tls/tls.go` holding the configuration `config`.  The two
functions of `crypto/tls` it calls are parameters: `Client` is `tls.Client`
and `NewListener` is `tls.NewListener`; both return a fresh non-nil value
whatever they are given. -/
def TLSLayer {σ C L E K : Type} (Client : Option C → K → C)
    (NewListener : Option L → K → L) (config : K) : Layer σ C L E where
  Name := "tls"
  Listener := fun l s => ((some (NewListener l config), none), s)
  Conn := fun conn s => ((some (Client conn config), none), s)
  IsDialer := fun _ => false
  Dial := fun _ _ s => ((none, none), s)
  Close := fun s => (none, s)

/-- A rendering of `tls.Client(conn, config)` for the scenarios. -/
def mockTLSClient (conn : Option String) (_config : Unit) : String :=
  "tls.Client(" ++ conn.getD "nil" ++ ")"

/-- A rendering of `tls.NewListener(l, config)` for the scenarios. -/
def mockTLSListener (l : Option String) (_config : Unit) : String :=
  "tls.NewListener(" ++ l.getD "nil" ++ ")"

instance {C L E : Type} (c : Call C L E) : Decidable c.keepsConn := by
  unfold Call.keepsConn
  infer_instance

/-! ## Layers used in the scenarios -/

/-- A dialer that returns the connection `c` (or nothing) with no error. -/
def MockDialer (c : Option String) : Layer Unit String String String where
  Name := "mock-dialer"
  Conn := fun conn s => ((conn, none), s)
  Listener := fun l s => ((l, none), s)
  Dial := fun _ _ s => ((c, none), s)
  IsDialer := fun _ => true
  Close := fun s => (none, s)

/-- A wrapper that appends `suffix` to the identity of the connection it is
given, and has nothing to wrap when given none. -/
def MockWrapper (suffix : String) : Layer Unit String String String where
  Name := "mock-wrapper"
  Conn := fun conn s => ((conn.map (fun c => c ++ suffix), none), s)
  Listener := fun l s => ((l.map (fun c => c ++ suffix), none), s)
  Dial := fun _ _ s => ((none, none), s)
  IsDialer := fun _ => false
  Close := fun s => (none, s)

/-- A wrapper whose `Conn` returns neither a connection nor an error. -/
def MockDropper : Layer Unit String String String where
  Name := "mock-dropper"
  Conn := fun _ s => ((none, none), s)
  Listener := fun l s => ((l, none), s)
  Dial := fun _ _ s => ((none, none), s)
  IsDialer := fun _ => false
  Close := fun s => (none, s)

/-- A layer every fallible call of which fails with `e`. -/
def MockFailing (e : String) (isDialer : Bool) : Layer Unit String String String where
  Name := "mock-failing"
  Conn := fun _ s => ((none, some e), s)
  Listener := fun _ s => ((none, some e), s)
  Dial := fun _ _ s => ((none, some e), s)
  IsDialer := fun _ => isDialer
  Close := fun s => (some e, s)

/-- A layer that writes every invocation of its `Listener` and `Close` into
the world (a journal of invocations, oldest first).  Its `Listener` wraps the
listener it is given under its name; with `fails` set to an error, both
methods return that error (after writing the invocation down). -/
def MockRecorder (name : String) (fails : Option String) :
    Layer (List String) String String String where
  Name := name
  Conn := fun conn s => ((conn, none), s)
  Listener := fun l s =>
    ((if fails.isSome then none else some (name ++ "(" ++ l.getD "nil" ++ ")"), fails),
      s ++ [name ++ ".Listener"])
  Dial := fun _ _ s => ((none, none), s)
  IsDialer := fun _ => false
  Close := fun s => (fails, s ++ [name ++ ".Close"])

/-- The method `Addr()` of the listeners of the scenarios: the listener
"broken" panics, every other one returns an address. -/
def mockAddr (l : String) (_s : List String) : AddrResult :=
  if l = "broken" then AddrResult.panicked "nil pointer dereference"
  else AddrResult.returned ("addr of " ++ l)

end Onion

/-! # The tor layer (`layer/tor/tor.go`)

Conventions of the embedding.

* The layer is a pointer in Go; here its fields are part of an explicit
  state `St`, next to the world of the external collaborators and the record
  of what was done, in order.
* Every function returns how it ended (`Res`) and the state it left: it
  returned a value; it panicked (deferred calls run); the runtime stopped the
  program with a fatal error (nothing runs after it); or it is blocked for
  ever on a lock nobody in this sequential run will release.
* The packages the layer calls (`torctl`, `bulb`, `proxy`, `net`) are the
  fields of `Env`.
-/

namespace Tor

/-- Go's `error`, by its message. -/
abbrev Error := String

/-- How a call ended. -/
inductive Res (α : Type) where
  /-- It returned `a`. -/
  | ok (a : α)
  /-- It panicked; deferred calls have run. -/
  | panic (msg : String)
  /-- The runtime stopped the program (`fatal error: ...`). -/
  | fatal (msg : String)
  /-- It waits for ever on `Lock`. -/
  | blocked
  deriving DecidableEq, Repr

/-- The handle `*torctl.Client`. -/
structure Client where
  id : Nat
  deriving DecidableEq, Repr

/-- The handle `*bulb.Conn`. -/
structure Control where
  id : Nat
  deriving DecidableEq, Repr

/-- A local `net.Listener`. -/
structure Lis where
  id : Nat
  deriving DecidableEq, Repr

/-- A `net.Conn`. -/
structure Conn where
  id : Nat
  deriving DecidableEq, Repr

/-- A `proxy.Dialer`. -/
structure Dialer where
  id : Nat
  deriving DecidableEq, Repr

/-- A `crypto.PrivateKey`. -/
structure PrivateKey where
  id : Nat
  deriving DecidableEq, Repr

/-- The struct `net.TCPAddr`. -/
structure TCPAddr where
  IP : String
  Port : Int
  deriving DecidableEq, Repr

/-- What `Addr()` of a `net.Listener` returns: a `*net.TCPAddr` or an
address of another type. -/
inductive NetAddr where
  | tcp (a : TCPAddr)
  | other (network : String) (text : String)
  deriving DecidableEq, Repr

/-- The struct `bulb.OnionPortSpec`: `VirtPort uint16`, `Target string`. -/
structure OnionPortSpec where
  VirtPort : Nat
  Target : String
  deriving DecidableEq, Repr

/-- The struct `bulb.OnionInfo`. -/
structure OnionInfo where
  OnionID : String
  PrivateKey : Option PrivateKey
  deriving DecidableEq, Repr

/-- The struct `torctl.LaunchOptions`, with the fields the layer sets. -/
structure LaunchOptions where
  Quiet : Bool
  Path : String
  ProxyPort : Int
  ControlPort : Int
  Binary : List Nat
  deriving DecidableEq, Repr

/-- The struct `options`. -/
structure options where
  bin : String
  key : Option PrivateKey
  port : Nat
  verbose : Bool
  proxy : String
  binBody : List Nat
  timeout : Int
  deriving DecidableEq, Repr

/-- A `sync.Mutex`. -/
structure Mutex where
  locked : Bool
  deriving DecidableEq, Repr

/-- The struct `Layer`. -/
structure Layer where
  o : options
  control : Option Control
  mutex : Mutex
  client : Option Client
  created : Bool
  deriving DecidableEq, Repr

/-- The struct `Addr`. -/
structure Addr where
  OnionInfo : Option OnionInfo
  Port : Nat
  deriving DecidableEq, Repr

/-- The struct `listener`. -/
structure listener where
  Listener : Option Lis
  control : Option Control
  address : Addr
  deriving DecidableEq, Repr

/-- What was done, in order. -/
inductive Event where
  /-- The layer's mutex was acquired. -/
  | lock
  /-- The layer's mutex was released. -/
  | unlock
  /-- Call of `net.ResolveTCPAddr`. -/
  | resolveTCPAddr (network address : String) (ret : Onion.Ret TCPAddr Error)
  /-- Call of `net.ListenTCP`. -/
  | listenTCP (network : String) (address : Option TCPAddr) (ret : Onion.Ret Lis Error)
  /-- Call of `torctl.Launch`. -/
  | launch (opts : LaunchOptions) (ret : Onion.Ret Client Error)
  /-- Call of `ProxyAddress` on a client. -/
  | proxyAddress (client : Client) (ret : String)
  /-- Call of `Control` on a client. -/
  | control (client : Client) (ret : Onion.Ret Control Error)
  /-- Call of `Close` on a client: process shutdown. -/
  | clientClose (client : Client) (ret : Option Error)
  /-- Call of `AddOnion` on a control connection. -/
  | addOnion (control : Control) (ports : List OnionPortSpec) (key : Option PrivateKey)
      (oneshot : Bool) (ret : Onion.Ret OnionInfo Error)
  /-- Call of `DeleteOnion` on a control connection. -/
  | deleteOnion (control : Control) (serviceID : String) (ret : Option Error)
  /-- Call of `proxy.SOCKS5`. -/
  | socks5 (network addr : String) (timeout : Int) (ret : Onion.Ret Dialer Error)
  /-- Call of `Dial` on the SOCKS5 dialer. -/
  | socksDial (d : Dialer) (network addr : String) (ret : Onion.Ret Conn Error)
  /-- Call of `Close` on a local listener. -/
  | listenerClose (l : Lis) (ret : Option Error)
  /-- Line written by `glog.Infof`. -/
  | log (line : String)
  deriving DecidableEq, Repr

/-- The external collaborators, over a world `ω` they may read and change. -/
structure Env (ω : Type) where
  /-- Function `net.ResolveTCPAddr`. -/
  ResolveTCPAddr : String → String → ω → Onion.Ret TCPAddr Error
  /-- Function `net.ListenTCP`. -/
  ListenTCP : String → Option TCPAddr → ω → Onion.Ret Lis Error × ω
  /-- Method `Addr` of a `net.Listener`. -/
  ListenerAddr : Lis → ω → NetAddr
  /-- Method `Close` of a `net.Listener`. -/
  ListenerClose : Lis → ω → Option Error × ω
  /-- Function `torctl.Launch`. -/
  Launch : LaunchOptions → ω → Onion.Ret Client Error × ω
  /-- Method `ProxyAddress` of `*torctl.Client`. -/
  ProxyAddress : Client → ω → String
  /-- Method `Control` of `*torctl.Client`. -/
  ClientControl : Client → ω → Onion.Ret Control Error × ω
  /-- Method `Close` of `*torctl.Client`. -/
  ClientClose : Client → ω → Option Error × ω
  /-- Method `AddOnion` of `*bulb.Conn`. -/
  AddOnion : Control → List OnionPortSpec → Option PrivateKey → Bool → ω →
    Onion.Ret OnionInfo Error × ω
  /-- Method `DeleteOnion` of `*bulb.Conn`. -/
  DeleteOnion : Control → String → ω → Option Error × ω
  /-- Function `proxy.SOCKS5(network, addr, nil, &net.Dialer{Timeout: timeout})`. -/
  SOCKS5 : String → String → Int → ω → Onion.Ret Dialer Error
  /-- Method `Dial` of the SOCKS5 dialer. -/
  SocksDial : Dialer → String → String → ω → Onion.Ret Conn Error × ω

/-- The state a call runs in: the layer, the world, and what was done. -/
structure St (ω : Type) where
  layer : Layer
  world : ω
  trace : List Event
  deriving DecidableEq, Repr

/-- A Go function over the state. -/
abbrev M (ω α : Type) := St ω → Res α × St ω

/-- Sequencing: what follows runs only when what precedes returned. -/
def M.andThen {ω α β : Type} (m : M ω α) (f : α → M ω β) : M ω β := fun st =>
  match m st with
  | (Res.ok a, st1) => f a st1
  | (Res.panic msg, st1) => (Res.panic msg, st1)
  | (Res.fatal msg, st1) => (Res.fatal msg, st1)
  | (Res.blocked, st1) => (Res.blocked, st1)

/-- The statement `defer d` at the head of `body`: `d` runs when `body`
returns or panics; it does not run when the program was stopped or the call
is blocked. -/
def M.deferring {ω α : Type} (d : M ω Unit) (body : M ω α) : M ω α := fun st =>
  match body st with
  | (Res.ok a, st1) =>
    (match d st1 with
     | (Res.ok _, st2) => (Res.ok a, st2)
     | (Res.panic msg, st2) => (Res.panic msg, st2)
     | (Res.fatal msg, st2) => (Res.fatal msg, st2)
     | (Res.blocked, st2) => (Res.blocked, st2))
  | (Res.panic msg, st1) =>
    (match d st1 with
     | (Res.ok _, st2) => (Res.panic msg, st2)
     | (Res.panic msg2, st2) => (Res.panic msg2, st2)
     | (Res.fatal msg2, st2) => (Res.fatal msg2, st2)
     | (Res.blocked, st2) => (Res.blocked, st2))
  | (Res.fatal msg, st1) => (Res.fatal msg, st1)
  | (Res.blocked, st1) => (Res.blocked, st1)

/-- Record an event. -/
def emit {ω : Type} (e : Event) (st : St ω) : St ω :=
  { st with trace := st.trace ++ [e] }

/-- The message of a nil dereference. -/
def nilDeref : String := "runtime error: invalid memory address or nil pointer dereference"

/-- The method `Lock` of the layer's mutex. -/
def Lock {ω : Type} : M ω Unit := fun st =>
  if st.layer.mutex.locked then (Res.blocked, st)
  else (Res.ok (), emit Event.lock { st with layer := { st.layer with mutex := { locked := true } } })

/-- The method `Unlock` of the layer's mutex: unlocking a mutex that is not
locked is a fatal error of the runtime. -/
def Unlock {ω : Type} : M ω Unit := fun st =>
  if st.layer.mutex.locked then
    (Res.ok (), emit Event.unlock { st with layer := { st.layer with mutex := { locked := false } } })
  else (Res.fatal "sync: unlock of unlocked mutex", st)

/-- The conversion `uint16(x)` of an `int`. -/
def uint16 (x : Int) : Nat := (x % 65536).toNat

/-- The function `strconv.Itoa`. -/
def Itoa (x : Int) : String := toString x

/-- The function `NewLayer` before the options are applied. -/
def emptyLayer : Layer :=
  { o := { bin := "", key := none, port := 0, verbose := false, proxy := "", binBody := [],
           timeout := 0 },
    control := none, mutex := { locked := false }, client := none, created := false }

/-- The type `Option` of tor.go: a function applied to the layer. -/
abbrev LayerOption := Layer → Layer

/-- The function `NewLayer(opts ...Option)`. -/
def NewLayer (opts : List LayerOption) : Layer :=
  opts.foldl (fun layer opt => opt layer) emptyLayer

/-- The option `WithBin`. -/
def WithBin (bin : String) : LayerOption := fun layer => { layer with o := { layer.o with bin := bin } }

/-- The option `WithBinaryBody`. -/
def WithBinaryBody (bin : List Nat) : LayerOption :=
  fun layer => { layer with o := { layer.o with binBody := bin } }

/-- The option `WithVerbose`. -/
def WithVerbose (verbose : Bool) : LayerOption :=
  fun layer => { layer with o := { layer.o with verbose := verbose } }

/-- The option `WithProxy`. -/
def WithProxy (proxy : String) : LayerOption :=
  fun layer => { layer with o := { layer.o with proxy := proxy } }

/-- The option `WithPort`. -/
def WithPort (port : Nat) : LayerOption :=
  fun layer => { layer with o := { layer.o with port := port % 65536 } }

/-- The option `WithClient`. -/
def WithClient (client : Option Client) : LayerOption :=
  fun layer => { layer with client := client }

/-- The option `WithControl`. -/
def WithControl (control : Option Control) : LayerOption :=
  fun layer => { layer with control := control }

/-- The option `WithKey`. -/
def WithKey (key : Option PrivateKey) : LayerOption :=
  fun layer => { layer with o := { layer.o with key := key } }

/-- The function `proxyutil.FreePort`. -/
def FreePort {ω : Type} (env : Env ω) : M ω Int := fun st =>
  match env.ResolveTCPAddr "tcp" "127.0.0.1:0" st.world with
  | (address, some err) =>
    (Res.panic err, emit (Event.resolveTCPAddr "tcp" "127.0.0.1:0" (address, some err)) st)
  | (address, none) =>
    let st1 := emit (Event.resolveTCPAddr "tcp" "127.0.0.1:0" (address, none)) st
    match env.ListenTCP "tcp" address st1.world with
    | ((lis, some err), w2) =>
      (Res.panic err, emit (Event.listenTCP "tcp" address (lis, some err)) { st1 with world := w2 })
    | ((none, none), w2) =>
      (Res.panic nilDeref, emit (Event.listenTCP "tcp" address (none, none)) { st1 with world := w2 })
    | ((some lis, none), w2) =>
      let st2 := emit (Event.listenTCP "tcp" address (some lis, none)) { st1 with world := w2 }
      -- defer listener.Close()
      let closing (st : St ω) : St ω :=
        emit (Event.listenerClose lis (env.ListenerClose lis st.world).1)
          { st with world := (env.ListenerClose lis st.world).2 }
      match env.ListenerAddr lis st2.world with
      | NetAddr.tcp a => (Res.ok a.Port, closing st2)
      | NetAddr.other _ _ =>
        (Res.panic "interface conversion: net.Addr is not *net.TCPAddr", closing st2)

/-- The method `Name`. -/
def Layer.Name : String := "tor"

/-- The method `torClient`: the client set with the options, or a tor
binary started now. -/
def Layer.torClient {ω : Type} (env : Env ω) : M ω (Onion.Ret Client Error) := fun st =>
  match st.layer.client with
  | some c => (Res.ok (some c, none), st)
  | none =>
    ((FreePort env).andThen fun proxyPort =>
      (FreePort env).andThen fun controlPort => fun st1 =>
        let opts : LaunchOptions :=
          { Quiet := !st1.layer.o.verbose, Path := st1.layer.o.bin, ProxyPort := proxyPort,
            ControlPort := controlPort, Binary := st1.layer.o.binBody }
        match env.Launch opts st1.world with
        | ((client, some err), w2) =>
          (Res.ok (none, some err),
            emit (Event.launch opts (client, some err))
              { st1 with world := w2, layer := { st1.layer with client := client } })
        | ((client, none), w2) =>
          (Res.ok (client, none),
            emit (Event.launch opts (client, none))
              { st1 with world := w2,
                         layer := { st1.layer with client := client, created := true } })) st

/-- The method `getProxy`. -/
def Layer.getProxy {ω : Type} (env : Env ω) : M ω (String × Option Error) := fun st =>
  if st.layer.o.proxy ≠ "" then (Res.ok (st.layer.o.proxy, none), st)
  else
    (Lock.andThen fun _ =>
      M.deferring Unlock ((Layer.torClient env).andThen fun r => fun st1 =>
        match r with
        | (_, some err) => (Res.ok ("", some err), st1)
        | (none, none) => (Res.panic nilDeref, st1)
        | (some client, none) =>
          (Res.ok (env.ProxyAddress client st1.world, none),
            emit (Event.proxyAddress client (env.ProxyAddress client st1.world))
              { st1 with layer := { st1.layer with
                  o := { st1.layer.o with proxy := env.ProxyAddress client st1.world } } }))) st

/-- The method `Dial(addr string, timeout time.Duration)`. -/
def Layer.Dial {ω : Type} (env : Env ω) (addr : String) (timeout : Int) :
    M ω (Onion.Ret Conn Error) :=
  (Layer.getProxy env).andThen fun r =>
    match r with
    | (_, some err) => Unlock.andThen fun _ => fun st => (Res.ok (none, some err), st)
    | (proxyaddr, none) => fun st1 =>
      match env.SOCKS5 "tcp" proxyaddr timeout st1.world with
      | (d, some err) =>
        (Res.ok (none, some err), emit (Event.socks5 "tcp" proxyaddr timeout (d, some err)) st1)
      | (none, none) =>
        (Res.panic nilDeref,
          emit (Event.log ("[tor] proxy => " ++ proxyaddr ++ " => " ++ addr))
            (emit (Event.socks5 "tcp" proxyaddr timeout (none, none)) st1))
      | (some socks, none) =>
        let st2 := emit (Event.log ("[tor] proxy => " ++ proxyaddr ++ " => " ++ addr))
          (emit (Event.socks5 "tcp" proxyaddr timeout (some socks, none)) st1)
        match env.SocksDial socks "tcp" addr st2.world with
        | ((conn, some err), w3) =>
          (Res.ok (none, some err),
            emit (Event.socksDial socks "tcp" addr (conn, some err)) { st2 with world := w3 })
        | ((conn, none), w3) =>
          (Res.ok (conn, none),
            emit (Event.socksDial socks "tcp" addr (conn, none)) { st2 with world := w3 })

/-- The method `Conn`: the same connection back. -/
def Layer.Conn {ω : Type} (conn : Option Conn) : M ω (Onion.Ret Conn Error) :=
  fun st => (Res.ok (conn, none), st)

/-- The method `IsDialer`. -/
def Layer.IsDialer : Bool := true

/-- The deferred function of `Close`. -/
def Layer.closeDeferred {ω : Type} : M ω Unit := fun st =>
  Unlock { st with layer := { st.layer with created := false, client := none } }

/-- The method `Close`. -/
def Layer.Close {ω : Type} (env : Env ω) : M ω (Option Error) := fun st =>
  if !st.layer.created || st.layer.client.isNone then (Res.ok none, st)
  else
    (Lock.andThen fun _ =>
      M.deferring Layer.closeDeferred (fun st1 =>
        match st1.layer.client with
        | none => (Res.panic nilDeref, st1)
        | some c =>
          (Res.ok (env.ClientClose c st1.world).1,
            emit (Event.clientClose c (env.ClientClose c st1.world).1)
              { st1 with world := (env.ClientClose c st1.world).2 }))) st

/-- The method `torControl`. -/
def Layer.torControl {ω : Type} (env : Env ω) : M ω (Onion.Ret Control Error) :=
  Lock.andThen fun _ =>
    M.deferring Unlock (fun st1 =>
      match st1.layer.control with
      | some k => (Res.ok (some k, none), st1)
      | none =>
        ((Layer.torClient env).andThen fun r => fun st2 =>
          match r with
          | (_, some err) => (Res.ok (none, some err), st2)
          | (none, none) => (Res.panic nilDeref, st2)
          | (some client, none) =>
            match env.ClientControl client st2.world with
            | ((k, some err), w3) =>
              (Res.ok (none, some err),
                emit (Event.control client (k, some err))
                  { st2 with world := w3, layer := { st2.layer with control := k } })
            | ((k, none), w3) =>
              (Res.ok (k, none),
                emit (Event.control client (k, none))
                  { st2 with world := w3, layer := { st2.layer with control := k } })) st1)

/-- A call `l.Close()` on a local listener whose result is dropped. -/
def closeLocal {ω : Type} (env : Env ω) (l : Lis) (st : St ω) : St ω :=
  emit (Event.listenerClose l (env.ListenerClose l st.world).1)
    { st with world := (env.ListenerClose l st.world).2 }

/-- The method `Listener(l net.Listener)`. -/
def Layer.Listener {ω : Type} (env : Env ω) (l : Option Lis) :
    M ω (Onion.Ret listener Error) := fun st =>
  match l with
  | none => (Res.panic nilDeref, st)
  | some l0 =>
    match env.ListenerAddr l0 st.world with
    | NetAddr.other _ _ =>
      (Res.ok (none, some "failed to extract local port"), closeLocal env l0 st)
    | NetAddr.tcp addr =>
      ((Layer.torControl env).andThen fun r => fun st1 =>
        match r with
        | (_, some err) => (Res.ok (none, some err), closeLocal env l0 st1)
        | (control, none) =>
          let port := if st1.layer.o.port = 0 then uint16 addr.Port else st1.layer.o.port
          let ports : List OnionPortSpec := [{ VirtPort := port, Target := Itoa addr.Port }]
          match control with
          | none => (Res.panic nilDeref, st1)
          | some k =>
            match env.AddOnion k ports none true st1.world with
            | ((info, some err), w2) =>
              (Res.ok (none, some err),
                closeLocal env l0
                  (emit (Event.addOnion k ports none true (info, some err))
                    { st1 with world := w2 }))
            | ((info, none), w2) =>
              (Res.ok (some { Listener := some l0,
                              address := { Port := port, OnionInfo := info },
                              control := st1.layer.control }, none),
                emit (Event.addOnion k ports none true (info, none))
                  { st1 with world := w2 })) st

/-- The method `Network` of `Addr`. -/
def Addr.Network (_addr : Addr) : String := "tcp"

/-- The method `String` of `Addr`: the onion domain with the port. -/
def Addr.String (addr : Addr) : Res String :=
  match addr.OnionInfo with
  | none => Res.panic nilDeref
  | some info => Res.ok (info.OnionID ++ ".onion:" ++ toString addr.Port)

/-- The method `Addr` of `listener`. -/
def listener.Addr (l : listener) : Tor.Addr := l.address

/-- The method `Close` of `listener`: closes the listener and removes the
onion service. -/
def listener.Close {ω : Type} (env : Env ω) (tl : listener) : M ω (Option Error) := fun st =>
  match tl.Listener with
  | none => (Res.panic nilDeref, st)
  | some l =>
    match env.ListenerClose l st.world with
    | (some err, w1) =>
      (Res.ok (some err), emit (Event.listenerClose l (some err)) { st with world := w1 })
    | (none, w1) =>
      match tl.address.OnionInfo, tl.control with
      | none, _ =>
        (Res.panic nilDeref, emit (Event.listenerClose l none) { st with world := w1 })
      | some _, none =>
        (Res.panic nilDeref, emit (Event.listenerClose l none) { st with world := w1 })
      | some info, some k =>
        (Res.ok (env.DeleteOnion k info.OnionID w1).1,
          emit (Event.deleteOnion k info.OnionID (env.DeleteOnion k info.OnionID w1).1)
            (emit (Event.listenerClose l none)
              { st with world := (env.DeleteOnion k info.OnionID w1).2 }))

/-! ## A world for the scenarios -/

/-- A world in which tor starts unless `launchError` is set, every started
process has its own proxy endpoint and control connection, local listeners
are bound to `localPort`, and closing one fails when `localCloseError` is
set. -/
structure MockWorld where
  launchError : Option Error
  localCloseError : Option Error
  deleteError : Option Error
  localPort : Int
  launched : Nat
  deriving DecidableEq, Repr

/-- The collaborators of `MockWorld`. -/
def mockEnv : Env MockWorld where
  ResolveTCPAddr := fun _ _ _ => (some { IP := "127.0.0.1", Port := 0 }, none)
  ListenTCP := fun _ _ w => ((some { id := 0 }, none), w)
  ListenerAddr := fun _ w => NetAddr.tcp { IP := "127.0.0.1", Port := w.localPort }
  ListenerClose := fun _ w => (w.localCloseError, w)
  Launch := fun _ w =>
    match w.launchError with
    | some e => ((none, some e), w)
    | none => ((some { id := w.launched + 1 }, none), { w with launched := w.launched + 1 })
  ProxyAddress := fun c _ => "127.0.0.1:" ++ toString (9050 + c.id)
  ClientControl := fun c w => ((some { id := c.id }, none), w)
  ClientClose := fun _ w => (none, w)
  AddOnion := fun _ _ _ _ w => ((some { OnionID := "abcdefghijklmnop", PrivateKey := none }, none), w)
  DeleteOnion := fun _ _ w => (w.deleteError, w)
  SOCKS5 := fun _ _ _ _ => (some { id := 1 }, none)
  SocksDial := fun _ _ _ w => ((some { id := 1 }, none), w)

/-- A world in which everything succeeds and local listeners are bound to
port 8080. -/
def mockWorld : MockWorld :=
  { launchError := none, localCloseError := none, deleteError := none, localPort := 8080,
    launched := 0 }

/-- The state of a layer before its first call. -/
def start {ω : Type} (layer : Layer) (w : ω) : St ω :=
  { layer := layer, world := w, trace := [] }

/-- The registration requests (`AddOnion`) in a record: the control
connection each was sent on and the ports it maps. -/
def addOnionRequests (tr : List Event) : List (Control × List OnionPortSpec) :=
  tr.filterMap fun e =>
    match e with
    | Event.addOnion k ports _ _ _ => some (k, ports)
    | _ => none

/-- The deletion requests (`DeleteOnion`) in a record: the control connection
each was sent on and the rendezvous id it names. -/
def deleteOnionRequests (tr : List Event) : List (Control × String) :=
  tr.filterMap fun e =>
    match e with
    | Event.deleteOnion k serviceID _ => some (k, serviceID)
    | _ => none

/-- The process shutdown requests (`Close` of a client) in a record. -/
def shutdownRequests (tr : List Event) : List Client :=
  tr.filterMap fun e =>
    match e with
    | Event.clientClose c _ => some c
    | _ => none

/-- The process launches (`torctl.Launch`) in a record, with what each
returned. -/
def launches (tr : List Event) : List (Onion.Ret Client Error) :=
  tr.filterMap fun e =>
    match e with
    | Event.launch _ ret => some ret
    | _ => none

/-- A function that leaves the options of the layer as they are and sends
no registration request. -/
def KeepsOptions {ω α : Type} (m : M ω α) : Prop :=
  ∀ st, (m st).2.layer.o = st.layer.o ∧
    addOnionRequests (m st).2.trace = addOnionRequests st.trace

/-- The layer of the scenarios after `NewLayer()`, a `Dial` and a `Listener`
on the local listener 7, in the world where everything succeeds. -/
def usedLayer : St MockWorld :=
  (Layer.Listener mockEnv (some { id := 7 })
    (Layer.Dial mockEnv "example.onion:80" (5 * Onion.Second)
      (start (NewLayer []) mockWorld)).2).2

/-- The listener the layer of the scenarios returned for the local
listener 7. -/
def usedListener : listener :=
  { Listener := some { id := 7 }, control := some { id := 1 },
    address := { OnionInfo := some { OnionID := "abcdefghijklmnop", PrivateKey := none },
                 Port := 8080 } }

/-! ## Reading the record of a run -/

/-- The process launches in a record that succeeded: `torctl.Launch`
returned a client and no error. -/
def successfulLaunches (tr : List Event) : List Client :=
  tr.filterMap fun e =>
    match e with
    | Event.launch _ (some c, none) => some c
    | _ => none

/-- The proxy endpoints in a record that `proxy.SOCKS5` was given: the
endpoints dialled through. -/
def socksProxies (tr : List Event) : List String :=
  tr.filterMap fun e =>
    match e with
    | Event.socks5 _ addr _ _ => some addr
    | _ => none

/-- The proxy endpoints in a record that a process reported
(`ProxyAddress`), with the process that reported each. -/
def proxyReports (tr : List Event) : List (Client × String) :=
  tr.filterMap fun e =>
    match e with
    | Event.proxyAddress c addr => some (c, addr)
    | _ => none

/-- The state after `getProxy` has read the endpoint `addr` of the client
and cached it in the options. -/
def cached {ω : Type} (client : Client) (addr : String) (st : St ω) : St ω :=
  emit (Event.proxyAddress client addr)
    { st with layer := { st.layer with o := { st.layer.o with proxy := addr } } }

/-! ## Concurrent callers

Callers of `Dial` and of `Listener` run concurrently on one layer.  Each
caller stands at a point of the code of the method it called (and of
`getProxy`, `torControl` and `torClient`); a step of the program lets one
caller, chosen by the schedule, execute from its point to the next one.
Between two points a caller makes one access to the layer or one call of a
collaborator, so the points are where callers interleave.  The mutex is the
one of the layer: `Lock` on a locked mutex makes the caller wait, and
`Unlock` releases the mutex whoever locked it. -/

/-- The body of `if layer.client == nil { ... }` in `torClient`: two free
ports, the launch, the assignment of `layer.client`, and `created` on
success. -/
def Layer.launchClient {ω : Type} (env : Env ω) : M ω (Onion.Ret Client Error) :=
  (FreePort env).andThen fun proxyPort =>
    (FreePort env).andThen fun controlPort => fun st1 =>
      let opts : LaunchOptions :=
        { Quiet := !st1.layer.o.verbose, Path := st1.layer.o.bin, ProxyPort := proxyPort,
          ControlPort := controlPort, Binary := st1.layer.o.binBody }
      match env.Launch opts st1.world with
      | ((client, some err), w2) =>
        (Res.ok (none, some err),
          emit (Event.launch opts (client, some err))
            { st1 with world := w2, layer := { st1.layer with client := client } })
      | ((client, none), w2) =>
        (Res.ok (client, none),
          emit (Event.launch opts (client, none))
            { st1 with world := w2,
                       layer := { st1.layer with client := client, created := true } })

/-- The statements of `Dial` that follow a successful `getProxy`: the SOCKS5
dialer on the endpoint `proxyaddr`, the log line, the dial. -/
def Layer.dialThrough {ω : Type} (env : Env ω) (addr : String) (timeout : Int)
    (proxyaddr : String) : M ω (Onion.Ret Tor.Conn Error) := fun st1 =>
  match env.SOCKS5 "tcp" proxyaddr timeout st1.world with
  | (d, some err) =>
    (Res.ok (none, some err), emit (Event.socks5 "tcp" proxyaddr timeout (d, some err)) st1)
  | (none, none) =>
    (Res.panic nilDeref,
      emit (Event.log ("[tor] proxy => " ++ proxyaddr ++ " => " ++ addr))
        (emit (Event.socks5 "tcp" proxyaddr timeout (none, none)) st1))
  | (some socks, none) =>
    let st2 := emit (Event.log ("[tor] proxy => " ++ proxyaddr ++ " => " ++ addr))
      (emit (Event.socks5 "tcp" proxyaddr timeout (some socks, none)) st1)
    match env.SocksDial socks "tcp" addr st2.world with
    | ((conn, some err), w3) =>
      (Res.ok (none, some err),
        emit (Event.socksDial socks "tcp" addr (conn, some err)) { st2 with world := w3 })
    | ((conn, none), w3) =>
      (Res.ok (conn, none),
        emit (Event.socksDial socks "tcp" addr (conn, none)) { st2 with world := w3 })

/-- The part of `torControl` under the lock, after `torClient` returned:
with a client, the control connection is opened and assigned to
`layer.control`. -/
def afterTorClientControl {ω : Type} (env : Env ω) (r : Onion.Ret Client Error) :
    M ω (Onion.Ret Control Error) := fun st2 =>
  match r with
  | (_, some err) => (Res.ok (none, some err), st2)
  | (none, none) => (Res.panic nilDeref, st2)
  | (some client, none) =>
    match env.ClientControl client st2.world with
    | ((k, some err), w3) =>
      (Res.ok (none, some err),
        emit (Event.control client (k, some err))
          { st2 with world := w3, layer := { st2.layer with control := k } })
    | ((k, none), w3) =>
      (Res.ok (k, none),
        emit (Event.control client (k, none))
          { st2 with world := w3, layer := { st2.layer with control := k } })

/-- The statements of `Listener` that follow `torControl`, for the local
listener `l0` bound to `addr`: the error branch, the port, the registration
request, the listener returned. -/
def Layer.register {ω : Type} (env : Env ω) (l0 : Lis) (addr : TCPAddr)
    (r : Onion.Ret Control Error) : M ω (Onion.Ret listener Error) := fun st1 =>
  match r with
  | (_, some err) => (Res.ok (none, some err), closeLocal env l0 st1)
  | (control, none) =>
    let port := if st1.layer.o.port = 0 then uint16 addr.Port else st1.layer.o.port
    let ports : List OnionPortSpec := [{ VirtPort := port, Target := Itoa addr.Port }]
    match control with
    | none => (Res.panic nilDeref, st1)
    | some k =>
      match env.AddOnion k ports none true st1.world with
      | ((info, some err), w2) =>
        (Res.ok (none, some err),
          closeLocal env l0
            (emit (Event.addOnion k ports none true (info, some err))
              { st1 with world := w2 }))
      | ((info, none), w2) =>
        (Res.ok (some { Listener := some l0,
                        address := { Port := port, OnionInfo := info },
                        control := st1.layer.control }, none),
          emit (Event.addOnion k ports none true (info, none))
            { st1 with world := w2 })

/-- The part of `getProxy` under the lock, after `torClient` returned. -/
def afterTorClient {ω : Type} (env : Env ω) (r : Onion.Ret Client Error) : M ω (String × Option Error) :=
  fun st1 =>
    match r with
    | (_, some err) => (Res.ok ("", some err), st1)
    | (none, none) => (Res.panic nilDeref, st1)
    | (some client, none) =>
      (Res.ok (env.ProxyAddress client st1.world, none),
        emit (Event.proxyAddress client (env.ProxyAddress client st1.world))
          { st1 with layer := { st1.layer with
              o := { st1.layer.o with proxy := env.ProxyAddress client st1.world } } })

/-- What `Dial` does with what `getProxy` returned. -/
def afterGetProxy {ω : Type} (env : Env ω) (addr : String) (timeout : Int)
    (r : String × Option Error) : M ω (Onion.Ret Conn Error) :=
  match r with
  | (_, some err) => Unlock.andThen fun _ => fun st => (Res.ok (none, some err), st)
  | (proxyaddr, none) => Layer.dialThrough env addr timeout proxyaddr

/-- Where a caller of `Dial` stands: what it executes next. -/
inductive DialPoint where
  /-- The test `layer.o.proxy != ""` at the head of `getProxy`, made without
  the lock. -/
  | proxyTest
  /-- The call `layer.mutex.Lock()` of `getProxy`. -/
  | lock
  /-- The test `layer.client == nil` of `torClient`. -/
  | clientTest
  /-- The body of that test: the launch and the assignment of the client. -/
  | launch
  /-- The statements of `getProxy` after `torClient` returned `ret`. -/
  | gotClient (ret : Onion.Ret Client Error)
  /-- The deferred `layer.mutex.Unlock()` of `getProxy`, which then returns
  `ret` to `Dial`. -/
  | deferredUnlock (ret : String × Option Error)
  /-- The deferred `layer.mutex.Unlock()` of `getProxy` while it panics. -/
  | panicking (msg : String)
  /-- The call `layer.mutex.Unlock()` in the error branch of `Dial`. -/
  | errorUnlock (err : Error)
  /-- The statements of `Dial` after `getProxy` returned the endpoint. -/
  | socks (proxyaddr : String)
  /-- The call `Dial` has returned. -/
  | returned (ret : Onion.Ret Conn Error)
  deriving DecidableEq, Repr

/-- One step of a caller of `Dial(addr, timeout)` standing at a point: the
point it reaches.  A caller at `lock` on a locked mutex is blocked; a panic
outside `getProxy` and a fatal error of the runtime end the program. -/
def DialPoint.step {ω : Type} (env : Env ω) (addr : String) (timeout : Int) :
    DialPoint → M ω DialPoint
  | .proxyTest => fun st =>
    if st.layer.o.proxy ≠ "" then (Res.ok (.socks st.layer.o.proxy), st)
    else (Res.ok .lock, st)
  | .lock => Lock.andThen fun _ => fun st => (Res.ok .clientTest, st)
  | .clientTest => fun st =>
    match st.layer.client with
    | some c => (Res.ok (.gotClient (some c, none)), st)
    | none => (Res.ok .launch, st)
  | .launch => fun st =>
    match Layer.launchClient env st with
    | (Res.ok r, st1) => (Res.ok (.gotClient r), st1)
    | (Res.panic msg, st1) => (Res.ok (.panicking msg), st1)
    | (Res.fatal msg, st1) => (Res.fatal msg, st1)
    | (Res.blocked, st1) => (Res.blocked, st1)
  | .gotClient r => fun st1 =>
    match r with
    | (_, some err) => (Res.ok (.deferredUnlock ("", some err)), st1)
    | (none, none) => (Res.ok (.panicking nilDeref), st1)
    | (some client, none) =>
      (Res.ok (.deferredUnlock (env.ProxyAddress client st1.world, none)),
        cached client (env.ProxyAddress client st1.world) st1)
  | .deferredUnlock r => Unlock.andThen fun _ => fun st =>
    match r with
    | (_, some err) => (Res.ok (.errorUnlock err), st)
    | (proxyaddr, none) => (Res.ok (.socks proxyaddr), st)
  | .panicking msg => Unlock.andThen fun _ => fun st => (Res.panic msg, st)
  | .errorUnlock err => Unlock.andThen fun _ => fun st => (Res.ok (.returned (none, some err)), st)
  | .socks proxyaddr => fun st =>
    match Layer.dialThrough env addr timeout proxyaddr st with
    | (Res.ok r, st1) => (Res.ok (.returned r), st1)
    | (Res.panic msg, st1) => (Res.panic msg, st1)
    | (Res.fatal msg, st1) => (Res.fatal msg, st1)
    | (Res.blocked, st1) => (Res.blocked, st1)
  | .returned r => fun st => (Res.ok (.returned r), st)

/-- One caller of `Dial` running alone from a point, for at most `fuel`
steps: how its call ends. -/
def DialPoint.alone {ω : Type} (env : Env ω) (addr : String) (timeout : Int) :
    Nat → DialPoint → M ω (Onion.Ret Conn Error)
  | _, .returned r => fun st => (Res.ok r, st)
  | 0, _ => fun st => (Res.blocked, st)
  | fuel + 1, pt => fun st =>
    match pt.step env addr timeout st with
    | (Res.ok pt1, st1) => DialPoint.alone env addr timeout fuel pt1 st1
    | (Res.panic msg, st1) => (Res.panic msg, st1)
    | (Res.fatal msg, st1) => (Res.fatal msg, st1)
    | (Res.blocked, st1) => (Res.blocked, st1)

/-- Whether a caller at this point is between the `Lock` of `getProxy` and
its deferred `Unlock`. -/
def DialPoint.inside : DialPoint → Bool
  | .clientTest => true
  | .launch => true
  | .gotClient _ => true
  | .deferredUnlock _ => true
  | .panicking _ => true
  | _ => false

/-- Whether a caller at this point carries an error of `torClient`: it is
on its way to the `Unlock` of the error branch of `Dial`, or at it. -/
def DialPoint.failed : DialPoint → Bool
  | .gotClient (_, some _) => true
  | .deferredUnlock (_, some _) => true
  | .errorUnlock _ => true
  | _ => false

/-- The local listener `Listener` was given and the TCP address it is bound
to (the variables `l` and `addr` of `Listener`). -/
structure Local where
  l : Lis
  addr : TCPAddr
  deriving DecidableEq, Repr

/-- Where a caller of `Listener` stands: what it executes next. -/
inductive ListenPoint where
  /-- The statement `addr, ok := l.Addr().(*net.TCPAddr)` at the head of
  `Listener`, with its error branch. -/
  | addrTest
  /-- The call `layer.mutex.Lock()` of `torControl`. -/
  | lock (loc : Local)
  /-- The test `layer.control != nil` of `torControl`. -/
  | controlTest (loc : Local)
  /-- The test `layer.client == nil` of `torClient`. -/
  | clientTest (loc : Local)
  /-- The body of that test: the launch and the assignment of the client. -/
  | launch (loc : Local)
  /-- The statements of `torControl` after `torClient` returned `ret`. -/
  | gotClient (loc : Local) (ret : Onion.Ret Client Error)
  /-- The deferred `layer.mutex.Unlock()` of `torControl`, which then returns
  `ret` to `Listener`. -/
  | deferredUnlock (loc : Local) (ret : Onion.Ret Control Error)
  /-- The deferred `layer.mutex.Unlock()` of `torControl` while it panics. -/
  | panicking (msg : String)
  /-- The statements of `Listener` after `torControl` returned `ret`. -/
  | register (loc : Local) (ret : Onion.Ret Control Error)
  /-- The call `Listener` has returned. -/
  | returned (ret : Onion.Ret listener Error)
  deriving DecidableEq, Repr

/-- One step of a caller of `Listener(l)` standing at a point: the point it
reaches.  A caller at `lock` on a locked mutex is blocked; a panic outside
`torControl` and a fatal error of the runtime end the program. -/
def ListenPoint.step {ω : Type} (env : Env ω) (l : Option Lis) : ListenPoint → M ω ListenPoint
  | .addrTest => fun st =>
    match l with
    | none => (Res.panic nilDeref, st)
    | some l0 =>
      match env.ListenerAddr l0 st.world with
      | NetAddr.other _ _ =>
        (Res.ok (.returned (none, some "failed to extract local port")), closeLocal env l0 st)
      | NetAddr.tcp addr => (Res.ok (.lock { l := l0, addr := addr }), st)
  | .lock loc => Lock.andThen fun _ => fun st => (Res.ok (.controlTest loc), st)
  | .controlTest loc => fun st =>
    match st.layer.control with
    | some k => (Res.ok (.deferredUnlock loc (some k, none)), st)
    | none => (Res.ok (.clientTest loc), st)
  | .clientTest loc => fun st =>
    match st.layer.client with
    | some c => (Res.ok (.gotClient loc (some c, none)), st)
    | none => (Res.ok (.launch loc), st)
  | .launch loc => fun st =>
    match Layer.launchClient env st with
    | (Res.ok r, st1) => (Res.ok (.gotClient loc r), st1)
    | (Res.panic msg, st1) => (Res.ok (.panicking msg), st1)
    | (Res.fatal msg, st1) => (Res.fatal msg, st1)
    | (Res.blocked, st1) => (Res.blocked, st1)
  | .gotClient loc r => fun st =>
    match afterTorClientControl env r st with
    | (Res.ok ret, st1) => (Res.ok (.deferredUnlock loc ret), st1)
    | (Res.panic msg, st1) => (Res.ok (.panicking msg), st1)
    | (Res.fatal msg, st1) => (Res.fatal msg, st1)
    | (Res.blocked, st1) => (Res.blocked, st1)
  | .deferredUnlock loc ret => Unlock.andThen fun _ => fun st => (Res.ok (.register loc ret), st)
  | .panicking msg => Unlock.andThen fun _ => fun st => (Res.panic msg, st)
  | .register loc ret => fun st =>
    match Layer.register env loc.l loc.addr ret st with
    | (Res.ok r, st1) => (Res.ok (.returned r), st1)
    | (Res.panic msg, st1) => (Res.panic msg, st1)
    | (Res.fatal msg, st1) => (Res.fatal msg, st1)
    | (Res.blocked, st1) => (Res.blocked, st1)
  | .returned r => fun st => (Res.ok (.returned r), st)

/-- One caller of `Listener` running alone from a point, for at most `fuel`
steps: how its call ends. -/
def ListenPoint.alone {ω : Type} (env : Env ω) (l : Option Lis) :
    Nat → ListenPoint → M ω (Onion.Ret listener Error)
  | _, .returned r => fun st => (Res.ok r, st)
  | 0, _ => fun st => (Res.blocked, st)
  | fuel + 1, pt => fun st =>
    match pt.step env l st with
    | (Res.ok pt1, st1) => ListenPoint.alone env l fuel pt1 st1
    | (Res.panic msg, st1) => (Res.panic msg, st1)
    | (Res.fatal msg, st1) => (Res.fatal msg, st1)
    | (Res.blocked, st1) => (Res.blocked, st1)

/-- Whether a caller at this point is between the `Lock` of `torControl` and
its deferred `Unlock`. -/
def ListenPoint.inside : ListenPoint → Bool
  | .controlTest _ => true
  | .clientTest _ => true
  | .launch _ => true
  | .gotClient _ _ => true
  | .deferredUnlock _ _ => true
  | .panicking _ => true
  | _ => false

/-- A caller: the call it made, with its arguments, and where it stands. -/
inductive Caller where
  | dial (addr : String) (timeout : Int) (point : DialPoint)
  | listen (l : Option Lis) (point : ListenPoint)
  deriving DecidableEq, Repr

/-- One step of a caller: the caller at the point it reaches. -/
def Caller.step {ω : Type} (env : Env ω) : Caller → M ω Caller
  | .dial addr timeout pt => fun st =>
    match pt.step env addr timeout st with
    | (Res.ok pt1, st1) => (Res.ok (.dial addr timeout pt1), st1)
    | (Res.panic msg, st1) => (Res.panic msg, st1)
    | (Res.fatal msg, st1) => (Res.fatal msg, st1)
    | (Res.blocked, st1) => (Res.blocked, st1)
  | .listen l pt => fun st =>
    match pt.step env l st with
    | (Res.ok pt1, st1) => (Res.ok (.listen l pt1), st1)
    | (Res.panic msg, st1) => (Res.panic msg, st1)
    | (Res.fatal msg, st1) => (Res.fatal msg, st1)
    | (Res.blocked, st1) => (Res.blocked, st1)

/-- Whether the caller is between a `Lock` and the deferred `Unlock` that
matches it. -/
def Caller.inside : Caller → Bool
  | .dial _ _ pt => pt.inside
  | .listen _ pt => pt.inside

/-- Whether the caller has found no client and is about to launch. -/
def Caller.launching : Caller → Bool
  | .dial _ _ .launch => true
  | .listen _ (.launch _) => true
  | _ => false

/-- Whether the caller is on its way to the `Unlock` of the error branch of
`Dial`, or at it. -/
def Caller.failed : Caller → Bool
  | .dial _ _ pt => pt.failed
  | .listen _ _ => false

/-- Whether the caller has executed nothing of its call yet. -/
def Caller.starting : Caller → Bool
  | .dial _ _ .proxyTest => true
  | .listen _ .addrTest => true
  | _ => false

/-- A program of concurrent callers on one layer: the state they share, the
callers, and how the program ended if it did (the panic value or the message
of the fatal error). -/
structure Program (ω : Type) where
  st : St ω
  callers : List Caller
  stopped : Option String
  deriving DecidableEq, Repr

/-- One step of the program: the caller at position `i` executes to its next
point.  It does nothing when the program has ended, when there is no such
caller, and when the caller is blocked on the lock. -/
def Program.step {ω : Type} (env : Env ω) (i : Nat) (p : Program ω) : Program ω :=
  match p.stopped with
  | some _ => p
  | none =>
    match p.callers[i]? with
    | none => p
    | some c =>
      match c.step env p.st with
      | (Res.ok c1, st1) => { st := st1, callers := p.callers.set i c1, stopped := none }
      | (Res.blocked, _) => p
      | (Res.panic msg, st1) => { st := st1, callers := p.callers, stopped := some msg }
      | (Res.fatal msg, st1) => { st := st1, callers := p.callers, stopped := some msg }

/-- The program run under a schedule: the positions of the callers that
step, in order. -/
def Program.run {ω : Type} (env : Env ω) (schedule : List Nat) (p : Program ω) : Program ω :=
  schedule.foldl (fun q i => q.step env i) p

/-- At most one launch has succeeded, and the layer holds the client it
returned. -/
def LaunchedAtMostOnce {ω : Type} (st : St ω) : Prop :=
  successfulLaunches st.trace = [] ∨
    ∃ c, successfulLaunches st.trace = [c] ∧ st.layer.client = some c

/-- The lock serialises the callers: a caller inside holds the mutex, at
most one caller is inside, a caller about to launch sees no client, and no
caller is on its way to the `Unlock` of the error branch of `Dial`. -/
structure Serialised {ω : Type} (p : Program ω) : Prop where
  locked : ∀ (i : Nat) (c : Caller), p.callers[i]? = some c → c.inside = true →
    p.st.layer.mutex.locked = true
  unique : ∀ (i j : Nat) (ci cj : Caller), p.callers[i]? = some ci → p.callers[j]? = some cj →
    ci.inside = true → cj.inside = true → i = j
  fresh : ∀ (i : Nat) (c : Caller), p.callers[i]? = some c → c.launching = true →
    p.st.layer.client = none
  sound : ∀ (i : Nat) (c : Caller), p.callers[i]? = some c → c.failed = false

/-- The invariant of a program of callers in a world where no launch
fails: at most one launch has succeeded, and while the program runs the lock
serialises the callers. -/
def Program.Safe {ω : Type} (p : Program ω) : Prop :=
  LaunchedAtMostOnce p.st ∧ (p.stopped = none → Serialised p)

/-- The collaborators of `MockWorld` with a launch that fails once: when
`launchError` is set the launch fails with it and the error is gone for the
launches that follow. -/
def flakyEnv : Env MockWorld :=
  { mockEnv with
    Launch := fun _ w =>
      match w.launchError with
      | some e => ((none, some e), { w with launchError := none })
      | none => ((some { id := w.launched + 1 }, none), { w with launched := w.launched + 1 }) }

/-- The collaborators of `MockWorld` with a launch that never fails. -/
def steadyEnv : Env MockWorld :=
  { mockEnv with
    Launch := fun _ w =>
      ((some { id := w.launched + 1 }, none), { w with launched := w.launched + 1 }) }

/-- The callers `callers`, on a layer built with the options `opts`, in
the world `w`, before any of them has executed anything. -/
def program {ω : Type} (opts : List LayerOption) (w : ω) (callers : List Caller) :
    Program ω :=
  { st := start (NewLayer opts) w, callers := callers, stopped := none }

/-- A caller that has issued `Dial(addr, 5s)` and executed nothing yet. -/
def dialer (addr : String) : Caller :=
  Caller.dial addr (5 * Onion.Second) DialPoint.proxyTest

/-- Two callers of `Dial` on a layer built with no option, in a world where
no launch fails, that both pass the test of the proxy address before either
takes the lock.  The caller `first` then takes the lock, launches, caches the
endpoint and releases; the caller `second` takes the lock in its turn, finds
the client, reads its endpoint and releases; then both dial. -/
def overlappingDials (first second : Nat) : Program MockWorld :=
  (program [] mockWorld [dialer "a.onion:80", dialer "b.onion:80"]).run steadyEnv
    [first, second,
     first, first, first, first, first,
     second, second, second, second,
     first, second]

/-- A caller of `Dial` and a caller of `Listener` (on the local listener 7)
on a layer built with no option, in a world where no launch fails.  The
caller of `Dial` passes the proxy test and the caller of `Listener` reads the
address of its listener before either takes the lock.  With `dialFirst` the
caller of `Dial` takes the lock first and launches, and the caller of
`Listener` finds the client; otherwise the caller of `Listener` takes the
lock first and launches, and the caller of `Dial` finds the client. -/
def dialAndListen (dialFirst : Bool) : Program MockWorld :=
  (program [] mockWorld
      [dialer "a.onion:80", Caller.listen (some { id := 7 }) ListenPoint.addrTest]).run
    steadyEnv
    (if dialFirst then [0, 1, 0, 0, 0, 0, 0, 1, 1, 1, 1, 1, 0, 1]
     else [0, 1, 1, 1, 1, 1, 1, 1, 0, 0, 0, 0, 0, 1])

/-- Three callers of `Dial` on a layer built with no option, in a world
where the first launch fails with E and the next ones succeed, run for the
first `steps` steps of this schedule.  Caller 0 passes the proxy test, takes
the lock, launches (the launch fails), and releases the lock with the
deferred `Unlock` of `getProxy` (6 steps).  Caller 1 passes the proxy test,
takes the lock and finds no client (3 steps).  Caller 0 executes the `Unlock`
of the error branch of `Dial` (1 step).  Caller 2 passes the proxy test,
takes the lock, finds no client and launches (4 steps).  Caller 1 launches
(1 step).  Caller 2, then caller 1, reads the endpoint of its process
(2 steps). -/
def errorUnlockRun (steps : Nat) : Program MockWorld :=
  (program [] { mockWorld with launchError := some "E" }
      [dialer "a.onion:80", dialer "b.onion:80", dialer "c.onion:80"]).run flakyEnv
    (List.take steps [0, 0, 0, 0, 0, 0, 1, 1, 1, 0, 2, 2, 2, 2, 1, 2, 1])

end Tor

/-! # The secure-channel layer (`sch/layer.go`) -/

namespace Sch

/-- The struct `Layer`: the keys are pointers, nil until set. -/
structure Layer where
  pub : Option (List Nat)
  priv : Option (List Nat)
  deriving DecidableEq, Repr

/-- The type `Option` of sch/layer.go: a function applied to the layer. -/
abbrev LayerOption := Layer → Layer

/-- The function `NewLayer(opts ...Option)`. -/
def NewLayer (opts : List LayerOption) : Layer :=
  opts.foldl (fun layer opt => opt layer) { pub := none, priv := none }

/-- The option `WithPubKey`. -/
def WithPubKey (key : Option (List Nat)) : LayerOption := fun layer => { layer with pub := key }

/-- The option `WithPrivKey`. -/
def WithPrivKey (key : Option (List Nat)) : LayerOption :=
  fun layer => { layer with priv := key }

/-- The method `Name`. -/
def Layer.Name (_layer : Layer) : String := "sch"

/-- The struct `listener`: the listener it wraps (an interface value, nil
when it wraps nothing) and the layer. -/
structure listener (L : Type) where
  Listener : Option L
  layer : Layer
  deriving DecidableEq, Repr

/-- The struct `connection`: the connection it wraps and the secure channel
`*schannel.SChannel`. -/
structure connection (C S : Type) where
  Conn : Option C
  sch : Option S
  deriving DecidableEq, Repr

/-- The method `Listener(l net.Listener)`: wraps whatever it is given. -/
def Layer.Listener {L : Type} (layer : Layer) (l : Option L) :
    Onion.Ret (listener L) Tor.Error :=
  (some { Listener := l, layer := layer }, none)

/-- The method `Conn(conn net.Conn)`.  The function `schannel.Dial` is the
parameter `schannelDial`; it returns the channel and whether it succeeded. -/
def Layer.Conn {C S : Type}
    (schannelDial : Option C → Option (List Nat) → Option (List Nat) → Option S × Bool)
    (layer : Layer) (conn : Option C) : Onion.Ret (connection C S) Tor.Error :=
  match schannelDial conn layer.priv layer.pub with
  | (_, false) => (none, some "sch dial error")
  | (sch, true) => (some { Conn := conn, sch := sch }, none)

/-- The method `IsDialer`. -/
def Layer.IsDialer (_layer : Layer) : Bool := false

/-- The method `Dial`: returns nil, nil. -/
def Layer.Dial {C : Type} (_layer : Layer) (_addr : String) (_timeout : Int) :
    Onion.Ret C Tor.Error :=
  (none, none)

/-- The method `Close`: does nothing. -/
def Layer.Close (_layer : Layer) : Option Tor.Error := none

/-! ## The sch layer in an onion -/

/-- The `net.Listener` values a stack of sch layers makes over TCP
listeners: a TCP listener, or the struct `listener` of this package, which
embeds one of these or nil. -/
inductive NetListener where
  | tcp (addr : String)
  | sch (w : listener NetListener)

/-- The method `Addr()`.  A TCP listener returns its address.  The struct
`listener` declares `Accept` only, so `Addr()` on it is the method of the
embedded `net.Listener`, and the call panics when that is nil. -/
def NetListener.Addr : NetListener → Onion.AddrResult
  | .tcp addr => Onion.AddrResult.returned addr
  | .sch ⟨none, _⟩ => Onion.AddrResult.panicked Tor.nilDeref
  | .sch ⟨some inner, _⟩ => inner.Addr

/-- The `net.Conn` values a stack of sch layers makes over TCP connections. -/
inductive NetConn where
  | tcp (addr : String)
  | sch (w : connection NetConn Unit)

/-- The layer as a value of the interface `onion.Layer`, in a world the
layer neither reads nor changes. -/
def Layer.asLayer
    (schannelDial : Option NetConn → Option (List Nat) → Option (List Nat) → Option Unit × Bool)
    (layer : Layer) : Onion.Layer Unit NetConn NetListener Tor.Error where
  Name := layer.Name
  Conn := fun conn s =>
    (((layer.Conn schannelDial conn).1.map NetConn.sch, (layer.Conn schannelDial conn).2), s)
  Listener := fun l s => (((layer.Listener l).1.map NetListener.sch, (layer.Listener l).2), s)
  Dial := fun addr timeout s => (layer.Dial addr timeout, s)
  IsDialer := fun _ => layer.IsDialer
  Close := fun s => (layer.Close, s)

/-- A `schannel.Dial` that always succeeds. -/
def mockSchannelDial (_conn : Option NetConn) (_priv _pub : Option (List Nat)) :
    Option Unit × Bool :=
  (some (), true)

end Sch

namespace Onion

/-! ## The loop of `Connect` -/

section ConnectLemmas

variable {σ C L E : Type}

theorem heldAfter_take_succ (start : Option C) (cs : List (Call C L E)) (k : Nat)
    (c : Call C L E) (h : cs[k]? = some c) :
    heldAfter start (cs.take (k + 1)) = c.connRet := by
  induction cs generalizing start k with
  | nil => simp at h
  | cons x xs ih =>
    cases k with
    | zero =>
      simp at h
      simp [heldAfter, h]
    | succ k =>
      simp at h
      simp [heldAfter, ih _ k h]

/-- One turn of the loop of `Connect`: the four ways it can go. -/
theorem connectLoop_cons (v : Bool) (a : String) (t : Int) (i : Nat) (layer : Layer σ C L E)
    (rest : List (Layer σ C L E)) (conn : Option C) (s : σ) :
    (∃ c s1, conn = none ∧ layer.IsDialer s = true ∧ layer.Dial a t s = ((c, none), s1) ∧
        connectLoop v a t i (layer :: rest) conn s =
          (connectLoop v a t (i + 1) rest c s1).after (Call.dial i a t (c, none))
            (logIf v (LogLine.dial layer.Name a))) ∨
    (∃ c e s1, conn = none ∧ layer.IsDialer s = true ∧ layer.Dial a t s = ((c, some e), s1) ∧
        connectLoop v a t i (layer :: rest) conn s =
          { value := none, err := some e, state := s1,
            calls := [Call.dial i a t (c, some e)],
            logs := logIf v (LogLine.dial layer.Name a) }) ∨
    (∃ c s1, ¬ (conn = none ∧ layer.IsDialer s = true) ∧ layer.Conn conn s = ((c, none), s1) ∧
        connectLoop v a t i (layer :: rest) conn s =
          (connectLoop v a t (i + 1) rest c s1).after (Call.conn i conn (c, none))
            (logIf v (LogLine.conn layer.Name a))) ∨
    (∃ c e s1, ¬ (conn = none ∧ layer.IsDialer s = true) ∧
        layer.Conn conn s = ((c, some e), s1) ∧
        connectLoop v a t i (layer :: rest) conn s =
          { value := none, err := some e, state := s1,
            calls := [Call.conn i conn (c, some e)],
            logs := logIf v (LogLine.conn layer.Name a) }) := by
  by_cases hg : conn = none ∧ layer.IsDialer s = true
  · have hg2 : (conn.isNone && layer.IsDialer s) = true := by simp [hg.1, hg.2]
    rcases hd : layer.Dial a t s with ⟨⟨c, _ | e⟩, s1⟩
    · left
      exact ⟨c, s1, hg.1, hg.2, rfl, by simp only [connectLoop, hg2, if_true, hd]⟩
    · right; left
      exact ⟨c, e, s1, hg.1, hg.2, rfl, by simp only [connectLoop, hg2, if_true, hd]⟩
  · have hg2 : (conn.isNone && layer.IsDialer s) = false := by
      rw [Bool.eq_false_iff]
      simpa [Option.isNone_iff_eq_none] using hg
    rcases hd : layer.Conn conn s with ⟨⟨c, _ | e⟩, s1⟩
    · right; right; left
      exact ⟨c, s1, hg, rfl, by simp [connectLoop, hg2, hd]⟩
    · right; right; right
      exact ⟨c, e, s1, hg, rfl, by simp [connectLoop, hg2, hd]⟩

/-- Every call of the loop is, at position `k`, a call on layer `i + k`: a
`Dial` made while nothing is held, or a `Conn` given what is held. -/
theorem connectLoop_shape (v : Bool) (a : String) (t : Int) (ls : List (Layer σ C L E)) :
    ∀ (i : Nat) (conn : Option C) (s : σ) (k : Nat) (c : Call C L E),
      (connectLoop v a t i ls conn s).calls[k]? = some c →
      (c = Call.dial (i + k) a t (c.connRet, c.error) ∧
          heldAfter conn ((connectLoop v a t i ls conn s).calls.take k) = none) ∨
        c = Call.conn (i + k)
          (heldAfter conn ((connectLoop v a t i ls conn s).calls.take k)) (c.connRet, c.error) := by
  induction ls with
  | nil => intro i conn s k c h; simp [connectLoop] at h
  | cons layer rest ih =>
    intro i conn s k c h
    rcases connectLoop_cons v a t i layer rest conn s with
      ⟨c1, s1, hc, -, -, heq⟩ | ⟨c1, e, s1, hc, -, -, heq⟩ | ⟨c1, s1, -, -, heq⟩ |
      ⟨c1, e, s1, -, -, heq⟩ <;> rw [heq] at h ⊢ <;> cases k with
    | zero =>
      simp [Outcome.after] at h
      subst h
      first
      | simp [Call.connRet, Call.error, heldAfter, hc, Outcome.after]
      | simp [Call.connRet, Call.error, heldAfter, Outcome.after]
    | succ k =>
      first
      | simp at h
      | (simp only [Outcome.after, List.getElem?_cons_succ] at h
         have := ih (i + 1) c1 s1 k c h
         simp only [Outcome.after, List.take_succ_cons, heldAfter, Call.connRet]
         rw [show i + (k + 1) = i + 1 + k by omega]
         exact this)

/-- The loop makes at most one call per layer. -/
theorem connectLoop_length_le (v : Bool) (a : String) (t : Int) (ls : List (Layer σ C L E)) :
    ∀ (i : Nat) (conn : Option C) (s : σ),
      (connectLoop v a t i ls conn s).calls.length ≤ ls.length := by
  induction ls with
  | nil => intro i conn s; simp [connectLoop]
  | cons layer rest ih =>
    intro i conn s
    rcases connectLoop_cons v a t i layer rest conn s with
      ⟨c1, s1, -, -, -, heq⟩ | ⟨c1, e, s1, -, -, -, heq⟩ | ⟨c1, s1, -, -, heq⟩ |
      ⟨c1, e, s1, -, -, heq⟩ <;> rw [heq] <;> simp [Outcome.after]
    · exact ih (i + 1) c1 s1
    · exact ih (i + 1) c1 s1

/-- When the loop ends without an error it has called every layer, no call
returned an error, and it returns what the last call returned. -/
theorem connectLoop_err_none (v : Bool) (a : String) (t : Int) (ls : List (Layer σ C L E)) :
    ∀ (i : Nat) (conn : Option C) (s : σ),
      (connectLoop v a t i ls conn s).err = none →
      (connectLoop v a t i ls conn s).calls.length = ls.length ∧
        (connectLoop v a t i ls conn s).value =
          heldAfter conn (connectLoop v a t i ls conn s).calls ∧
        ∀ c ∈ (connectLoop v a t i ls conn s).calls, c.error = none := by
  induction ls with
  | nil => intro i conn s _; simp [connectLoop, heldAfter]
  | cons layer rest ih =>
    intro i conn s
    rcases connectLoop_cons v a t i layer rest conn s with
      ⟨c1, s1, -, -, -, heq⟩ | ⟨c1, e, s1, -, -, -, heq⟩ | ⟨c1, s1, -, -, heq⟩ |
      ⟨c1, e, s1, -, -, heq⟩ <;> rw [heq] <;> intro h
    · have := ih (i + 1) c1 s1 (by simpa [Outcome.after] using h)
      simpa [Outcome.after, heldAfter, Call.connRet, Call.error] using this
    · simp at h
    · have := ih (i + 1) c1 s1 (by simpa [Outcome.after] using h)
      simpa [Outcome.after, heldAfter, Call.connRet, Call.error] using this
    · simp at h

/-- When the loop ends with an error it returns no connection, the error is
the one of the last call made, and no earlier call returned an error. -/
theorem connectLoop_err_some (v : Bool) (a : String) (t : Int) (ls : List (Layer σ C L E)) :
    ∀ (i : Nat) (conn : Option C) (s : σ) (e : E),
      (connectLoop v a t i ls conn s).err = some e →
      (connectLoop v a t i ls conn s).value = none ∧
        ∃ pre last, (connectLoop v a t i ls conn s).calls = pre ++ [last] ∧
          last.error = some e ∧ ∀ c ∈ pre, c.error = none := by
  induction ls with
  | nil => intro i conn s e h; simp [connectLoop] at h
  | cons layer rest ih =>
    intro i conn s e
    rcases connectLoop_cons v a t i layer rest conn s with
      ⟨c1, s1, -, -, -, heq⟩ | ⟨c1, e1, s1, -, -, -, heq⟩ | ⟨c1, s1, -, -, heq⟩ |
      ⟨c1, e1, s1, -, -, heq⟩ <;> rw [heq] <;> intro h
    · obtain ⟨hv, pre, last, hc, hl, hp⟩ := ih (i + 1) c1 s1 e (by simpa [Outcome.after] using h)
      refine ⟨by simpa [Outcome.after] using hv, Call.dial i a t (c1, none) :: pre, last, ?_, hl, ?_⟩
      · simp [Outcome.after, hc]
      · intro c hcm
        rcases List.mem_cons.1 hcm with rfl | hcm
        · rfl
        · exact hp c hcm
    · simp only [Option.some.injEq] at h
      subst h
      exact ⟨rfl, [], _, rfl, rfl, by simp⟩
    · obtain ⟨hv, pre, last, hc, hl, hp⟩ := ih (i + 1) c1 s1 e (by simpa [Outcome.after] using h)
      refine ⟨by simpa [Outcome.after] using hv, Call.conn i conn (c1, none) :: pre, last, ?_, hl, ?_⟩
      · simp [Outcome.after, hc]
      · intro c hcm
        rcases List.mem_cons.1 hcm with rfl | hcm
        · rfl
        · exact hp c hcm
    · simp only [Option.some.injEq] at h
      subst h
      exact ⟨rfl, [], _, rfl, rfl, by simp⟩

/-- The loop over `xs ++ ys` is the loop over `xs` followed, when that ends
without an error, by the loop over `ys` from where it stopped. -/
theorem connectLoop_append (v : Bool) (a : String) (t : Int) (xs ys : List (Layer σ C L E)) :
    ∀ (i : Nat) (conn : Option C) (s : σ),
      connectLoop v a t i (xs ++ ys) conn s =
        match (connectLoop v a t i xs conn s).err with
        | some _ => connectLoop v a t i xs conn s
        | none =>
          { connectLoop v a t (i + xs.length) ys (connectLoop v a t i xs conn s).value
              (connectLoop v a t i xs conn s).state with
            calls := (connectLoop v a t i xs conn s).calls ++
              (connectLoop v a t (i + xs.length) ys (connectLoop v a t i xs conn s).value
                (connectLoop v a t i xs conn s).state).calls
            logs := (connectLoop v a t i xs conn s).logs ++
              (connectLoop v a t (i + xs.length) ys (connectLoop v a t i xs conn s).value
                (connectLoop v a t i xs conn s).state).logs } := by
  induction xs with
  | nil => intro i conn s; simp [connectLoop]
  | cons layer rest ih =>
    intro i conn s
    simp only [List.cons_append, connectLoop]
    split
    · rcases hd : layer.Dial a t s with ⟨⟨c, _ | e⟩, s1⟩
      · have h := ih (i + 1) c s1
        simp only [List.length_cons, List.append_eq]
        rw [show i + (rest.length + 1) = i + 1 + rest.length by omega]
        rcases herr : (connectLoop v a t (i + 1) rest c s1).err with _ | e2
        · rw [herr] at h
          simp only at h
          rw [h]
          simp [Outcome.after, herr]
        · rw [herr] at h
          simp only at h
          rw [h]
          simp [Outcome.after, herr]
      · simp
    · rcases hd : layer.Conn conn s with ⟨⟨c, _ | e⟩, s1⟩
      · have h := ih (i + 1) c s1
        simp only [List.length_cons, List.append_eq]
        rw [show i + (rest.length + 1) = i + 1 + rest.length by omega]
        rcases herr : (connectLoop v a t (i + 1) rest c s1).err with _ | e2
        · rw [herr] at h
          simp only at h
          rw [h]
          simp [Outcome.after, herr]
        · rw [herr] at h
          simp only at h
          rw [h]
          simp [Outcome.after, herr]
      · simp

/-- A call that is not the last one made returned no error. -/
theorem connectLoop_not_last (v : Bool) (a : String) (t : Int) (ls : List (Layer σ C L E))
    (i : Nat) (conn : Option C) (s : σ) (j : Nat) (c : Call C L E)
    (hj : (connectLoop v a t i ls conn s).calls[j]? = some c)
    (hlt : j + 1 < (connectLoop v a t i ls conn s).calls.length) : c.error = none := by
  rcases herr : (connectLoop v a t i ls conn s).err with _ | e
  · exact (connectLoop_err_none v a t ls i conn s herr).2.2 c (List.getElem?_mem hj)
  · obtain ⟨-, pre, last, hc, -, hp⟩ := connectLoop_err_some v a t ls i conn s e herr
    rw [hc] at hj hlt
    simp only [List.length_append, List.length_singleton] at hlt
    rw [List.getElem?_append_left (by omega)] at hj
    exact hp c (List.getElem?_mem hj)

/-- A call that returned an error is the last one made, and its error is the
error of the loop, which returns no connection. -/
theorem connectLoop_failed_call (v : Bool) (a : String) (t : Int) (ls : List (Layer σ C L E))
    (i : Nat) (conn : Option C) (s : σ) (j : Nat) (c : Call C L E) (e : E)
    (hj : (connectLoop v a t i ls conn s).calls[j]? = some c) (he : c.error = some e) :
    (connectLoop v a t i ls conn s).err = some e ∧
      (connectLoop v a t i ls conn s).value = none ∧
      (connectLoop v a t i ls conn s).calls.length = j + 1 := by
  rcases herr : (connectLoop v a t i ls conn s).err with _ | e1
  · have := (connectLoop_err_none v a t ls i conn s herr).2.2 c (List.getElem?_mem hj)
    rw [he] at this
    cases this
  · obtain ⟨hv, pre, last, hc, hl, hp⟩ := connectLoop_err_some v a t ls i conn s e1 herr
    have hlen : j < (connectLoop v a t i ls conn s).calls.length := by
      rcases List.getElem?_eq_some_iff.1 hj with ⟨h, -⟩
      exact h
    rw [hc] at hj hlen ⊢
    simp only [List.length_append, List.length_singleton] at hlen ⊢
    by_cases hjp : j < pre.length
    · rw [List.getElem?_append_left hjp] at hj
      have := hp c (List.getElem?_mem hj)
      rw [he] at this
      cases this
    · have hjeq : j = pre.length := by omega
      subst hjeq
      simp at hj
      subst hj
      rw [he] at hl
      exact ⟨hl.symm ▸ rfl, hv, rfl⟩

/-- Once a `Dial` has returned a connection it stays held, as long as every
call that was to produce a connection did. -/
theorem connectLoop_held_stays (v : Bool) (a : String) (t : Int) (ls : List (Layer σ C L E))
    (conn : Option C) (s : σ)
    (hkeep : ∀ c ∈ (connectLoop v a t 0 ls conn s).calls, c.error = none → c.keepsConn)
    (j : Nat) (cj : Call C L E) (hj : (connectLoop v a t 0 ls conn s).calls[j]? = some cj)
    (hd : cj.isDial = true) :
    ∀ m, j < m → m < (connectLoop v a t 0 ls conn s).calls.length →
      (heldAfter conn ((connectLoop v a t 0 ls conn s).calls.take m)).isSome = true := by
  intro m hjm
  induction m with
  | zero => omega
  | succ m ih =>
    intro hm
    by_cases hjm2 : j = m
    · subst hjm2
      rw [heldAfter_take_succ conn _ j cj hj]
      exact hkeep cj (List.getElem?_mem hj)
        (connectLoop_not_last v a t ls 0 conn s j cj hj hm) (Or.inl hd)
    · have hprev := ih (by omega) (by omega)
      obtain ⟨cm, hcm⟩ : ∃ cm, (connectLoop v a t 0 ls conn s).calls[m]? = some cm :=
        ⟨_, List.getElem?_eq_getElem (by omega)⟩
      rw [heldAfter_take_succ conn _ m cm hcm]
      have hok := connectLoop_not_last v a t ls 0 conn s m cm hcm hm
      rcases connectLoop_shape v a t ls 0 conn s m cm hcm with ⟨-, hnone⟩ | hconn
      · rw [hnone] at hprev
        simp at hprev
      · apply hkeep cm (List.getElem?_mem hcm) hok
        right
        rw [hconn]
        simpa [Call.connArg] using hprev

/-- When `Connect` ends without an error, so does `Connect` over the first
`k` layers. -/
theorem Connect_upTo_err (o : onion σ C L E) (a : String) (t : Int) (s : σ) (k : Nat)
    (h : (o.Connect a t s).err = none) : ((o.upTo k).Connect a t s).err = none := by
  have happ := connectLoop_append o.verbose a t (o.layers.take k) (o.layers.drop k) 0 none s
  rw [List.take_append_drop] at happ
  rcases herr : (connectLoop o.verbose a t 0 (o.layers.take k) none s).err with _ | e
  · exact herr
  · rw [herr] at happ
    simp only at happ
    simp only [onion.Connect] at h
    rw [happ, herr] at h
    cases h

/-- The call `Connect` makes at position `k`, when the first `k` layers
raised no error: it is on layer `k`, and it is a `Dial` exactly when the test
`conn == nil && layer.IsDialer()` holds there. -/
theorem Connect_call_at (o : onion σ C L E) (a : String) (t : Int) (s : σ) (k : Nat)
    (hk : k < o.layers.length) (hp : ((o.upTo k).Connect a t s).err = none) :
    ∃ c, (o.Connect a t s).calls[k]? = some c ∧ (c.isDial = true ↔ o.dialGuard a t s k) := by
  have happ := connectLoop_append o.verbose a t (o.layers.take k) (o.layers.drop k) 0 none s
  rw [List.take_append_drop] at happ
  have hp2 : (connectLoop o.verbose a t 0 (o.layers.take k) none s).err = none := hp
  have hlen := (connectLoop_err_none o.verbose a t (o.layers.take k) 0 none s hp2).1
  rw [hp2] at happ
  simp only at happ
  have htake : (o.layers.take k).length = k := by
    rw [List.length_take]; omega
  rw [htake] at hlen happ
  have hdrop : o.layers.drop k = o.layers[k] :: o.layers.drop (k + 1) :=
    List.drop_eq_getElem_cons hk
  have hget : o.layers[k]? = some o.layers[k] := List.getElem?_eq_getElem hk
  rw [hdrop] at happ
  have hcalls : ∀ c rest,
      (connectLoop o.verbose a t (0 + k) (o.layers[k] :: o.layers.drop (k + 1))
        (connectLoop o.verbose a t 0 (o.layers.take k) none s).value
        (connectLoop o.verbose a t 0 (o.layers.take k) none s).state).calls = c :: rest →
      (o.Connect a t s).calls[k]? = some c := by
    intro c rest hc
    simp only [onion.Connect]
    rw [happ]
    simp only
    rw [List.getElem?_append_right (by omega), hlen, hc]
    simp
  have hguard : o.dialGuard a t s k ↔
      ((connectLoop o.verbose a t 0 (o.layers.take k) none s).value = none ∧
        o.layers[k].IsDialer (connectLoop o.verbose a t 0 (o.layers.take k) none s).state
          = true) := by
    simp only [onion.dialGuard, onion.Connect, onion.upTo, hget, Option.some.injEq,
      exists_eq_left']
  rcases connectLoop_cons o.verbose a t (0 + k) o.layers[k] (o.layers.drop (k + 1))
      (connectLoop o.verbose a t 0 (o.layers.take k) none s).value
      (connectLoop o.verbose a t 0 (o.layers.take k) none s).state with
    ⟨c1, s1, hc, hd, -, heq⟩ | ⟨c1, e, s1, hc, hd, -, heq⟩ | ⟨c1, s1, hn, -, heq⟩ |
    ⟨c1, e, s1, hn, -, heq⟩
  · exact ⟨_, hcalls _ _ (by rw [heq]; rfl), by simp [Call.isDial, hguard, hc, hd]⟩
  · exact ⟨_, hcalls _ _ (by rw [heq]), by simp [Call.isDial, hguard, hc, hd]⟩
  · exact ⟨_, hcalls _ _ (by rw [heq]; rfl), by simpa [Call.isDial, hguard] using hn⟩
  · exact ⟨_, hcalls _ _ (by rw [heq]), by simpa [Call.isDial, hguard] using hn⟩

/-! ## Claims about `Connect` -/

/-- C1, as stated, fails: with two dialers of which the first returns no
connection and no error, every call `Connect` makes succeeds, and `Dial` is
invoked on both layers; the later layer is not given `Conn`. -/
theorem Connect_dials_again_after_empty_dial :
    (∀ c ∈ ((New [MockDialer none, MockDialer (some "C1")]).Connect "host:80"
        (5 * Second) ()).calls, c.error = none) ∧
      ((New [MockDialer none, MockDialer (some "C1")]).Connect "host:80"
        (5 * Second) ()).calls =
        [Call.dial 0 "host:80" (5 * Second) (none, none),
         Call.dial 1 "host:80" (5 * Second) (some "C1", none)] := by
  decide

/-- C1, amended.  Whenever every call `Connect` makes returns no error and
every call that was to produce a connection did (a `Dial`, or a `Conn` given
a connection, returned one), `Connect` returns no error and the result of the
last call; it calls every layer once, in list order; each call is a `Dial` or
a `Conn` given the connection returned by the previous call; and the `Dial`
is on exactly the first layer whose `IsDialer()` is true while no connection
is held.  For the stack [dialer returning C0, wrapper appending "+wrapped"],
`Connect("host:80", 5s)` returns C0+wrapped and the wrapper's `Conn` is
invoked exactly once, with C0. -/
theorem Connect_dials_first_dialer_then_wraps :
    (∀ (σ C L E : Type) (o : onion σ C L E) (addr : String) (timeout : Int) (s : σ),
      (∀ c ∈ (o.Connect addr timeout s).calls, c.error = none) →
      (∀ c ∈ (o.Connect addr timeout s).calls, c.keepsConn) →
      (o.Connect addr timeout s).err = none ∧
      (o.Connect addr timeout s).value = heldAfter none (o.Connect addr timeout s).calls ∧
      (o.Connect addr timeout s).calls.length = o.layers.length ∧
      (∀ k c, (o.Connect addr timeout s).calls[k]? = some c →
        c = Call.dial k addr timeout (c.connRet, none) ∨
        c = Call.conn k (heldAfter none ((o.Connect addr timeout s).calls.take k))
          (c.connRet, none)) ∧
      (∀ k, k < o.layers.length →
        ((∃ c, (o.Connect addr timeout s).calls[k]? = some c ∧ c.isDial = true) ↔
          (o.dialGuard addr timeout s k ∧ ∀ j, j < k → ¬ o.dialGuard addr timeout s j)))) ∧
    ((New [MockDialer (some "C0"), MockWrapper "+wrapped"]).Connect "host:80"
        (5 * Second) ()).value = some "C0+wrapped" ∧
    ((New [MockDialer (some "C0"), MockWrapper "+wrapped"]).Connect "host:80"
        (5 * Second) ()).err = none ∧
    ((New [MockDialer (some "C0"), MockWrapper "+wrapped"]).Connect "host:80"
        (5 * Second) ()).calls =
      [Call.dial 0 "host:80" (5 * Second) (some "C0", none),
       Call.conn 1 (some "C0") (some "C0+wrapped", none)] := by
  refine ⟨?_, by decide, by decide, by decide⟩
  intro σ C L E o addr timeout s hok hkeep
  have herr : (o.Connect addr timeout s).err = none := by
    rcases h : (o.Connect addr timeout s).err with _ | e
    · rfl
    · obtain ⟨-, pre, last, hc, hl, -⟩ :=
        connectLoop_err_some o.verbose addr timeout o.layers 0 none s e h
      have := hok last (by simp only [onion.Connect]; rw [hc]; simp)
      rw [hl] at this
      cases this
  obtain ⟨hlen, hval, -⟩ := connectLoop_err_none o.verbose addr timeout o.layers 0 none s herr
  have hshape : ∀ k c, (o.Connect addr timeout s).calls[k]? = some c →
      (c = Call.dial k addr timeout (c.connRet, none) ∧
        heldAfter none ((o.Connect addr timeout s).calls.take k) = none) ∨
      c = Call.conn k (heldAfter none ((o.Connect addr timeout s).calls.take k))
        (c.connRet, none) := by
    intro k c hc
    have h := connectLoop_shape o.verbose addr timeout o.layers 0 none s k c hc
    rw [hok c (List.getElem?_mem hc), Nat.zero_add] at h
    exact h
  refine ⟨herr, hval, hlen, ?_, ?_⟩
  · intro k c hc
    rcases hshape k c hc with ⟨h, -⟩ | h
    · exact Or.inl h
    · exact Or.inr h
  · intro k hk
    obtain ⟨ck, hck, hiff⟩ :=
      Connect_call_at o addr timeout s k hk (Connect_upTo_err o addr timeout s k herr)
    constructor
    · rintro ⟨c, hc, hd⟩
      rw [hck] at hc
      cases hc
      refine ⟨hiff.1 hd, ?_⟩
      intro j hj hgj
      obtain ⟨cj, hcj, hiffj⟩ :=
        Connect_call_at o addr timeout s j (by omega) (Connect_upTo_err o addr timeout s j herr)
      have hheld := connectLoop_held_stays o.verbose addr timeout o.layers none s
        (fun c hc _ => hkeep c hc) j cj hcj (hiffj.2 hgj) k hj
        (by rw [hlen]; exact hk)
      rcases hshape k ck hck with ⟨-, hnone⟩ | hconn
      · simp only [onion.Connect] at hnone
        rw [hnone] at hheld
        simp at hheld
      · rw [hconn] at hd
        simp [Call.isDial] at hd
    · rintro ⟨hg, -⟩
      exact ⟨ck, hck, hiff.2 hg⟩

/-- The hypotheses of `Connect_dials_first_dialer_then_wraps` hold for the
stack [dialer returning C0, wrapper appending "+wrapped"], where the `Dial`
is on layer 0 and on no other. -/
theorem Connect_dials_first_dialer_then_wraps_witness :
    (∀ c ∈ ((New [MockDialer (some "C0"), MockWrapper "+wrapped"]).Connect "host:80"
        (5 * Second) ()).calls, c.error = none) ∧
    (∀ c ∈ ((New [MockDialer (some "C0"), MockWrapper "+wrapped"]).Connect "host:80"
        (5 * Second) ()).calls, c.keepsConn) ∧
    ((∃ c, ((New [MockDialer (some "C0"), MockWrapper "+wrapped"]).Connect "host:80"
        (5 * Second) ()).calls[0]? = some c ∧ c.isDial = true) ↔
      ((New [MockDialer (some "C0"), MockWrapper "+wrapped"]).dialGuard "host:80"
          (5 * Second) () 0 ∧
        ∀ j, j < 0 → ¬ (New [MockDialer (some "C0"), MockWrapper "+wrapped"]).dialGuard
          "host:80" (5 * Second) () j)) :=
  ⟨by decide, by decide,
    (Connect_dials_first_dialer_then_wraps.1 Unit String String String
      (New [MockDialer (some "C0"), MockWrapper "+wrapped"]) "host:80" (5 * Second) ()
      (by decide) (by decide)).2.2.2.2 0 (by decide)⟩

/-- C2, as stated, fails: after the dialer on layer 0 has been dialled and a
wrapper has returned no connection and no error, `Connect` invokes `Dial` on
a second layer. -/
theorem Connect_dials_again_after_dropped_conn :
    ((New [MockDialer (some "C0"), MockDropper, MockDialer (some "C1")]).Connect "host:80"
        (5 * Second) ()).calls =
      [Call.dial 0 "host:80" (5 * Second) (some "C0", none),
       Call.conn 1 (some "C0") (none, none),
       Call.dial 2 "host:80" (5 * Second) (some "C1", none)] := by
  decide

/-- C2, amended.  `Connect` invokes `Dial` only while no connection is held.
So whenever every call that returned no error and was to produce a connection
did (a `Dial`, or a `Conn` given a connection, returned one), one call of
`Connect` invokes `Dial` on at most one layer: once a layer has been dialled,
every later layer is invoked through `Conn` only, given the connection held,
whatever its own `IsDialer()` returns. -/
theorem Connect_dials_at_most_once {σ C L E : Type} (o : onion σ C L E) (addr : String)
    (timeout : Int) (s : σ)
    (hkeep : ∀ c ∈ (o.Connect addr timeout s).calls, c.error = none → c.keepsConn) :
    (∀ k c, (o.Connect addr timeout s).calls[k]? = some c → c.isDial = true →
      heldAfter none ((o.Connect addr timeout s).calls.take k) = none) ∧
    (∀ j k cj ck, j < k → (o.Connect addr timeout s).calls[j]? = some cj →
      (o.Connect addr timeout s).calls[k]? = some ck → cj.isDial = true →
      ck = Call.conn k (heldAfter none ((o.Connect addr timeout s).calls.take k))
        (ck.connRet, ck.error) ∧ ck.isDial = false) := by
  have hshape := connectLoop_shape o.verbose addr timeout o.layers 0 none s
  constructor
  · intro k c hc hd
    rcases hshape k c hc with ⟨-, hnone⟩ | hconn
    · exact hnone
    · rw [hconn] at hd
      simp [Call.isDial] at hd
  · intro j k cj ck hjk hcj hck hd
    have hklen : k < (o.Connect addr timeout s).calls.length := by
      rcases List.getElem?_eq_some_iff.1 hck with ⟨h, -⟩
      exact h
    have hheld := connectLoop_held_stays o.verbose addr timeout o.layers none s hkeep
      j cj hcj hd k hjk hklen
    rcases hshape k ck hck with ⟨-, hnone⟩ | hconn
    · rw [hnone] at hheld
      simp at hheld
    · rw [Nat.zero_add] at hconn
      refine ⟨hconn, ?_⟩
      rw [hconn]
      rfl

/-- The hypothesis of `Connect_dials_at_most_once` holds for a stack of two
dialers, where the second one, although `IsDialer()` is true, is invoked
through `Conn` with the connection the first one dialled. -/
theorem Connect_dials_at_most_once_witness :
    (∀ c ∈ ((New [MockDialer (some "C0"), MockDialer (some "C1")]).Connect "host:80"
        (5 * Second) ()).calls, c.error = none → c.keepsConn) ∧
    ((New [MockDialer (some "C0"), MockDialer (some "C1")]).Connect "host:80"
        (5 * Second) ()).calls =
      [Call.dial 0 "host:80" (5 * Second) (some "C0", none),
       Call.conn 1 (some "C0") (some "C0", none)] ∧
    (Call.conn 1 (some "C0") (some "C0", none) : Call String String String).isDial = false :=
  ⟨by decide, by decide,
    ((Connect_dials_at_most_once (New [MockDialer (some "C0"), MockDialer (some "C1")])
      "host:80" (5 * Second) () (by decide)).2 0 1
      (Call.dial 0 "host:80" (5 * Second) (some "C0", none))
      (Call.conn 1 (some "C0") (some "C0", none)) (by decide) (by decide) (by decide)
      (by decide)).2⟩

/-- A stack without a dialer whose `Conn` calls return nothing when given
nothing: every layer is given `Conn(nil)` and `Connect` returns nothing. -/
theorem connectLoop_all_wrappers (v : Bool) (a : String) (t : Int)
    (ls : List (Layer σ C L E))
    (hnd : ∀ layer ∈ ls, ∀ s, layer.IsDialer s = false)
    (hpass : ∀ layer ∈ ls, ∀ s, (layer.Conn none s).1 = (none, none)) :
    ∀ (i : Nat) (s : σ),
      (connectLoop v a t i ls none s).value = none ∧
      (connectLoop v a t i ls none s).err = none ∧
      (connectLoop v a t i ls none s).calls =
        (List.range' i ls.length).map (fun k => Call.conn k none (none, none)) := by
  induction ls with
  | nil => intro i s; simp [connectLoop]
  | cons layer rest ih =>
    intro i s
    have hd0 := hnd layer (List.mem_cons_self _ _) s
    have hp0 := hpass layer (List.mem_cons_self _ _) s
    have ih2 := ih (fun l hl => hnd l (List.mem_cons_of_mem _ hl))
      (fun l hl => hpass l (List.mem_cons_of_mem _ hl))
    rcases connectLoop_cons v a t i layer rest none s with
      ⟨c1, s1, -, hd, -, heq⟩ | ⟨c1, e, s1, -, hd, -, heq⟩ | ⟨c1, s1, -, hc, heq⟩ |
      ⟨c1, e, s1, -, hc, heq⟩
    · rw [hd0] at hd; cases hd
    · rw [hd0] at hd; cases hd
    · rw [hc] at hp0
      simp only [Prod.mk.injEq, and_true] at hp0
      subst hp0
      rw [heq]
      obtain ⟨h1, h2, h3⟩ := ih2 (i + 1) s1
      simp [Outcome.after, h1, h2, h3, List.range'_succ]
    · rw [hc] at hp0
      simp at hp0

/-- C3, as stated, fails: the stack [tls layer] has no dialer, and `Connect`
returns a connection, the one `tls.Client` builds around nothing. -/
theorem Connect_tls_only_returns_a_connection :
    (∀ layer ∈ (New [(TLSLayer mockTLSClient mockTLSListener () :
        Layer Unit String String String)]).layers, ∀ s, layer.IsDialer s = false) ∧
    ((New [(TLSLayer mockTLSClient mockTLSListener () :
        Layer Unit String String String)]).Connect "host:80" (5 * Second) ()).value =
      some "tls.Client(nil)" ∧
    ((New [(TLSLayer mockTLSClient mockTLSListener () :
        Layer Unit String String String)]).Connect "host:80" (5 * Second) ()).err = none := by
  refine ⟨?_, by decide, by decide⟩
  intro layer hl s
  simp only [New, List.mem_singleton] at hl
  subst hl
  rfl

/-- C3, amended.  For every layer list in which no layer's `IsDialer()` is
true and every layer's `Conn`, given no connection, returns no connection and
no error, `Connect` invokes `Conn` once on every layer, in list order, with
no connection, and returns an absent connection and no error.  This includes
the empty list and the one-element list [wrapper]. -/
theorem Connect_without_dialer :
    (∀ (σ C L E : Type) (o : onion σ C L E) (addr : String) (timeout : Int) (s : σ),
      (∀ layer ∈ o.layers, ∀ s, layer.IsDialer s = false) →
      (∀ layer ∈ o.layers, ∀ s, (layer.Conn none s).1 = (none, none)) →
      (o.Connect addr timeout s).value = none ∧
      (o.Connect addr timeout s).err = none ∧
      (o.Connect addr timeout s).calls =
        (List.range o.layers.length).map (fun k => Call.conn k none (none, none))) ∧
    ((New ([] : List (Layer Unit String String String))).Connect "host:80"
        (5 * Second) ()).value = none ∧
    ((New ([] : List (Layer Unit String String String))).Connect "host:80"
        (5 * Second) ()).err = none ∧
    ((New [MockWrapper "+wrapped"]).Connect "host:80" (5 * Second) ()).value = none ∧
    ((New [MockWrapper "+wrapped"]).Connect "host:80" (5 * Second) ()).err = none := by
  refine ⟨?_, by decide, by decide, by decide, by decide⟩
  intro σ C L E o addr timeout s hnd hpass
  have := connectLoop_all_wrappers o.verbose addr timeout o.layers hnd hpass 0 s
  rw [← List.range_eq_range'] at this
  exact this

/-- The hypotheses of `Connect_without_dialer` hold for the stack [wrapper],
whose `Conn` is invoked once, with no connection. -/
theorem Connect_without_dialer_witness :
    (∀ layer ∈ (New [MockWrapper "+wrapped"]).layers, ∀ s, layer.IsDialer s = false) ∧
    (∀ layer ∈ (New [MockWrapper "+wrapped"]).layers, ∀ s,
      (layer.Conn none s).1 = (none, none)) ∧
    ((New [MockWrapper "+wrapped"]).Connect "host:80" (5 * Second) ()).calls =
      (List.range (New [MockWrapper "+wrapped"]).layers.length).map
        (fun k => Call.conn k none (none, none)) :=
  have h1 : ∀ layer ∈ (New [MockWrapper "+wrapped"]).layers, ∀ s,
      layer.IsDialer s = false := by
    intro layer hl s
    simp only [New, List.mem_singleton] at hl
    subst hl
    rfl
  have h2 : ∀ layer ∈ (New [MockWrapper "+wrapped"]).layers, ∀ s,
      (layer.Conn none s).1 = (none, none) := by
    intro layer hl s
    simp only [New, List.mem_singleton] at hl
    subst hl
    rfl
  ⟨h1, h2, (Connect_without_dialer.1 Unit String String String (New [MockWrapper "+wrapped"])
    "host:80" (5 * Second) () h1 h2).2.2⟩

/-- C4.  If a call made by `Connect` (a `Dial` or a `Conn`) returns the error
`e`, then it is the first failing call (no call before it returned an error),
`Connect` returns no connection together with exactly `e`, and no call is
made on any layer after the one that failed: the failing call is the last. -/
theorem Connect_stops_at_first_error {σ C L E : Type} (o : onion σ C L E) (addr : String)
    (timeout : Int) (s : σ) (k : Nat) (c : Call C L E) (e : E)
    (hc : (o.Connect addr timeout s).calls[k]? = some c) (he : c.error = some e) :
    (o.Connect addr timeout s).value = none ∧
    (o.Connect addr timeout s).err = some e ∧
    c.layer = k ∧
    (c.isDial = true ∨ c.isConn = true) ∧
    (∀ j cj, j < k → (o.Connect addr timeout s).calls[j]? = some cj → cj.error = none) ∧
    (o.Connect addr timeout s).calls.length = k + 1 ∧
    (∀ c1 ∈ (o.Connect addr timeout s).calls, c1.layer ≤ k) := by
  obtain ⟨herr, hval, hlen⟩ :=
    connectLoop_failed_call o.verbose addr timeout o.layers 0 none s k c e hc he
  have hshape := connectLoop_shape o.verbose addr timeout o.layers 0 none s
  have hlayer : ∀ (j : Nat) (cj : Call C L E),
      (o.Connect addr timeout s).calls[j]? = some cj → cj.layer = j := by
    intro j cj hcj
    rcases hshape j cj hcj with ⟨h, -⟩ | h <;> rw [h] <;> simp [Call.layer]
  refine ⟨hval, herr, hlayer k c hc, ?_, ?_, hlen, ?_⟩
  · rcases hshape k c hc with ⟨h, -⟩ | h <;> rw [h] <;> simp [Call.isDial, Call.isConn]
  · intro j cj hjk hcj
    exact connectLoop_not_last o.verbose addr timeout o.layers 0 none s j cj hcj
      (by rw [hlen]; omega)
  · intro c1 hc1
    obtain ⟨j, hj⟩ := List.mem_iff_getElem?.1 hc1
    rw [hlayer j c1 hj]
    rcases List.getElem?_eq_some_iff.1 hj with ⟨h, -⟩
    have hlen2 : (o.Connect addr timeout s).calls.length = k + 1 := hlen
    omega

/-- The hypotheses of `Connect_stops_at_first_error` hold for the stack
[dialer, wrapper failing with E, wrapper]: the third layer is never invoked
and `Connect` returns E. -/
theorem Connect_stops_at_first_error_witness :
    ((New [MockDialer (some "C0"), MockFailing "E" false, MockWrapper "+wrapped"]).Connect
        "host:80" (5 * Second) ()).calls[1]? = some (Call.conn 1 (some "C0") (none, some "E")) ∧
    ((New [MockDialer (some "C0"), MockFailing "E" false, MockWrapper "+wrapped"]).Connect
        "host:80" (5 * Second) ()).err = some "E" ∧
    ((New [MockDialer (some "C0"), MockFailing "E" false, MockWrapper "+wrapped"]).Connect
        "host:80" (5 * Second) ()).calls.length = 1 + 1 :=
  have h := Connect_stops_at_first_error
    (New [MockDialer (some "C0"), MockFailing "E" false, MockWrapper "+wrapped"])
    "host:80" (5 * Second) () 1 (Call.conn 1 (some "C0") (none, some "E")) "E"
    (by decide) (by decide)
  ⟨by decide, h.2.1, h.2.2.2.2.2.1⟩

end ConnectLemmas

/-! ## The loop of `Listener` -/

section ListenerLemmas

variable {σ C L E : Type}

theorem listenersThrough_cons (layer : Layer σ C L E) (rest : List (Layer σ C L E))
    (l : Option L) (s : σ) :
    listenersThrough (layer :: rest) l s =
      listenersThrough rest (layer.Listener l s).1.1 (layer.Listener l s).2 := rfl

theorem listenerErrAt_zero (layer : Layer σ C L E) (rest : List (Layer σ C L E))
    (l : Option L) (s : σ) :
    listenerErrAt (layer :: rest) l s 0 = (layer.Listener l s).1.2 := by
  simp [listenerErrAt, listenersThrough]

theorem listenerErrAt_succ (layer : Layer σ C L E) (rest : List (Layer σ C L E))
    (l : Option L) (s : σ) (k : Nat) :
    listenerErrAt (layer :: rest) l s (k + 1) =
      listenerErrAt rest (layer.Listener l s).1.1 (layer.Listener l s).2 k := by
  simp [listenerErrAt, listenersThrough_cons]

theorem addrPanicAt_succ (v : Bool) (Addr : L → σ → AddrResult) (layer : Layer σ C L E)
    (rest : List (Layer σ C L E)) (l : Option L) (s : σ) (k : Nat) :
    addrPanicAt v Addr (layer :: rest) l s (k + 1) =
      addrPanicAt v Addr rest (layer.Listener l s).1.1 (layer.Listener l s).2 k := by
  simp [addrPanicAt, listenersThrough_cons]

/-- The log statement at the head of a turn either writes its lines or
panics, and it panics exactly when `addrPanicAt` says so. -/
theorem listenLog_cases (v : Bool) (Addr : L → σ → AddrResult) (name : String)
    (ls : List (Layer σ C L E)) (l : Option L) (s : σ) :
    (∃ lg, listenLog v Addr name l s = Except.ok lg ∧ addrPanicAt v Addr ls l s 0 = none) ∨
    (∃ msg, listenLog v Addr name l s = Except.error msg ∧
      addrPanicAt v Addr ls l s 0 = some msg) := by
  unfold listenLog addrPanicAt
  cases v with
  | false => simp
  | true =>
    cases l with
    | none => simp [listenersThrough]
    | some l0 =>
      simp only [List.take_zero, listenersThrough, List.foldl_nil, if_true]
      cases Addr l0 s <;> simp

theorem listenerLoop_cons_panic (v : Bool) (Addr : L → σ → AddrResult) (i : Nat)
    (layer : Layer σ C L E) (rest : List (Layer σ C L E)) (l : Option L) (s : σ)
    (msg : String) (hlog : listenLog v Addr layer.Name l s = Except.error msg) :
    listenerLoop v Addr i (layer :: rest) l s =
      { value := none, err := none, state := s, calls := [], logs := [],
        panicked := some msg } := by
  simp only [listenerLoop, hlog]

theorem listenerLoop_cons_err (v : Bool) (Addr : L → σ → AddrResult) (i : Nat)
    (layer : Layer σ C L E) (rest : List (Layer σ C L E)) (l : Option L) (s : σ)
    (lg : List (LogLine L)) (l1 : Option L) (e : E) (s1 : σ)
    (hlog : listenLog v Addr layer.Name l s = Except.ok lg)
    (hcall : layer.Listener l s = ((l1, some e), s1)) :
    listenerLoop v Addr i (layer :: rest) l s =
      { value := l1, err := some e, state := s1,
        calls := [Call.listener i l (l1, some e)], logs := lg, panicked := none } := by
  simp only [listenerLoop, hlog, hcall]

theorem listenerLoop_cons_ok (v : Bool) (Addr : L → σ → AddrResult) (i : Nat)
    (layer : Layer σ C L E) (rest : List (Layer σ C L E)) (l : Option L) (s : σ)
    (lg : List (LogLine L)) (l1 : Option L) (s1 : σ)
    (hlog : listenLog v Addr layer.Name l s = Except.ok lg)
    (hcall : layer.Listener l s = ((l1, none), s1)) :
    listenerLoop v Addr i (layer :: rest) l s =
      (listenerLoop v Addr (i + 1) rest l1 s1).after (Call.listener i l (l1, none)) lg := by
  simp only [listenerLoop, hlog, hcall]

/-- The call of the loop at position `k` is the `Listener` call on layer
`i + k`: that layer's own `Listener`, applied to the listener and the world
the layers before it produced. -/
theorem listenerLoop_call_at (v : Bool) (Addr : L → σ → AddrResult)
    (ls : List (Layer σ C L E)) :
    ∀ (i : Nat) (l : Option L) (s : σ) (k : Nat) (c : Call C L E),
      (listenerLoop v Addr i ls l s).calls[k]? = some c →
      ∃ layer, ls[k]? = some layer ∧
        c = Call.listener (i + k) (listenersThrough (ls.take k) l s).1
          (layer.Listener (listenersThrough (ls.take k) l s).1
            (listenersThrough (ls.take k) l s).2).1 := by
  induction ls with
  | nil => intro i l s k c h; simp [listenerLoop] at h
  | cons layer rest ih =>
    intro i l s k c h
    rcases listenLog_cases v Addr layer.Name (layer :: rest) l s with
      ⟨lg, hlog, -⟩ | ⟨msg, hlog, -⟩
    · rcases hcall : layer.Listener l s with ⟨⟨l1, _ | e⟩, s1⟩
      · rw [listenerLoop_cons_ok v Addr i layer rest l s lg l1 s1 hlog hcall] at h
        cases k with
        | zero =>
          simp [ListenerOutcome.after] at h
          subst h
          exact ⟨layer, by simp, by simp [listenersThrough, hcall]⟩
        | succ k =>
          simp only [ListenerOutcome.after, List.getElem?_cons_succ] at h
          obtain ⟨layer2, h1, h2⟩ := ih (i + 1) l1 s1 k c h
          refine ⟨layer2, by simpa using h1, ?_⟩
          rw [List.take_succ_cons, listenersThrough_cons, hcall,
            show i + (k + 1) = i + 1 + k by omega]
          exact h2
      · rw [listenerLoop_cons_err v Addr i layer rest l s lg l1 e s1 hlog hcall] at h
        cases k with
        | zero =>
          simp at h
          subst h
          exact ⟨layer, by simp, by simp [listenersThrough, hcall]⟩
        | succ k => simp at h
    · rw [listenerLoop_cons_panic v Addr i layer rest l s msg hlog] at h
      simp at h

/-- When no log statement panics and no layer fails, the loop calls every
layer and ends with what the layers applied one after the other give. -/
theorem listenerLoop_all_succeed (v : Bool) (Addr : L → σ → AddrResult)
    (ls : List (Layer σ C L E)) :
    ∀ (i : Nat) (l : Option L) (s : σ),
      (∀ k, k < ls.length → addrPanicAt v Addr ls l s k = none) →
      (∀ k, listenerErrAt ls l s k = none) →
      (listenerLoop v Addr i ls l s).panicked = none ∧
      (listenerLoop v Addr i ls l s).err = none ∧
      (listenerLoop v Addr i ls l s).value = (listenersThrough ls l s).1 ∧
      (listenerLoop v Addr i ls l s).state = (listenersThrough ls l s).2 ∧
      (listenerLoop v Addr i ls l s).calls.length = ls.length := by
  induction ls with
  | nil => intro i l s _ _; simp [listenerLoop, listenersThrough]
  | cons layer rest ih =>
    intro i l s hp he
    have he0 := he 0
    rw [listenerErrAt_zero] at he0
    rcases listenLog_cases v Addr layer.Name (layer :: rest) l s with
      ⟨lg, hlog, -⟩ | ⟨msg, -, hmsg⟩
    · rcases hcall : layer.Listener l s with ⟨⟨l1, e⟩, s1⟩
      rw [hcall] at he0
      simp only at he0
      subst he0
      rw [listenerLoop_cons_ok v Addr i layer rest l s lg l1 s1 hlog hcall,
        listenersThrough_cons, hcall]
      have h := ih (i + 1) l1 s1
        (fun k hk => by
          have := hp (k + 1) (by simpa using hk)
          rwa [addrPanicAt_succ, hcall] at this)
        (fun k => by
          have := he (k + 1)
          rwa [listenerErrAt_succ, hcall] at this)
      simpa [ListenerOutcome.after] using h
    · rw [hp 0 (by simp)] at hmsg
      cases hmsg

/-- When the layer at position `k` is the first to fail, and no log
statement up to it panics, the loop ends there with its error. -/
theorem listenerLoop_first_error (v : Bool) (Addr : L → σ → AddrResult)
    (ls : List (Layer σ C L E)) :
    ∀ (i : Nat) (l : Option L) (s : σ) (k : Nat) (e : E),
      (∀ j, j ≤ k → addrPanicAt v Addr ls l s j = none) →
      (∀ j, j < k → listenerErrAt ls l s j = none) →
      listenerErrAt ls l s k = some e →
      (listenerLoop v Addr i ls l s).panicked = none ∧
      (listenerLoop v Addr i ls l s).err = some e ∧
      (listenerLoop v Addr i ls l s).value = (listenersThrough (ls.take (k + 1)) l s).1 ∧
      (listenerLoop v Addr i ls l s).state = (listenersThrough (ls.take (k + 1)) l s).2 ∧
      (listenerLoop v Addr i ls l s).calls.length = k + 1 := by
  induction ls with
  | nil => intro i l s k e _ _ h; simp [listenerErrAt] at h
  | cons layer rest ih =>
    intro i l s k e hp hlt hk
    rcases listenLog_cases v Addr layer.Name (layer :: rest) l s with
      ⟨lg, hlog, -⟩ | ⟨msg, -, hmsg⟩
    · rcases hcall : layer.Listener l s with ⟨⟨l1, e1⟩, s1⟩
      cases k with
      | zero =>
        rw [listenerErrAt_zero, hcall] at hk
        simp only at hk
        subst hk
        rw [listenerLoop_cons_err v Addr i layer rest l s lg l1 e s1 hlog hcall]
        simp [listenersThrough, hcall]
      | succ k =>
        have he0 := hlt 0 (by omega)
        rw [listenerErrAt_zero, hcall] at he0
        simp only at he0
        subst he0
        rw [listenerLoop_cons_ok v Addr i layer rest l s lg l1 s1 hlog hcall,
          List.take_succ_cons, listenersThrough_cons, hcall]
        have h := ih (i + 1) l1 s1 k e
          (fun j hj => by
            have := hp (j + 1) (by omega)
            rwa [addrPanicAt_succ, hcall] at this)
          (fun j hj => by
            have := hlt (j + 1) (by omega)
            rwa [listenerErrAt_succ, hcall] at this)
          (by rwa [listenerErrAt_succ, hcall] at hk)
        simpa [ListenerOutcome.after] using h
    · rw [hp 0 (by omega)] at hmsg
      cases hmsg

/-- When the log statement before the layer at position `k` is the first
thing to go wrong, the loop panics there: the layers before `k` have been
called, the layer at `k` and those after it have not. -/
theorem listenerLoop_first_panic (v : Bool) (Addr : L → σ → AddrResult)
    (ls : List (Layer σ C L E)) :
    ∀ (i : Nat) (l : Option L) (s : σ) (k : Nat) (msg : String),
      k < ls.length →
      (∀ j, j < k → addrPanicAt v Addr ls l s j = none ∧ listenerErrAt ls l s j = none) →
      addrPanicAt v Addr ls l s k = some msg →
      (listenerLoop v Addr i ls l s).panicked = some msg ∧
      (listenerLoop v Addr i ls l s).state = (listenersThrough (ls.take k) l s).2 ∧
      (listenerLoop v Addr i ls l s).calls.length = k := by
  induction ls with
  | nil => intro i l s k msg hk; simp at hk
  | cons layer rest ih =>
    intro i l s k msg hklt hlt hk
    rcases listenLog_cases v Addr layer.Name (layer :: rest) l s with
      ⟨lg, hlog, hnone⟩ | ⟨msg0, hlog, hmsg⟩
    · cases k with
      | zero =>
        rw [hnone] at hk
        cases hk
      | succ k =>
        rcases hcall : layer.Listener l s with ⟨⟨l1, e1⟩, s1⟩
        have he0 := (hlt 0 (by omega)).2
        rw [listenerErrAt_zero, hcall] at he0
        simp only at he0
        subst he0
        rw [listenerLoop_cons_ok v Addr i layer rest l s lg l1 s1 hlog hcall,
          List.take_succ_cons, listenersThrough_cons, hcall]
        have h := ih (i + 1) l1 s1 k msg (by simpa using hklt)
          (fun j hj => by
            have := hlt (j + 1) (by omega)
            rwa [addrPanicAt_succ, listenerErrAt_succ, hcall] at this)
          (by rwa [addrPanicAt_succ, hcall] at hk)
        simpa [ListenerOutcome.after] using h
    · cases k with
      | zero =>
        rw [hmsg] at hk
        simp only [Option.some.injEq] at hk
        subst hk
        rw [listenerLoop_cons_panic v Addr i layer rest l s msg0 hlog]
        simp [listenersThrough]
      | succ k =>
        rw [(hlt 0 (by omega)).1] at hmsg
        cases hmsg

end ListenerLemmas

/-! ## The loop of `Close` -/

section CloseLemmas

variable {σ C L E : Type}

/-- One turn of the loop of `Close`: the two ways it can go. -/
theorem closeLoop_cons (v : Bool) (i : Nat) (layer : Layer σ C L E)
    (rest : List (Layer σ C L E)) (s : σ) :
    (∃ s1, layer.Close s = (none, s1) ∧
        closeLoop v i (layer :: rest) s =
          (closeLoop v (i + 1) rest s1).after (Call.close i none)
            (logIf v (LogLine.close layer.Name))) ∨
    (∃ e s1, layer.Close s = (some e, s1) ∧
        closeLoop v i (layer :: rest) s =
          { value := none, err := some e, state := s1,
            calls := [Call.close i (some e)], logs := logIf v (LogLine.close layer.Name) }) := by
  rcases hd : layer.Close s with ⟨_ | e, s1⟩
  · left
    exact ⟨s1, rfl, by simp only [closeLoop, hd]⟩
  · right
    exact ⟨e, s1, rfl, by simp only [closeLoop, hd]⟩

theorem closedThrough_cons (layer : Layer σ C L E) (rest : List (Layer σ C L E)) (s : σ) :
    closedThrough (layer :: rest) s = closedThrough rest (layer.Close s).2 := rfl

theorem closeErrAt_zero (layer : Layer σ C L E) (rest : List (Layer σ C L E)) (s : σ) :
    closeErrAt (layer :: rest) s 0 = (layer.Close s).1 := by
  simp [closeErrAt, closedThrough]

theorem closeErrAt_succ (layer : Layer σ C L E) (rest : List (Layer σ C L E)) (s : σ)
    (k : Nat) :
    closeErrAt (layer :: rest) s (k + 1) = closeErrAt rest (layer.Close s).2 k := by
  simp [closeErrAt, closedThrough_cons]

/-- When no layer fails, the loop closes every layer once, in list order,
each in the world the one before left. -/
theorem closeLoop_all_closed (v : Bool) (ls : List (Layer σ C L E)) :
    ∀ (i : Nat) (s : σ),
      (∀ k, closeErrAt ls s k = none) →
      (closeLoop v i ls s).err = none ∧
      (closeLoop v i ls s).state = closedThrough ls s ∧
      (closeLoop v i ls s).calls =
        (List.range ls.length).map (fun k => Call.close (i + k) none) := by
  induction ls with
  | nil => intro i s _; simp [closeLoop, closedThrough]
  | cons layer rest ih =>
    intro i s he
    have he0 := he 0
    rw [closeErrAt_zero] at he0
    rcases closeLoop_cons v i layer rest s with ⟨s1, hcall, heq⟩ | ⟨e, s1, hcall, -⟩
    · rw [heq, closedThrough_cons, hcall]
      obtain ⟨h1, h2, h3⟩ := ih (i + 1) s1 (fun k => by
        have := he (k + 1)
        rwa [closeErrAt_succ, hcall] at this)
      refine ⟨by simpa [Outcome.after] using h1, by simpa [Outcome.after] using h2, ?_⟩
      simp only [Outcome.after, h3, List.length_cons, List.range_succ_eq_map, List.map_cons,
        List.map_map, Nat.add_zero]
      congr 1
      apply List.map_congr_left
      intro k _
      simp only [Function.comp, Nat.succ_eq_add_one]
      congr 1
      omega
    · rw [hcall] at he0
      cases he0

/-- When the layer at position `k` is the first to fail, the loop closes the
layers up to it once each, in list order, and ends with its error. -/
theorem closeLoop_first_failure (v : Bool) (ls : List (Layer σ C L E)) :
    ∀ (i : Nat) (s : σ) (k : Nat) (e : E),
      (∀ j, j < k → closeErrAt ls s j = none) →
      closeErrAt ls s k = some e →
      (closeLoop v i ls s).err = some e ∧
      (closeLoop v i ls s).state = closedThrough (ls.take (k + 1)) s ∧
      (closeLoop v i ls s).calls =
        (List.range k).map (fun j => Call.close (i + j) none) ++
          [Call.close (i + k) (some e)] := by
  induction ls with
  | nil => intro i s k e _ h; simp [closeErrAt] at h
  | cons layer rest ih =>
    intro i s k e hlt hk
    rcases closeLoop_cons v i layer rest s with ⟨s1, hcall, heq⟩ | ⟨e1, s1, hcall, heq⟩
    · cases k with
      | zero =>
        rw [closeErrAt_zero, hcall] at hk
        cases hk
      | succ k =>
        rw [heq, List.take_succ_cons, closedThrough_cons, hcall]
        obtain ⟨h1, h2, h3⟩ := ih (i + 1) s1 k e
          (fun j hj => by
            have := hlt (j + 1) (by omega)
            rwa [closeErrAt_succ, hcall] at this)
          (by rwa [closeErrAt_succ, hcall] at hk)
        refine ⟨by simpa [Outcome.after] using h1, by simpa [Outcome.after] using h2, ?_⟩
        simp only [Outcome.after, h3, List.range_succ_eq_map, List.map_cons, List.map_map,
          Nat.add_zero, List.cons_append]
        congr 1
        rw [show i + 1 + k = i + (k + 1) by omega]
        congr 1
        apply List.map_congr_left
        intro j _
        simp only [Function.comp, Nat.succ_eq_add_one]
        congr 1
        omega
    · cases k with
      | zero =>
        rw [closeErrAt_zero, hcall] at hk
        simp only [Option.some.injEq] at hk
        subst hk
        rw [heq]
        simp [closedThrough, hcall]
      | succ k =>
        have := hlt 0 (by omega)
        rw [closeErrAt_zero, hcall] at this
        cases this

end CloseLemmas

/-! ## Claims about `Listener` and `Close` -/

/-- C5 (what the code does).  For every layer list, every starting listener
(possibly absent), every world and every behaviour of `Addr()`, in terms of
the layers' own `Listener` functions applied one after the other
(`listenersThrough`).  (1) The call made at position `k` is the `Listener`
of layer `k`, applied to the listener and the world the layers before it
produced, and the call's recorded result is what that function returns.
(2) If no log statement panics and no layer fails, every layer is called,
and the result is the last layer's listener (the starting listener for the
empty list) with no error.  (3) If layer `k` is the first to fail, with `e`,
and no log statement up to it panics, then `Listener` returns `e` and what
that call returned, after exactly `k + 1` calls.  (4) If the log statement
before layer `k` is the first thing to go wrong, `Listener` panics with the
panic value of `l.Addr()` after exactly `k` calls: layer `k` is never given
the listener of layer `k - 1`.  (5) No log statement panics when the engine
is not verbose, so that (2) and (3) then hold as they stand.  (6) A log
statement panics only in a verbose engine that holds a listener whose
`Addr()` panics. -/
theorem Listener_wraps_in_list_order {σ C L E : Type} (o : onion σ C L E)
    (Addr : L → σ → AddrResult) ( in_ : Option L) (s : σ) :
    (∀ k c, (o.Listener Addr in_ s).calls[k]? = some c →
      ∃ layer, o.layers[k]? = some layer ∧
        c = Call.listener k (listenersThrough (o.layers.take k) in_ s).1
          (layer.Listener (listenersThrough (o.layers.take k) in_ s).1
            (listenersThrough (o.layers.take k) in_ s).2).1) ∧
    ((∀ k, k < o.layers.length → addrPanicAt o.verbose Addr o.layers in_ s k = none) →
      (∀ k, listenerErrAt o.layers in_ s k = none) →
      (o.Listener Addr in_ s).panicked = none ∧
      (o.Listener Addr in_ s).err = none ∧
      (o.Listener Addr in_ s).value = (listenersThrough o.layers in_ s).1 ∧
      (o.Listener Addr in_ s).state = (listenersThrough o.layers in_ s).2 ∧
      (o.Listener Addr in_ s).calls.length = o.layers.length ∧
      (o.layers = [] → (o.Listener Addr in_ s).value = in_)) ∧
    (∀ k e, (∀ j, j ≤ k → addrPanicAt o.verbose Addr o.layers in_ s j = none) →
      (∀ j, j < k → listenerErrAt o.layers in_ s j = none) →
      listenerErrAt o.layers in_ s k = some e →
      (o.Listener Addr in_ s).panicked = none ∧
      (o.Listener Addr in_ s).err = some e ∧
      (o.Listener Addr in_ s).value = (listenersThrough (o.layers.take (k + 1)) in_ s).1 ∧
      (o.Listener Addr in_ s).state = (listenersThrough (o.layers.take (k + 1)) in_ s).2 ∧
      (o.Listener Addr in_ s).calls.length = k + 1) ∧
    (∀ k msg, k < o.layers.length →
      (∀ j, j < k → addrPanicAt o.verbose Addr o.layers in_ s j = none ∧
        listenerErrAt o.layers in_ s j = none) →
      addrPanicAt o.verbose Addr o.layers in_ s k = some msg →
      (o.Listener Addr in_ s).panicked = some msg ∧
      (o.Listener Addr in_ s).state = (listenersThrough (o.layers.take k) in_ s).2 ∧
      (o.Listener Addr in_ s).calls.length = k) ∧
    (o.verbose = false → ∀ k, addrPanicAt o.verbose Addr o.layers in_ s k = none) ∧
    (∀ k msg, addrPanicAt o.verbose Addr o.layers in_ s k = some msg →
      o.verbose = true ∧
      ∃ l0, (listenersThrough (o.layers.take k) in_ s).1 = some l0 ∧
        Addr l0 (listenersThrough (o.layers.take k) in_ s).2 = AddrResult.panicked msg) := by
  refine ⟨?_, ?_, ?_, ?_, ?_, ?_⟩
  · intro k c hc
    have h := listenerLoop_call_at o.verbose Addr o.layers 0 in_ s k c hc
    rw [Nat.zero_add] at h
    exact h
  · intro hp he
    obtain ⟨h1, h2, h3, h4, h5⟩ := listenerLoop_all_succeed o.verbose Addr o.layers 0 in_ s hp he
    refine ⟨h1, h2, h3, h4, h5, ?_⟩
    intro hnil
    simp [onion.Listener, hnil, listenerLoop]
  · intro k e hp hlt hk
    exact listenerLoop_first_error o.verbose Addr o.layers 0 in_ s k e hp hlt hk
  · intro k msg hklt hlt hk
    exact listenerLoop_first_panic o.verbose Addr o.layers 0 in_ s k msg hklt hlt hk
  · intro hv k
    simp [addrPanicAt, hv]
  · intro k msg hk
    unfold addrPanicAt at hk
    cases hv : o.verbose with
    | false => simp [hv] at hk
    | true =>
      simp only [hv, if_true] at hk
      refine ⟨rfl, ?_⟩
      cases hl : (listenersThrough (o.layers.take k) in_ s).1 with
      | none => simp [hl] at hk
      | some l0 =>
        simp only [hl] at hk
        refine ⟨l0, rfl, ?_⟩
        cases ha : Addr l0 (listenersThrough (o.layers.take k) in_ s).2 with
        | returned a => simp [ha] at hk
        | panicked m =>
          simp only [ha, Option.some.injEq] at hk
          rw [hk]

/-- The statement of `Listener_wraps_in_list_order` at five runs.  The
stack of two sch layers, verbose, called with no listener: the first layer
wraps nil, the log statement before the second layer calls `Addr()` on that
wrapper and panics, after one call.  The same stack, not verbose: both layers
are called and a listener is returned with no error.  The journalling stack
[a, b, c] from the listener "l0": all three layers are called in order and
the result is "c(b(a(l0)))".  The same stack with b failing with E: layer b
is given "a(l0)", `Listener` returns E after two calls and c is never
invoked.  The journalling stack [a, b], verbose, from no listener: both
layers are called and the lines logged are `listen init` and
`listen => addr of a(nil)`. -/
theorem Listener_wraps_in_list_order_witness :
    ((New [(Sch.NewLayer []).asLayer Sch.mockSchannelDial,
            (Sch.NewLayer []).asLayer Sch.mockSchannelDial]).Listener
        (fun l _ => l.Addr) none ()).panicked = none ∧
    ((New [(Sch.NewLayer []).asLayer Sch.mockSchannelDial,
            (Sch.NewLayer []).asLayer Sch.mockSchannelDial]).Listener
        (fun l _ => l.Addr) none ()).err = none ∧
    ((New [(Sch.NewLayer []).asLayer Sch.mockSchannelDial,
            (Sch.NewLayer []).asLayer Sch.mockSchannelDial]).Listener
        (fun l _ => l.Addr) none ()).value.isSome = true ∧
    ((New [(Sch.NewLayer []).asLayer Sch.mockSchannelDial,
            (Sch.NewLayer []).asLayer Sch.mockSchannelDial]).Listener
        (fun l _ => l.Addr) none ()).calls.length = 2 ∧
    ((New [MockRecorder "a" none, MockRecorder "b" none]).SetVerbose true).Listener
        mockAddr none [] =
      { value := some "b(a(nil))", err := none, state := ["a.Listener", "b.Listener"],
        calls := [Call.listener 0 none (some "a(nil)", none),
                  Call.listener 1 (some "a(nil)") (some "b(a(nil))", none)],
        logs := [LogLine.listenInit "a", LogLine.listen "b" "a(nil)" "addr of a(nil)"],
        panicked := none } ∧
    (((New [(Sch.NewLayer []).asLayer Sch.mockSchannelDial,
              (Sch.NewLayer []).asLayer Sch.mockSchannelDial]).SetVerbose true).Listener
        (fun l _ => l.Addr) none ()).panicked = some Tor.nilDeref ∧
    (((New [(Sch.NewLayer []).asLayer Sch.mockSchannelDial,
              (Sch.NewLayer []).asLayer Sch.mockSchannelDial]).SetVerbose true).Listener
        (fun l _ => l.Addr) none ()).calls.length = 1 ∧
    (New [MockRecorder "a" none, MockRecorder "b" none, MockRecorder "c" none]).Listener
        mockAddr (some "l0") [] =
      { value := some "c(b(a(l0)))", err := none,
        state := ["a.Listener", "b.Listener", "c.Listener"],
        calls := [Call.listener 0 (some "l0") (some "a(l0)", none),
                  Call.listener 1 (some "a(l0)") (some "b(a(l0))", none),
                  Call.listener 2 (some "b(a(l0))") (some "c(b(a(l0)))", none)],
        logs := [], panicked := none } ∧
    ((New [MockRecorder "a" none, MockRecorder "b" none, MockRecorder "c" none]).Listener
        mockAddr (some "l0") []).value =
      (listenersThrough [MockRecorder "a" none, MockRecorder "b" none, MockRecorder "c" none]
        (some "l0") []).1 ∧
    (New [MockRecorder "a" none, MockRecorder "b" (some "E"), MockRecorder "c" none]).Listener
        mockAddr (some "l0") [] =
      { value := none, err := some "E", state := ["a.Listener", "b.Listener"],
        calls := [Call.listener 0 (some "l0") (some "a(l0)", none),
                  Call.listener 1 (some "a(l0)") (none, some "E")],
        logs := [], panicked := none } ∧
    ((New [MockRecorder "a" none, MockRecorder "b" (some "E"), MockRecorder "c" none]).Listener
        mockAddr (some "l0") []).calls.length = 1 + 1 :=
  ⟨by decide, by decide, by decide, by decide, by decide,
    ((Listener_wraps_in_list_order
      ((New [(Sch.NewLayer []).asLayer Sch.mockSchannelDial,
              (Sch.NewLayer []).asLayer Sch.mockSchannelDial]).SetVerbose true)
      (fun l _ => l.Addr) none ()).2.2.2.1 1 Tor.nilDeref (by decide)
      (by intro j hj; interval_cases j; exact ⟨by decide, by decide⟩) (by decide)).1,
    by decide, by decide,
    ((Listener_wraps_in_list_order
      (New [MockRecorder "a" none, MockRecorder "b" none, MockRecorder "c" none])
      mockAddr (some "l0") []).2.1
      (by intro k _; rfl)
      (by
        intro k
        rcases k with _ | _ | _ | _ | k <;> first | decide | rfl)).2.2.1,
    by decide,
    ((Listener_wraps_in_list_order
      (New [MockRecorder "a" none, MockRecorder "b" (some "E"), MockRecorder "c" none])
      mockAddr (some "l0") []).2.2.1 1 "E" (by intro j _; rfl)
      (by intro j hj; interval_cases j; decide) (by decide)).2.2.2.2⟩

/-- C6.  For every layer list and every world, in terms of the layers' own
`Close` functions applied one after the other (`closedThrough`).  If no
layer fails, `Close` returns nil, has called `Close` exactly once on every
layer, in list order, and leaves the world every layer's `Close` has acted
on in turn.  If the layer at position `k` is the first to return an error
`e`, then `Close` returns `e`; the calls it made are one `Close` on each of
the layers before `k`, in list order, then the one on layer `k`; the world is
the one those `k + 1` functions leave, so no layer after `k` is closed.  For
[A, B failing with E, C], `Close` returns E and `C.Close` is never
invoked. -/
theorem Close_stops_at_first_error {σ C L E : Type} (o : onion σ C L E) (s : σ) :
    ((∀ k, closeErrAt o.layers s k = none) →
      (o.Close s).err = none ∧
      (o.Close s).state = closedThrough o.layers s ∧
      (o.Close s).calls = (List.range o.layers.length).map (fun k => Call.close k none)) ∧
    (∀ k e, (∀ j, j < k → closeErrAt o.layers s j = none) →
      closeErrAt o.layers s k = some e →
      (o.Close s).err = some e ∧
      (o.Close s).state = closedThrough (o.layers.take (k + 1)) s ∧
      (o.Close s).calls =
        (List.range k).map (fun j => Call.close j none) ++ [Call.close k (some e)]) ∧
    (∀ (A B D : Layer σ C L E) (e : E), o.layers = [A, B, D] →
      (A.Close s).1 = none → (B.Close (A.Close s).2).1 = some e →
      (o.Close s).err = some e ∧
      (o.Close s).state = (B.Close (A.Close s).2).2 ∧
      (o.Close s).calls = [Call.close 0 none, Call.close 1 (some e)]) := by
  refine ⟨?_, ?_, ?_⟩
  · intro he
    have h := closeLoop_all_closed o.verbose o.layers 0 s he
    simpa only [Nat.zero_add] using h
  · intro k e hlt hk
    have h := closeLoop_first_failure o.verbose o.layers 0 s k e hlt hk
    simpa only [Nat.zero_add] using h
  · intro A B D e hl hA hB
    rcases hA2 : A.Close s with ⟨r, s1⟩
    rw [hA2] at hA hB
    simp only at hA hB
    subst hA
    rcases hB2 : B.Close s1 with ⟨r2, s2⟩
    rw [hB2] at hB
    simp only at hB
    subst hB
    simp [onion.Close, hl, closeLoop, hA2, hB2, Outcome.after]

/-- The statement of `Close_stops_at_first_error` at two runs of journalling
layers.  With no layer failing, [a, b, c] is closed in order, once each, and
`Close` returns nil.  With b failing with E, `Close` returns E after closing
a and b, and c is not closed. -/
theorem Close_stops_at_first_error_witness :
    (New [MockRecorder "a" none, MockRecorder "b" none, MockRecorder "c" none]).Close [] =
      { value := none, err := none, state := ["a.Close", "b.Close", "c.Close"],
        calls := [Call.close 0 none, Call.close 1 none, Call.close 2 none], logs := [] } ∧
    ((New [MockRecorder "a" none, MockRecorder "b" none, MockRecorder "c" none]).Close
        []).state =
      closedThrough [MockRecorder "a" none, MockRecorder "b" none, MockRecorder "c" none] [] ∧
    (New [MockRecorder "a" none, MockRecorder "b" (some "E"), MockRecorder "c" none]).Close [] =
      { value := none, err := some "E", state := ["a.Close", "b.Close"],
        calls := [Call.close 0 none, Call.close 1 (some "E")], logs := [] } ∧
    ((New [MockRecorder "a" none, MockRecorder "b" (some "E"), MockRecorder "c" none]).Close
        []).err = some "E" :=
  ⟨by decide,
    ((Close_stops_at_first_error
      (New [MockRecorder "a" none, MockRecorder "b" none, MockRecorder "c" none]) []).1
      (by
        intro k
        rcases k with _ | _ | _ | _ | k <;> first | decide | rfl)).2.1,
    by decide,
    ((Close_stops_at_first_error
      (New [MockRecorder "a" none, MockRecorder "b" (some "E"), MockRecorder "c" none])
      []).2.1 1 "E" (by intro j hj; interval_cases j; decide) (by decide)).1⟩

end Onion

namespace Tor

/-! ## Sequencing and deferred calls -/

section TorLemmas

variable {ω : Type}

theorem andThen_ok {α β : Type} (m : M ω α) (f : α → M ω β) (st st2 : St ω) (b : β) :
    m.andThen f st = (Res.ok b, st2) ↔
      ∃ a st1, m st = (Res.ok a, st1) ∧ f a st1 = (Res.ok b, st2) := by
  unfold M.andThen
  rcases h : m st with ⟨r, st1⟩
  cases r with
  | ok a =>
    constructor
    · intro h2; exact ⟨a, st1, rfl, h2⟩
    · rintro ⟨a2, s2, h3, h4⟩
      cases h3
      exact h4
  | panic msg => simp
  | fatal msg => simp
  | blocked => simp

theorem deferring_ok {α : Type} (d : M ω Unit) (body : M ω α) (st st2 : St ω) (a : α) :
    M.deferring d body st = (Res.ok a, st2) ↔
      ∃ st1, body st = (Res.ok a, st1) ∧ d st1 = (Res.ok (), st2) := by
  unfold M.deferring
  rcases h : body st with ⟨r, st1⟩
  rcases hd : d st1 with ⟨r2, st3⟩
  cases r <;> cases r2 <;> simp [hd]
  constructor
  · rintro ⟨rfl, rfl⟩
    exact ⟨st1, ⟨rfl, rfl⟩, hd⟩
  · rintro ⟨s1, ⟨rfl, rfl⟩, h4⟩
    rw [hd] at h4
    simp only [Prod.mk.injEq, true_and] at h4
    exact ⟨rfl, h4⟩

theorem Lock_ok (st st1 : St ω) (u : Unit) (h : Lock st = (Res.ok u, st1)) :
    st.layer.mutex.locked = false ∧
      st1 = emit Event.lock { st with layer := { st.layer with mutex := { locked := true } } } := by
  unfold Lock at h
  split at h
  · simp at h
  · simp only [Prod.mk.injEq, true_and] at h
    exact ⟨by simpa using ‹¬ st.layer.mutex.locked = true›, h.symm⟩

theorem Unlock_ok (st st1 : St ω) (u : Unit) (h : Unlock st = (Res.ok u, st1)) :
    st.layer.mutex.locked = true ∧
      st1 = emit Event.unlock
        { st with layer := { st.layer with mutex := { locked := false } } } := by
  unfold Unlock at h
  split at h
  · simp only [Prod.mk.injEq, true_and] at h
    exact ⟨‹st.layer.mutex.locked = true›, h.symm⟩
  · simp at h

theorem Unlock_unlocked (st : St ω) (h : st.layer.mutex.locked = false) :
    Unlock st = (Res.fatal "sync: unlock of unlocked mutex", st) := by
  simp [Unlock, h]

theorem addOnionRequests_append (xs ys : List Event) :
    addOnionRequests (xs ++ ys) = addOnionRequests xs ++ addOnionRequests ys := by
  simp [addOnionRequests, List.filterMap_append]

theorem KeepsOptions.andThen {α β : Type} {m : M ω α} {f : α → M ω β}
    (hm : KeepsOptions m) (hf : ∀ a, KeepsOptions (f a)) : KeepsOptions (m.andThen f) := by
  intro st
  unfold M.andThen
  have h1 := hm st
  rcases h : m st with ⟨r, st1⟩
  rw [h] at h1
  cases r with
  | ok a =>
    have h2 := hf a st1
    exact ⟨h2.1.trans h1.1, h2.2.trans h1.2⟩
  | panic msg => exact h1
  | fatal msg => exact h1
  | blocked => exact h1

theorem KeepsOptions.deferring {α : Type} {d : M ω Unit} {body : M ω α}
    (hd : KeepsOptions d) (hb : KeepsOptions body) : KeepsOptions (M.deferring d body) := by
  intro st
  unfold M.deferring
  have h1 := hb st
  rcases h : body st with ⟨r, st1⟩
  rw [h] at h1
  have h2 := hd st1
  rcases h3 : d st1 with ⟨r2, st2⟩
  rw [h3] at h2
  have h4 : st2.layer.o = st.layer.o ∧ addOnionRequests st2.trace = addOnionRequests st.trace :=
    ⟨h2.1.trans h1.1, h2.2.trans h1.2⟩
  cases r <;> cases r2 <;> simp only [h3] <;> first | exact h4 | exact h1

theorem KeepsOptions_Lock : KeepsOptions (Lock : M ω Unit) := by
  intro st
  unfold Lock
  split <;> simp [emit, addOnionRequests_append, addOnionRequests]

theorem KeepsOptions_Unlock : KeepsOptions (Unlock : M ω Unit) := by
  intro st
  unfold Unlock
  split <;> simp [emit, addOnionRequests_append, addOnionRequests]

theorem KeepsOptions_FreePort (env : Env ω) : KeepsOptions (FreePort env) := by
  intro st
  unfold FreePort
  split
  · simp [emit, addOnionRequests_append, addOnionRequests]
  · dsimp only
    split
    · simp [emit, addOnionRequests_append, addOnionRequests]
    · simp [emit, addOnionRequests_append, addOnionRequests]
    · split <;> simp [emit, addOnionRequests_append, addOnionRequests]

theorem KeepsOptions_torClient (env : Env ω) : KeepsOptions (Layer.torClient env) := by
  intro st
  unfold Layer.torClient
  split
  · simp
  · refine KeepsOptions.andThen (KeepsOptions_FreePort env) (fun p1 => ?_) st
    refine KeepsOptions.andThen (KeepsOptions_FreePort env) (fun p2 => ?_)
    intro st1
    dsimp only
    split <;> simp [emit, addOnionRequests_append, addOnionRequests]

theorem KeepsOptions_torControl (env : Env ω) : KeepsOptions (Layer.torControl env) := by
  unfold Layer.torControl
  refine KeepsOptions.andThen KeepsOptions_Lock (fun _ => ?_)
  refine KeepsOptions.deferring KeepsOptions_Unlock ?_
  intro st1
  dsimp only
  split
  · simp
  · refine KeepsOptions.andThen (KeepsOptions_torClient env) (fun r => ?_) st1
    intro st2
    dsimp only
    split
    · simp
    · simp
    · split <;> simp [emit, addOnionRequests_append, addOnionRequests]

/-- The control connection `torControl` returns without an error is the one
the layer holds afterwards. -/
theorem torControl_ok_control (env : Env ω) (st st1 : St ω) (c : Option Control)
    (h : Layer.torControl env st = (Res.ok (c, none), st1)) : st1.layer.control = c := by
  unfold Layer.torControl at h
  rw [andThen_ok] at h
  obtain ⟨u, sl, -, hd⟩ := h
  rw [deferring_ok] at hd
  obtain ⟨sb, hb, hu⟩ := hd
  have hst1 := (Unlock_ok sb st1 () hu).2
  have hc : st1.layer.control = sb.layer.control := by rw [hst1]; rfl
  rw [hc]
  dsimp only at hb
  split at hb
  · rename_i k hk
    simp only [Prod.mk.injEq, Res.ok.injEq, and_true] at hb
    obtain ⟨rfl, rfl⟩ := hb
    exact hk
  · rw [andThen_ok] at hb
    obtain ⟨r, s2, -, hf⟩ := hb
    split at hf
    · simp at hf
    · simp at hf
    · split at hf
      · simp at hf
      · simp only [Prod.mk.injEq, Res.ok.injEq, and_true] at hf
        obtain ⟨rfl, rfl⟩ := hf
        rfl

/-- How `Listener` returns a listener: the local listener has a TCP address,
`torControl` returned a control connection, and the last thing done is the
registration request on it, for the configured port, or the local one when
none is configured. -/
theorem Listener_ok (env : Env ω) (l : Option Lis) (st st2 : St ω) (tl : listener)
    (h : Layer.Listener env l st = (Res.ok (some tl, none), st2)) :
    ∃ l0 addr k info st1,
      l = some l0 ∧ env.ListenerAddr l0 st.world = NetAddr.tcp addr ∧
      Layer.torControl env st = (Res.ok (some k, none), st1) ∧
      tl = { Listener := some l0,
             address := { Port := if st.layer.o.port = 0 then uint16 addr.Port
                                  else st.layer.o.port,
                          OnionInfo := info },
             control := some k } ∧
      st2.trace = st1.trace ++
        [Event.addOnion k
          [{ VirtPort := if st.layer.o.port = 0 then uint16 addr.Port else st.layer.o.port,
             Target := Itoa addr.Port }] none true (info, none)] := by
  unfold Layer.Listener at h
  split at h
  · simp at h
  · rename_i l0
    split at h
    · simp at h
    · rename_i addr haddr
      rw [andThen_ok] at h
      obtain ⟨r, st1, htc, hf⟩ := h
      have ho := (KeepsOptions_torControl env st).1
      rw [htc] at ho
      dsimp only at hf ho
      split at hf
      · simp at hf
      · rename_i control
        split at hf
        · simp at hf
        · rename_i k
          have hctl := torControl_ok_control env st st1 (some k) htc
          split at hf
          · simp at hf
          · rename_i info w2 hadd
            simp only [Prod.mk.injEq, Res.ok.injEq, Option.some.injEq, and_true] at hf
            obtain ⟨rfl, rfl⟩ := hf
            refine ⟨l0, addr, k, info, st1, rfl, haddr, htc, ?_, ?_⟩
            · rw [ho, hctl]
            · rw [ho]
              rfl

/-! ## Claims about the tor layer -/

/-- C7 (what the code does).  Whenever resolving the proxy endpoint fails
with an error `e`, `getProxy` has already released the mutex it acquired,
and the `Unlock` in the error branch of `Dial` releases a mutex that is not
locked: the Go runtime stops the program with "sync: unlock of unlocked
mutex", and `Dial` does not return `e`. -/
theorem Dial_unlocks_unlocked_mutex (env : Env ω) (st : St ω) (addr : String)
    (timeout : Int) (p : String) (e : Error)
    (h : (Layer.getProxy env st).1 = Res.ok (p, some e)) :
    (Layer.getProxy env st).2.layer.mutex.locked = false ∧
    Layer.Dial env addr timeout st =
      (Res.fatal "sync: unlock of unlocked mutex", (Layer.getProxy env st).2) := by
  rcases hg : Layer.getProxy env st with ⟨r, st1⟩
  rw [hg] at h
  simp only at h
  subst h
  have hunl : st1.layer.mutex.locked = false := by
    unfold Layer.getProxy at hg
    split at hg
    · simp at hg
    · rw [andThen_ok] at hg
      obtain ⟨u, sl, -, hd⟩ := hg
      rw [deferring_ok] at hd
      obtain ⟨sb, -, hu⟩ := hd
      rw [(Unlock_ok sb st1 () hu).2]
      rfl
  refine ⟨hunl, ?_⟩
  unfold Layer.Dial M.andThen
  rw [hg]
  simp only
  rw [Unlock_unlocked st1 hunl]

/-- The hypothesis of `Dial_unlocks_unlocked_mutex` holds for a layer built
with no option in a world where launching tor fails with E: resolving the
proxy endpoint fails with E after one launch, and `Dial` ends in the fatal
error. -/
theorem Dial_unlocks_unlocked_mutex_witness :
    (Layer.getProxy mockEnv
        (start (NewLayer []) { mockWorld with launchError := some "E" })).1 =
      Res.ok ("", some "E") ∧
    launches (Layer.getProxy mockEnv
        (start (NewLayer []) { mockWorld with launchError := some "E" })).2.trace =
      [(none, some "E")] ∧
    (Layer.Dial mockEnv "example.onion:80" (5 * Onion.Second)
        (start (NewLayer []) { mockWorld with launchError := some "E" })).1 =
      Res.fatal "sync: unlock of unlocked mutex" :=
  ⟨by decide, by decide,
    congrArg Prod.fst (Dial_unlocks_unlocked_mutex mockEnv
      (start (NewLayer []) { mockWorld with launchError := some "E" })
      "example.onion:80" (5 * Onion.Second) "" "E" (by decide)).2⟩

/-- C8.  For every listener `tl` returned by the layer's `Listener`, with the
rendezvous id of the registration that made it: `tl` holds the local listener
and the control connection of that registration, and from any state, if
closing the local listener fails with `e`, `Close` returns `e` and does
nothing else (no `DeleteOnion` request is sent); if it succeeds, `Close`
then sends exactly one `DeleteOnion` request, for that id on that control
connection, and returns its result. -/
theorem listener_Close_deletes_after_local_close (env : Env ω) (l : Option Lis)
    (st st2 : St ω) (tl : listener) (info : OnionInfo)
    (h : Layer.Listener env l st = (Res.ok (some tl, none), st2))
    (hinfo : tl.address.OnionInfo = some info) :
    ∃ l0 k ports,
      l = some l0 ∧ tl.Listener = some l0 ∧ tl.control = some k ∧
      st2.trace.getLast? = some (Event.addOnion k ports none true (some info, none)) ∧
      ∀ st3 : St ω,
        (∀ e w1, env.ListenerClose l0 st3.world = (some e, w1) →
          listener.Close env tl st3 =
            (Res.ok (some e),
              { st3 with world := w1,
                         trace := st3.trace ++ [Event.listenerClose l0 (some e)] })) ∧
        (∀ w1, env.ListenerClose l0 st3.world = (none, w1) →
          listener.Close env tl st3 =
            (Res.ok (env.DeleteOnion k info.OnionID w1).1,
              { st3 with world := (env.DeleteOnion k info.OnionID w1).2,
                         trace := st3.trace ++
                           [Event.listenerClose l0 none,
                            Event.deleteOnion k info.OnionID
                              (env.DeleteOnion k info.OnionID w1).1] })) := by
  obtain ⟨l0, addr, k, info1, st1, hl, -, -, htl, htr⟩ := Listener_ok env l st st2 tl h
  subst htl
  simp only at hinfo
  subst hinfo
  refine ⟨l0, k,
    [{ VirtPort := if st.layer.o.port = 0 then uint16 addr.Port else st.layer.o.port,
       Target := Itoa addr.Port }], hl, rfl, rfl, by rw [htr]; simp, ?_⟩
  intro st3
  constructor
  · intro e w1 hc
    simp [listener.Close, hc, emit]
  · intro w1 hc
    simp [listener.Close, hc, emit]

/-- The hypotheses of `listener_Close_deletes_after_local_close` hold for
the listener of the scenarios; when closing the local listener fails with E
its `Close` returns E and sends no `DeleteOnion` request, and when it
succeeds one request is sent, for the id of the listener. -/
theorem listener_Close_deletes_after_local_close_witness :
    Layer.Listener mockEnv (some { id := 7 })
        (Layer.Dial mockEnv "example.onion:80" (5 * Onion.Second)
          (start (NewLayer []) mockWorld)).2 =
      (Res.ok (some usedListener, none), usedLayer) ∧
    usedListener.address.OnionInfo =
      some { OnionID := "abcdefghijklmnop", PrivateKey := none } ∧
    listener.Close mockEnv usedListener
        (start usedLayer.layer { mockWorld with localCloseError := some "E" }) =
      (Res.ok (some "E"),
        { start usedLayer.layer { mockWorld with localCloseError := some "E" } with
          trace := [Event.listenerClose { id := 7 } (some "E")] }) ∧
    deleteOnionRequests
        (listener.Close mockEnv usedListener (start usedLayer.layer mockWorld)).2.trace =
      [({ id := 1 }, "abcdefghijklmnop")] := by
  refine ⟨by decide, by decide, ?_, by decide⟩
  obtain ⟨l0, k, ports, hl, -, -, -, hclose⟩ :=
    listener_Close_deletes_after_local_close mockEnv (some { id := 7 })
      (Layer.Dial mockEnv "example.onion:80" (5 * Onion.Second)
        (start (NewLayer []) mockWorld)).2 usedLayer usedListener
      { OnionID := "abcdefghijklmnop", PrivateKey := none } (by decide) (by decide)
  cases hl
  exact (hclose (start usedLayer.layer { mockWorld with localCloseError := some "E" })).1
    "E" { mockWorld with localCloseError := some "E" } rfl

theorem uint16_of_port (P : Int) (h0 : 0 ≤ P) (h1 : P ≤ 65535) : uint16 P = P.toNat := by
  unfold uint16
  rw [Int.emod_eq_of_lt h0 (by omega)]

theorem Itoa_of_nonneg (P : Int) (h0 : 0 ≤ P) : Itoa P = toString P.toNat := by
  unfold Itoa
  cases P with
  | ofNat n => rfl
  | negSucc n => exact absurd h0 (by simp)

/-- C9.  For every local listener `l0` bound to TCP port `P`
(0 <= P <= 65535) and every layer that obtains its control connection `k`
(`torControl` returns `k`, leaving the state `st1`).  With no external port
configured (port option 0): if the registration request mapping external
port `P` to local target "P" succeeds on `k` with the rendezvous information
`info`, then `Listener` returns, with no error, the listener made of `l0`,
`k` and the address with port `P`, which renders as "I.onion:P", and the
request it sent is that one and no other.  With a configured external port
`Q` other than 0: if the request mapping `Q` to local target "P" succeeds,
`Listener` returns the listener whose address has port `Q`, rendering as
"I.onion:Q", and the request it sent is that one and no other. -/
theorem Listener_advertises_port (env : Env ω) (l0 : Lis) (st st1 : St ω) (k : Control)
    (ip : String) (P : Int)
    (haddr : env.ListenerAddr l0 st.world = NetAddr.tcp { IP := ip, Port := P })
    (h0 : 0 ≤ P) (h1 : P ≤ 65535)
    (hctl : Layer.torControl env st = (Res.ok (some k, none), st1)) :
    (st.layer.o.port = 0 →
      ∀ (info : OnionInfo) (w2 : ω),
        env.AddOnion k [{ VirtPort := P.toNat, Target := Itoa P }] none true st1.world =
          ((some info, none), w2) →
        Layer.Listener env (some l0) st =
          (Res.ok (some { Listener := some l0, control := some k,
                          address := { OnionInfo := some info, Port := P.toNat } }, none),
            emit (Event.addOnion k [{ VirtPort := P.toNat, Target := Itoa P }] none true
                (some info, none)) { st1 with world := w2 }) ∧
        ((P.toNat : Nat) : Int) = P ∧
        (listener.Addr { Listener := some l0, control := some k,
                         address := { OnionInfo := some info, Port := P.toNat } }).String =
          Res.ok (info.OnionID ++ ".onion:" ++ Itoa P) ∧
        addOnionRequests (Layer.Listener env (some l0) st).2.trace =
          addOnionRequests st.trace ++ [(k, [{ VirtPort := P.toNat, Target := Itoa P }])]) ∧
    (∀ Q : Nat, st.layer.o.port = Q → Q ≠ 0 →
      ∀ (info : OnionInfo) (w2 : ω),
        env.AddOnion k [{ VirtPort := Q, Target := Itoa P }] none true st1.world =
          ((some info, none), w2) →
        Layer.Listener env (some l0) st =
          (Res.ok (some { Listener := some l0, control := some k,
                          address := { OnionInfo := some info, Port := Q } }, none),
            emit (Event.addOnion k [{ VirtPort := Q, Target := Itoa P }] none true
                (some info, none)) { st1 with world := w2 }) ∧
        (listener.Addr { Listener := some l0, control := some k,
                         address := { OnionInfo := some info, Port := Q } }).String =
          Res.ok (info.OnionID ++ ".onion:" ++ toString Q) ∧
        addOnionRequests (Layer.Listener env (some l0) st).2.trace =
          addOnionRequests st.trace ++ [(k, [{ VirtPort := Q, Target := Itoa P }])]) := by
  have ho : st1.layer.o = st.layer.o := by
    have := (KeepsOptions_torControl env st).1
    rw [hctl] at this
    exact this
  have hk : st1.layer.control = some k := torControl_ok_control env st st1 (some k) hctl
  have hreq : addOnionRequests st1.trace = addOnionRequests st.trace := by
    have := (KeepsOptions_torControl env st).2
    rw [hctl] at this
    exact this
  constructor
  · intro hp info w2 hadd
    have hL : Layer.Listener env (some l0) st =
        (Res.ok (some { Listener := some l0, control := some k,
                        address := { OnionInfo := some info, Port := P.toNat } }, none),
          emit (Event.addOnion k [{ VirtPort := P.toNat, Target := Itoa P }] none true
              (some info, none)) { st1 with world := w2 }) := by
      simp only [Layer.Listener, haddr, M.andThen, hctl, ho, hp, if_true,
        uint16_of_port P h0 h1, hadd, hk]
    refine ⟨hL, Int.toNat_of_nonneg h0, ?_, ?_⟩
    · simp [listener.Addr, Addr.String, Itoa_of_nonneg P h0]
    · rw [hL]
      simp only [emit]
      rw [addOnionRequests_append, hreq]
      rfl
  · intro Q hQ hne info w2 hadd
    have hL : Layer.Listener env (some l0) st =
        (Res.ok (some { Listener := some l0, control := some k,
                        address := { OnionInfo := some info, Port := Q } }, none),
          emit (Event.addOnion k [{ VirtPort := Q, Target := Itoa P }] none true
              (some info, none)) { st1 with world := w2 }) := by
      simp only [Layer.Listener, haddr, M.andThen, hctl, ho, hQ, if_neg hne, hadd, hk]
    refine ⟨hL, ?_, ?_⟩
    · simp [listener.Addr, Addr.String]
    · rw [hL]
      simp only [emit]
      rw [addOnionRequests_append, hreq]
      rfl

/-- The statement of `Listener_advertises_port` at two layers in the world
of the scenarios, where the local listener 7 is bound to port 8080 and every
collaborator succeeds.  The layer built with no option launches tor, opens
the control connection 1 and registers 8080 => "8080": the address renders as
"abcdefghijklmnop.onion:8080".  The layer built with the port option 443
registers 443 => "8080": the address renders as "abcdefghijklmnop.onion:443". -/
theorem Listener_advertises_port_witness :
    (Layer.Listener mockEnv (some { id := 7 }) (start (NewLayer []) mockWorld)).1 =
      Res.ok (some { Listener := some { id := 7 }, control := some { id := 1 },
                     address := { OnionInfo := some { OnionID := "abcdefghijklmnop",
                                                      PrivateKey := none },
                                  Port := 8080 } }, none) ∧
    (listener.Addr { Listener := some { id := 7 }, control := some { id := 1 },
                     address := { OnionInfo := some { OnionID := "abcdefghijklmnop",
                                                      PrivateKey := none },
                                  Port := 8080 } }).String =
      Res.ok "abcdefghijklmnop.onion:8080" ∧
    addOnionRequests
        (Layer.Listener mockEnv (some { id := 7 }) (start (NewLayer []) mockWorld)).2.trace =
      [({ id := 1 }, [{ VirtPort := 8080, Target := "8080" }])] ∧
    (Layer.Listener mockEnv (some { id := 7 }) (start (NewLayer [WithPort 443]) mockWorld)).1 =
      Res.ok (some { Listener := some { id := 7 }, control := some { id := 1 },
                     address := { OnionInfo := some { OnionID := "abcdefghijklmnop",
                                                      PrivateKey := none },
                                  Port := 443 } }, none) ∧
    (listener.Addr { Listener := some { id := 7 }, control := some { id := 1 },
                     address := { OnionInfo := some { OnionID := "abcdefghijklmnop",
                                                      PrivateKey := none },
                                  Port := 443 } }).String =
      Res.ok "abcdefghijklmnop.onion:443" ∧
    addOnionRequests
        (Layer.Listener mockEnv (some { id := 7 })
          (start (NewLayer [WithPort 443]) mockWorld)).2.trace =
      [({ id := 1 }, [{ VirtPort := 443, Target := "8080" }])] :=
  have hzero := (Listener_advertises_port mockEnv { id := 7 } (start (NewLayer []) mockWorld)
    (Layer.torControl mockEnv (start (NewLayer []) mockWorld)).2 { id := 1 } "127.0.0.1" 8080
    (by decide) (by decide) (by decide) (by decide)).1 (by decide)
    { OnionID := "abcdefghijklmnop", PrivateKey := none }
    (Layer.torControl mockEnv (start (NewLayer []) mockWorld)).2.world (by decide)
  have hport := (Listener_advertises_port mockEnv { id := 7 }
    (start (NewLayer [WithPort 443]) mockWorld)
    (Layer.torControl mockEnv (start (NewLayer [WithPort 443]) mockWorld)).2 { id := 1 }
    "127.0.0.1" 8080 (by decide) (by decide) (by decide) (by decide)).2 443 (by decide)
    (by decide) { OnionID := "abcdefghijklmnop", PrivateKey := none }
    (Layer.torControl mockEnv (start (NewLayer [WithPort 443]) mockWorld)).2.world (by decide)
  ⟨congrArg Prod.fst hzero.1, hzero.2.2.1, hzero.2.2.2, congrArg Prod.fst hport.1,
    hport.2.1, hport.2.2⟩

/-- C10 (what the code does).  For a layer that launched the process itself
and still tracks it (created = true, client set), with its mutex free,
`Close` requests process shutdown exactly once, under the lock, and returns
the result of the shutdown; afterwards created is false and the process
handle is released, but the control-channel handle and the cached proxy
endpoint are what they were: a later `getProxy` (the first step of `Dial`)
returns the endpoint of the process that was shut down without launching
anything, and a later `torControl` (the first step of `Listener`) returns
its control channel. -/
theorem Close_keeps_proxy_and_control (env : Env ω) (st : St ω) (c : Client)
    (hcreated : st.layer.created = true) (hclient : st.layer.client = some c)
    (hfree : st.layer.mutex.locked = false) :
    Layer.Close env st =
      (Res.ok (env.ClientClose c st.world).1,
        { layer := { st.layer with created := false, client := none },
          world := (env.ClientClose c st.world).2,
          trace := st.trace ++
            [Event.lock, Event.clientClose c (env.ClientClose c st.world).1, Event.unlock] }) ∧
    (Layer.Close env st).2.layer.client = none ∧
    (Layer.Close env st).2.layer.created = false ∧
    (Layer.Close env st).2.layer.control = st.layer.control ∧
    (Layer.Close env st).2.layer.o.proxy = st.layer.o.proxy ∧
    (st.layer.o.proxy ≠ "" →
      Layer.getProxy env (Layer.Close env st).2 =
        (Res.ok (st.layer.o.proxy, none), (Layer.Close env st).2)) ∧
    (∀ k, st.layer.control = some k →
      (Layer.torControl env (Layer.Close env st).2).1 = Res.ok (some k, none) ∧
      launches (Layer.torControl env (Layer.Close env st).2).2.trace =
        launches (Layer.Close env st).2.trace) := by
  have hclose : Layer.Close env st =
      (Res.ok (env.ClientClose c st.world).1,
        { layer := { st.layer with created := false, client := none },
          world := (env.ClientClose c st.world).2,
          trace := st.trace ++
            [Event.lock, Event.clientClose c (env.ClientClose c st.world).1, Event.unlock] }) := by
    have hm : st.layer.mutex = { locked := false } := by
      cases hmx : st.layer.mutex
      rw [hmx] at hfree
      simp only at hfree
      rw [hfree]
    simp [Layer.Close, hcreated, hclient, M.andThen, M.deferring, Lock, Unlock,
      Layer.closeDeferred, hfree, emit, hm]
  rw [hclose]
  refine ⟨rfl, rfl, rfl, rfl, rfl, ?_, ?_⟩
  · intro hp
    simp [Layer.getProxy, hp]
  · intro k hk
    simp [Layer.torControl, M.andThen, M.deferring, Lock, Unlock, hfree, hk, emit, launches]

/-- The hypotheses of `Close_keeps_proxy_and_control` hold for the layer of
the scenarios, which launched tor itself on its first `Dial`: after `Close`
has shut that process down, `getProxy` still returns its endpoint, and a
second `Dial` goes through it without any new launch. -/
theorem Close_keeps_proxy_and_control_witness :
    usedLayer.layer.created = true ∧
    usedLayer.layer.client = some { id := 1 } ∧
    usedLayer.layer.mutex.locked = false ∧
    usedLayer.layer.o.proxy = "127.0.0.1:9051" ∧
    usedLayer.layer.control = some { id := 1 } ∧
    shutdownRequests (Layer.Close mockEnv usedLayer).2.trace = [{ id := 1 }] ∧
    Layer.getProxy mockEnv (Layer.Close mockEnv usedLayer).2 =
      (Res.ok ("127.0.0.1:9051", none), (Layer.Close mockEnv usedLayer).2) ∧
    launches (Layer.Dial mockEnv "example.onion:80" (5 * Onion.Second)
        (Layer.Close mockEnv usedLayer).2).2.trace = [(some { id := 1 }, none)] :=
  ⟨by decide, by decide, by decide, by decide, by decide, by decide,
    (Close_keeps_proxy_and_control mockEnv usedLayer { id := 1 } (by decide) (by decide)
      (by decide)).2.2.2.2.2.1 (by decide),
    by decide⟩

/-! ## A caller that runs alone -/

theorem successfulLaunches_append (xs ys : List Event) :
    successfulLaunches (xs ++ ys) = successfulLaunches xs ++ successfulLaunches ys := by
  simp [successfulLaunches, List.filterMap_append]

/-- The method `torClient` is the test of the client followed by the
launch. -/
theorem torClient_eq (env : Env ω) (st : St ω) :
    Layer.torClient env st =
      match st.layer.client with
      | some c => (Res.ok (some c, none), st)
      | none => Layer.launchClient env st := by
  unfold Layer.torClient Layer.launchClient
  cases st.layer.client <;> rfl

/-- The method `Dial` is `getProxy` followed by the `Unlock` of the error
branch or by the dial through the endpoint. -/
theorem Dial_eq (env : Env ω) (addr : String) (timeout : Int) :
    Layer.Dial env addr timeout =
      (Layer.getProxy env).andThen fun r =>
        match r with
        | (_, some err) => Unlock.andThen fun _ => fun st => (Res.ok (none, some err), st)
        | (proxyaddr, none) => Layer.dialThrough env addr timeout proxyaddr := rfl

theorem alone_returned (env : Env ω) (addr : String) (timeout : Int) (fuel : Nat)
    (r : Onion.Ret Conn Error) (st : St ω) :
    DialPoint.alone env addr timeout fuel (DialPoint.returned r) st = (Res.ok r, st) := by
  cases fuel <;> rfl

theorem alone_socks (env : Env ω) (addr : String) (timeout : Int) (fuel : Nat)
    (proxyaddr : String) (st : St ω) :
    DialPoint.alone env addr timeout (fuel + 1) (DialPoint.socks proxyaddr) st =
      Layer.dialThrough env addr timeout proxyaddr st := by
  simp only [DialPoint.alone, DialPoint.step]
  rcases hd : Layer.dialThrough env addr timeout proxyaddr st with ⟨r, st1⟩
  cases r <;> simp [alone_returned]

theorem alone_errorUnlock (env : Env ω) (addr : String) (timeout : Int) (fuel : Nat)
    (err : Error) (st : St ω) :
    DialPoint.alone env addr timeout (fuel + 1) (DialPoint.errorUnlock err) st =
      (Unlock.andThen fun _ => fun st1 => (Res.ok (none, some err), st1)) st := by
  simp only [DialPoint.alone, DialPoint.step, M.andThen]
  rcases hu : (Unlock : M ω Unit) st with ⟨r, st1⟩
  cases r <;> simp [alone_returned]

theorem alone_deferredUnlock (env : Env ω) (addr : String) (timeout : Int) (fuel : Nat)
    (r : String × Option Error) (st : St ω) :
    DialPoint.alone env addr timeout (fuel + 2) (DialPoint.deferredUnlock r) st =
      match (Unlock : M ω Unit) st with
      | (Res.ok _, st1) => afterGetProxy env addr timeout r st1
      | (Res.panic msg, st1) => (Res.panic msg, st1)
      | (Res.fatal msg, st1) => (Res.fatal msg, st1)
      | (Res.blocked, st1) => (Res.blocked, st1) := by
  simp only [DialPoint.alone, DialPoint.step, M.andThen]
  rcases hu : (Unlock : M ω Unit) st with ⟨r1, st1⟩
  cases r1 with
  | panic msg => rfl
  | fatal msg => rfl
  | blocked => rfl
  | ok u =>
    rcases r with ⟨proxyaddr, _ | err⟩
    · simp only [afterGetProxy]
      exact alone_socks env addr timeout fuel proxyaddr st1
    · simp only [afterGetProxy]
      exact alone_errorUnlock env addr timeout fuel err st1

theorem alone_panicking (env : Env ω) (addr : String) (timeout : Int) (fuel : Nat)
    (msg : String) (st : St ω) :
    DialPoint.alone env addr timeout (fuel + 1) (DialPoint.panicking msg) st =
      match (Unlock : M ω Unit) st with
      | (Res.ok _, st1) => (Res.panic msg, st1)
      | (Res.panic msg1, st1) => (Res.panic msg1, st1)
      | (Res.fatal msg1, st1) => (Res.fatal msg1, st1)
      | (Res.blocked, st1) => (Res.blocked, st1) := by
  simp only [DialPoint.alone, DialPoint.step, M.andThen]
  rcases hu : (Unlock : M ω Unit) st with ⟨r1, st1⟩
  cases r1 <;> rfl

theorem alone_succ (env : Env ω) (addr : String) (timeout : Int) (fuel : Nat)
    (pt : DialPoint) (st : St ω) (h : ∀ r, pt ≠ DialPoint.returned r) :
    DialPoint.alone env addr timeout (fuel + 1) pt st =
      match pt.step env addr timeout st with
      | (Res.ok pt1, st1) => DialPoint.alone env addr timeout fuel pt1 st1
      | (Res.panic msg, st1) => (Res.panic msg, st1)
      | (Res.fatal msg, st1) => (Res.fatal msg, st1)
      | (Res.blocked, st1) => (Res.blocked, st1) := by
  cases pt <;> first | rfl | exact absurd rfl (h _)

theorem alone_gotClient (env : Env ω) (addr : String) (timeout : Int) (fuel : Nat)
    (r : Onion.Ret Client Error) (st : St ω) :
    DialPoint.alone env addr timeout (fuel + 3) (DialPoint.gotClient r) st =
      (M.deferring Unlock (afterTorClient env r)).andThen (afterGetProxy env addr timeout) st := by
  rw [show fuel + 3 = (fuel + 2) + 1 from rfl, alone_succ _ _ _ _ _ _ (by intro r h; cases h)]
  rcases r with ⟨_ | client, _ | err⟩
  · simp only [DialPoint.step]
    rw [alone_panicking]
    simp only [M.andThen, M.deferring, afterTorClient]
    rcases hu : (Unlock : M ω Unit) st with ⟨r1, st1⟩
    cases r1 <;> rfl
  · simp only [DialPoint.step]
    rw [alone_deferredUnlock]
    simp only [M.andThen, M.deferring, afterTorClient]
    rcases hu : (Unlock : M ω Unit) st with ⟨r1, st1⟩
    cases r1 <;> rfl
  · simp only [DialPoint.step]
    rw [alone_deferredUnlock]
    simp only [M.andThen, M.deferring, afterTorClient, cached]
    rcases hu : (Unlock : M ω Unit) (emit (Event.proxyAddress client
        (env.ProxyAddress client st.world))
        { st with layer := { st.layer with
            o := { st.layer.o with proxy := env.ProxyAddress client st.world } } })
      with ⟨r1, st1⟩
    cases r1 <;> rfl
  · simp only [DialPoint.step]
    rw [alone_deferredUnlock]
    simp only [M.andThen, M.deferring, afterTorClient]
    rcases hu : (Unlock : M ω Unit) st with ⟨r1, st1⟩
    cases r1 <;> rfl

theorem alone_launch (env : Env ω) (addr : String) (timeout : Int) (fuel : Nat) (st : St ω) :
    DialPoint.alone env addr timeout (fuel + 4) DialPoint.launch st =
      (M.deferring Unlock ((Layer.launchClient env).andThen (afterTorClient env))).andThen
        (afterGetProxy env addr timeout) st := by
  rw [show fuel + 4 = (fuel + 3) + 1 from rfl, alone_succ _ _ _ _ _ _ (by intro r h; cases h)]
  simp only [DialPoint.step]
  rcases hla : Layer.launchClient env st with ⟨r, st1⟩
  cases r with
  | ok cl =>
    simp only
    rw [alone_gotClient]
    simp only [M.andThen, M.deferring, hla]
  | panic msg =>
    simp only
    rw [alone_panicking]
    simp only [M.andThen, M.deferring, hla]
    rcases hu : (Unlock : M ω Unit) st1 with ⟨r1, st2⟩
    cases r1 <;> rfl
  | fatal msg => simp only [M.andThen, M.deferring, hla]
  | blocked => simp only [M.andThen, M.deferring, hla]

theorem alone_clientTest (env : Env ω) (addr : String) (timeout : Int) (fuel : Nat)
    (st : St ω) :
    DialPoint.alone env addr timeout (fuel + 5) DialPoint.clientTest st =
      (M.deferring Unlock ((Layer.torClient env).andThen (afterTorClient env))).andThen
        (afterGetProxy env addr timeout) st := by
  rw [show fuel + 5 = (fuel + 4) + 1 from rfl, alone_succ _ _ _ _ _ _ (by intro r h; cases h)]
  simp only [DialPoint.step]
  cases hc : st.layer.client with
  | some c =>
    simp only
    rw [alone_gotClient]
    simp only [M.andThen, M.deferring, torClient_eq, hc]
  | none =>
    simp only
    rw [alone_launch]
    simp only [M.andThen, M.deferring, torClient_eq, hc]

/-- A caller that runs alone from the head of `Dial`, for seven steps or
more, does what the method `Dial` does. -/
theorem Dial_alone (env : Env ω) (addr : String) (timeout : Int) (fuel : Nat) (st : St ω) :
    DialPoint.alone env addr timeout (fuel + 7) DialPoint.proxyTest st =
      Layer.Dial env addr timeout st := by
  rw [Dial_eq, show fuel + 7 = (fuel + 6) + 1 from rfl,
    alone_succ _ _ _ _ _ _ (by intro r h; cases h)]
  have hget : Layer.getProxy env st =
      if st.layer.o.proxy ≠ "" then (Res.ok (st.layer.o.proxy, none), st)
      else (Lock.andThen fun _ =>
        M.deferring Unlock ((Layer.torClient env).andThen (afterTorClient env))) st := rfl
  simp only [DialPoint.step]
  by_cases hp : st.layer.o.proxy ≠ ""
  · have hgo : (Layer.getProxy env).andThen (afterGetProxy env addr timeout) st =
        Layer.dialThrough env addr timeout st.layer.o.proxy st := by
      simp only [M.andThen, hget, if_pos hp, afterGetProxy]
    simp only [if_pos hp]
    rw [alone_socks]
    exact hgo.symm
  · simp only [if_neg hp]
    rw [show fuel + 6 = (fuel + 5) + 1 from rfl,
      alone_succ _ _ _ _ _ _ (by intro r h; cases h)]
    simp only [DialPoint.step]
    have hgo : (Layer.getProxy env).andThen (afterGetProxy env addr timeout) st =
        match (Lock : M ω Unit) st with
        | (Res.ok _, st1) =>
          (M.deferring Unlock ((Layer.torClient env).andThen (afterTorClient env))).andThen
            (afterGetProxy env addr timeout) st1
        | (Res.panic msg, st1) => (Res.panic msg, st1)
        | (Res.fatal msg, st1) => (Res.fatal msg, st1)
        | (Res.blocked, st1) => (Res.blocked, st1) := by
      simp only [M.andThen, hget, if_neg hp]
      rcases hl : (Lock : M ω Unit) st with ⟨r1, st1⟩
      cases r1 <;> rfl
    refine Eq.trans ?_ hgo.symm
    simp only [M.andThen]
    rcases hl : (Lock : M ω Unit) st with ⟨r1, st1⟩
    cases r1 with
    | ok u =>
      simp only
      rw [alone_clientTest]
      rfl
    | panic msg => rfl
    | fatal msg => rfl
    | blocked => rfl

/-- The method `torControl` is the lock around the test of the control
connection, `torClient`, and the opening of the control connection. -/
theorem torControl_eq (env : Env ω) :
    Layer.torControl env =
      Lock.andThen fun _ =>
        M.deferring Unlock (fun st1 =>
          match st1.layer.control with
          | some k => (Res.ok (some k, none), st1)
          | none => ((Layer.torClient env).andThen (afterTorClientControl env)) st1) := rfl

/-- The method `Listener` is the test of the local address followed by
`torControl` and the registration. -/
theorem Listener_eq (env : Env ω) (l : Option Lis) (st : St ω) :
    Layer.Listener env l st =
      match l with
      | none => (Res.panic nilDeref, st)
      | some l0 =>
        match env.ListenerAddr l0 st.world with
        | NetAddr.other _ _ =>
          (Res.ok (none, some "failed to extract local port"), closeLocal env l0 st)
        | NetAddr.tcp addr =>
          ((Layer.torControl env).andThen (Layer.register env l0 addr)) st := rfl

theorem listen_alone_returned (env : Env ω) (l : Option Lis) (fuel : Nat)
    (r : Onion.Ret listener Error) (st : St ω) :
    ListenPoint.alone env l fuel (ListenPoint.returned r) st = (Res.ok r, st) := by
  cases fuel <;> rfl

theorem listen_alone_succ (env : Env ω) (l : Option Lis) (fuel : Nat) (pt : ListenPoint)
    (st : St ω) (h : ∀ r, pt ≠ ListenPoint.returned r) :
    ListenPoint.alone env l (fuel + 1) pt st =
      match pt.step env l st with
      | (Res.ok pt1, st1) => ListenPoint.alone env l fuel pt1 st1
      | (Res.panic msg, st1) => (Res.panic msg, st1)
      | (Res.fatal msg, st1) => (Res.fatal msg, st1)
      | (Res.blocked, st1) => (Res.blocked, st1) := by
  cases pt <;> first | rfl | exact absurd rfl (h _)

theorem listen_alone_register (env : Env ω) (l : Option Lis) (fuel : Nat) (loc : Local)
    (ret : Onion.Ret Control Error) (st : St ω) :
    ListenPoint.alone env l (fuel + 1) (ListenPoint.register loc ret) st =
      Layer.register env loc.l loc.addr ret st := by
  rw [listen_alone_succ _ _ _ _ _ (by intro r h; cases h)]
  simp only [ListenPoint.step]
  rcases hd : Layer.register env loc.l loc.addr ret st with ⟨r, st1⟩
  cases r <;> simp [listen_alone_returned]

theorem listen_alone_deferredUnlock (env : Env ω) (l : Option Lis) (fuel : Nat) (loc : Local)
    (ret : Onion.Ret Control Error) (st : St ω) :
    ListenPoint.alone env l (fuel + 2) (ListenPoint.deferredUnlock loc ret) st =
      match (Unlock : M ω Unit) st with
      | (Res.ok _, st1) => Layer.register env loc.l loc.addr ret st1
      | (Res.panic msg, st1) => (Res.panic msg, st1)
      | (Res.fatal msg, st1) => (Res.fatal msg, st1)
      | (Res.blocked, st1) => (Res.blocked, st1) := by
  rw [show fuel + 2 = (fuel + 1) + 1 from rfl,
    listen_alone_succ _ _ _ _ _ (by intro r h; cases h)]
  simp only [ListenPoint.step, M.andThen]
  rcases hu : (Unlock : M ω Unit) st with ⟨r1, st1⟩
  cases r1 with
  | panic msg => rfl
  | fatal msg => rfl
  | blocked => rfl
  | ok u =>
    simp only
    exact listen_alone_register env l fuel loc ret st1

theorem listen_alone_panicking (env : Env ω) (l : Option Lis) (fuel : Nat) (msg : String)
    (st : St ω) :
    ListenPoint.alone env l (fuel + 1) (ListenPoint.panicking msg) st =
      match (Unlock : M ω Unit) st with
      | (Res.ok _, st1) => (Res.panic msg, st1)
      | (Res.panic msg1, st1) => (Res.panic msg1, st1)
      | (Res.fatal msg1, st1) => (Res.fatal msg1, st1)
      | (Res.blocked, st1) => (Res.blocked, st1) := by
  rw [listen_alone_succ _ _ _ _ _ (by intro r h; cases h)]
  simp only [ListenPoint.step, M.andThen]
  rcases hu : (Unlock : M ω Unit) st with ⟨r1, st1⟩
  cases r1 <;> rfl

theorem listen_alone_gotClient (env : Env ω) (l : Option Lis) (fuel : Nat) (loc : Local)
    (r : Onion.Ret Client Error) (st : St ω) :
    ListenPoint.alone env l (fuel + 3) (ListenPoint.gotClient loc r) st =
      (M.deferring Unlock (afterTorClientControl env r)).andThen
        (Layer.register env loc.l loc.addr) st := by
  rw [show fuel + 3 = (fuel + 2) + 1 from rfl,
    listen_alone_succ _ _ _ _ _ (by intro r h; cases h)]
  simp only [ListenPoint.step, M.andThen, M.deferring]
  rcases ha : afterTorClientControl env r st with ⟨r1, st1⟩
  cases r1 with
  | ok ret =>
    simp only
    rw [listen_alone_deferredUnlock]
    rcases hu : (Unlock : M ω Unit) st1 with ⟨r2, st2⟩
    cases r2 <;> rfl
  | panic msg =>
    simp only
    rw [listen_alone_panicking]
    rcases hu : (Unlock : M ω Unit) st1 with ⟨r2, st2⟩
    cases r2 <;> rfl
  | fatal msg => rfl
  | blocked => rfl

theorem listen_alone_launch (env : Env ω) (l : Option Lis) (fuel : Nat) (loc : Local)
    (st : St ω) :
    ListenPoint.alone env l (fuel + 4) (ListenPoint.launch loc) st =
      (M.deferring Unlock ((Layer.launchClient env).andThen (afterTorClientControl env))).andThen
        (Layer.register env loc.l loc.addr) st := by
  rw [show fuel + 4 = (fuel + 3) + 1 from rfl,
    listen_alone_succ _ _ _ _ _ (by intro r h; cases h)]
  simp only [ListenPoint.step]
  rcases hla : Layer.launchClient env st with ⟨r, st1⟩
  cases r with
  | ok cl =>
    simp only
    rw [listen_alone_gotClient]
    simp only [M.andThen, M.deferring, hla]
  | panic msg =>
    simp only
    rw [listen_alone_panicking]
    simp only [M.andThen, M.deferring, hla]
    rcases hu : (Unlock : M ω Unit) st1 with ⟨r1, st2⟩
    cases r1 <;> rfl
  | fatal msg => simp only [M.andThen, M.deferring, hla]
  | blocked => simp only [M.andThen, M.deferring, hla]

theorem listen_alone_clientTest (env : Env ω) (l : Option Lis) (fuel : Nat) (loc : Local)
    (st : St ω) :
    ListenPoint.alone env l (fuel + 5) (ListenPoint.clientTest loc) st =
      (M.deferring Unlock ((Layer.torClient env).andThen (afterTorClientControl env))).andThen
        (Layer.register env loc.l loc.addr) st := by
  rw [show fuel + 5 = (fuel + 4) + 1 from rfl,
    listen_alone_succ _ _ _ _ _ (by intro r h; cases h)]
  simp only [ListenPoint.step]
  cases hc : st.layer.client with
  | some c =>
    simp only
    rw [listen_alone_gotClient]
    simp only [M.andThen, M.deferring, torClient_eq, hc]
  | none =>
    simp only
    rw [listen_alone_launch]
    simp only [M.andThen, M.deferring, torClient_eq, hc]

theorem listen_alone_controlTest (env : Env ω) (l : Option Lis) (fuel : Nat) (loc : Local)
    (st : St ω) :
    ListenPoint.alone env l (fuel + 6) (ListenPoint.controlTest loc) st =
      (M.deferring Unlock (fun st1 =>
          match st1.layer.control with
          | some k => (Res.ok (some k, none), st1)
          | none => ((Layer.torClient env).andThen (afterTorClientControl env)) st1)).andThen
        (Layer.register env loc.l loc.addr) st := by
  rw [show fuel + 6 = (fuel + 5) + 1 from rfl,
    listen_alone_succ _ _ _ _ _ (by intro r h; cases h)]
  simp only [ListenPoint.step]
  cases hc : st.layer.control with
  | some k =>
    simp only
    rw [listen_alone_deferredUnlock]
    simp only [M.andThen, M.deferring, hc]
    rcases hu : (Unlock : M ω Unit) st with ⟨r1, st1⟩
    cases r1 <;> rfl
  | none =>
    simp only
    rw [listen_alone_clientTest]
    simp only [M.andThen, M.deferring, hc]

/-- A caller that runs alone from the head of `Listener`, for eight steps
or more, does what the method `Listener` does. -/
theorem Listener_alone (env : Env ω) (l : Option Lis) (fuel : Nat) (st : St ω) :
    ListenPoint.alone env l (fuel + 8) ListenPoint.addrTest st = Layer.Listener env l st := by
  rw [Listener_eq, show fuel + 8 = (fuel + 7) + 1 from rfl,
    listen_alone_succ _ _ _ _ _ (by intro r h; cases h)]
  simp only [ListenPoint.step]
  cases l with
  | none => rfl
  | some l0 =>
    simp only
    cases ha : env.ListenerAddr l0 st.world with
    | other network text =>
      simp only
      exact listen_alone_returned env _ _ _ _
    | tcp addr =>
      simp only
      rw [show fuel + 7 = (fuel + 6) + 1 from rfl,
        listen_alone_succ _ _ _ _ _ (by intro r h; cases h), torControl_eq]
      simp only [ListenPoint.step, M.andThen]
      rcases hl : (Lock : M ω Unit) st with ⟨r1, st1⟩
      cases r1 with
      | ok u =>
        simp only
        rw [listen_alone_controlTest]
        rfl
      | panic msg => rfl
      | fatal msg => rfl
      | blocked => rfl

/-! ## The lock serialises the callers when no launch fails -/

theorem getElem?_set_cases {α : Type} (l : List α) (i j : Nat) (a x : α)
    (h : (l.set i a)[j]? = some x) : (j = i ∧ x = a) ∨ (j ≠ i ∧ l[j]? = some x) := by
  by_cases hij : j = i
  · left
    subst hij
    by_cases hlt : j < l.length
    · rw [List.getElem?_set_self hlt] at h
      exact ⟨rfl, (Option.some.inj h).symm⟩
    · rw [List.getElem?_eq_none (by simp; omega)] at h
      cases h
  · right
    rw [List.getElem?_set_ne (fun h2 => hij h2.symm)] at h
    exact ⟨hij, h⟩

theorem LaunchedAtMostOnce_of_frame (st st1 : St ω) (hc : st1.layer.client = st.layer.client)
    (ht : successfulLaunches st1.trace = successfulLaunches st.trace)
    (h : LaunchedAtMostOnce st) : LaunchedAtMostOnce st1 := by
  unfold LaunchedAtMostOnce at h ⊢
  rw [hc, ht]
  exact h

theorem Lock_frame (st : St ω) :
    (Lock st).2.layer.client = st.layer.client ∧
    successfulLaunches (Lock st).2.trace = successfulLaunches st.trace := by
  unfold Lock
  split <;> simp [emit, successfulLaunches_append, successfulLaunches]

theorem Unlock_frame (st : St ω) :
    (Unlock st).2.layer.client = st.layer.client ∧
    successfulLaunches (Unlock st).2.trace = successfulLaunches st.trace := by
  unfold Unlock
  split <;> simp [emit, successfulLaunches_append, successfulLaunches]

theorem FreePort_keeps (env : Env ω) (st : St ω) :
    (FreePort env st).2.layer = st.layer ∧
    successfulLaunches (FreePort env st).2.trace = successfulLaunches st.trace := by
  unfold FreePort
  split
  · simp [emit, successfulLaunches_append, successfulLaunches]
  · dsimp only
    split
    · simp [emit, successfulLaunches_append, successfulLaunches]
    · simp [emit, successfulLaunches_append, successfulLaunches]
    · split <;> simp [emit, successfulLaunches_append, successfulLaunches]

theorem dialThrough_keeps (env : Env ω) (addr : String) (timeout : Int) (proxyaddr : String)
    (st : St ω) :
    (Layer.dialThrough env addr timeout proxyaddr st).2.layer = st.layer ∧
    successfulLaunches (Layer.dialThrough env addr timeout proxyaddr st).2.trace =
      successfulLaunches st.trace := by
  unfold Layer.dialThrough
  split
  · simp [emit, successfulLaunches_append, successfulLaunches]
  · simp [emit, successfulLaunches_append, successfulLaunches]
  · dsimp only
    split <;> simp [emit, successfulLaunches_append, successfulLaunches]

/-- The launch, made where the layer holds no client and no launch has
succeeded, in a world where no launch fails: the mutex is left as it is, at
most one launch has succeeded afterwards, and no error is returned. -/
theorem launchClient_spec (env : Env ω) (hL : ∀ opts w, (env.Launch opts w).1.2 = none)
    (st : St ω) (hs : successfulLaunches st.trace = []) :
    (Layer.launchClient env st).2.layer.mutex = st.layer.mutex ∧
    LaunchedAtMostOnce (Layer.launchClient env st).2 ∧
    ∀ a, (Layer.launchClient env st).1 = Res.ok a → a.2 = none := by
  unfold Layer.launchClient M.andThen
  obtain ⟨f1, g1⟩ := FreePort_keeps env st
  rcases h1 : FreePort env st with ⟨r1, s1⟩
  rw [h1] at f1 g1
  simp only at f1 g1
  have hs1 : successfulLaunches s1.trace = [] := by rw [g1, hs]
  cases r1 with
  | panic msg => exact ⟨by rw [f1], Or.inl hs1, by intro a h; cases h⟩
  | fatal msg => exact ⟨by rw [f1], Or.inl hs1, by intro a h; cases h⟩
  | blocked => exact ⟨by rw [f1], Or.inl hs1, by intro a h; cases h⟩
  | ok p1 =>
    simp only
    obtain ⟨f2, g2⟩ := FreePort_keeps env s1
    rcases h2 : FreePort env s1 with ⟨r2, s2⟩
    rw [h2] at f2 g2
    simp only at f2 g2
    have hs2 : successfulLaunches s2.trace = [] := by rw [g2, hs1]
    cases r2 with
    | panic msg => exact ⟨by rw [f2, f1], Or.inl hs2, by intro a h; cases h⟩
    | fatal msg => exact ⟨by rw [f2, f1], Or.inl hs2, by intro a h; cases h⟩
    | blocked => exact ⟨by rw [f2, f1], Or.inl hs2, by intro a h; cases h⟩
    | ok p2 =>
      simp only
      have hno := hL
        { Quiet := !s2.layer.o.verbose, Path := s2.layer.o.bin, ProxyPort := p1,
          ControlPort := p2, Binary := s2.layer.o.binBody } s2.world
      rcases hla : env.Launch
        { Quiet := !s2.layer.o.verbose, Path := s2.layer.o.bin, ProxyPort := p1,
          ControlPort := p2, Binary := s2.layer.o.binBody } s2.world
        with ⟨⟨client, err⟩, w2⟩
      rw [hla] at hno
      simp only at hno
      subst hno
      simp only
      refine ⟨by simp [emit, f2, f1], ?_, by intro a h; cases h; rfl⟩
      cases client with
      | none =>
        left
        simp only [emit]
        rw [successfulLaunches_append, hs2]
        rfl
      | some c =>
        right
        refine ⟨c, ?_, rfl⟩
        simp only [emit]
        rw [successfulLaunches_append, hs2]
        rfl

theorem closeLocal_keeps (env : Env ω) (l0 : Lis) (st : St ω) :
    (closeLocal env l0 st).layer = st.layer ∧
    successfulLaunches (closeLocal env l0 st).trace = successfulLaunches st.trace := by
  simp [closeLocal, emit, successfulLaunches_append, successfulLaunches]

theorem register_keeps (env : Env ω) (l0 : Lis) (addr : TCPAddr)
    (r : Onion.Ret Control Error) (st : St ω) :
    (Layer.register env l0 addr r st).2.layer = st.layer ∧
    successfulLaunches (Layer.register env l0 addr r st).2.trace =
      successfulLaunches st.trace := by
  unfold Layer.register
  split
  · exact closeLocal_keeps env l0 st
  · dsimp only
    split
    · exact ⟨rfl, rfl⟩
    · split
      · simp [closeLocal, emit, successfulLaunches_append, successfulLaunches]
      · simp [emit, successfulLaunches_append, successfulLaunches]

theorem afterTorClientControl_keeps (env : Env ω) (r : Onion.Ret Client Error) (st : St ω) :
    (afterTorClientControl env r st).2.layer.client = st.layer.client ∧
    (afterTorClientControl env r st).2.layer.mutex = st.layer.mutex ∧
    successfulLaunches (afterTorClientControl env r st).2.trace =
      successfulLaunches st.trace := by
  unfold afterTorClientControl
  split
  · exact ⟨rfl, rfl, rfl⟩
  · exact ⟨rfl, rfl, rfl⟩
  · split <;> simp [emit, successfulLaunches_append, successfulLaunches]

theorem Caller.inside_of_launching (c : Caller) (h : c.launching = true) : c.inside = true := by
  rcases c with ⟨addr, timeout, pt⟩ | ⟨l, pt⟩ <;> cases pt <;>
    first | rfl | simp [Caller.launching] at h

theorem Caller.step_dial_snd (env : Env ω) (addr : String) (timeout : Int) (pt : DialPoint)
    (st : St ω) :
    ((Caller.dial addr timeout pt).step env st).2 = (pt.step env addr timeout st).2 := by
  simp only [Caller.step]
  rcases h : pt.step env addr timeout st with ⟨r, st1⟩
  cases r <;> rfl

theorem Caller.step_dial_ok (env : Env ω) (addr : String) (timeout : Int) (pt : DialPoint)
    (st st1 : St ω) (c1 : Caller)
    (h : (Caller.dial addr timeout pt).step env st = (Res.ok c1, st1)) :
    ∃ pt1, pt.step env addr timeout st = (Res.ok pt1, st1) ∧ c1 = Caller.dial addr timeout pt1 := by
  simp only [Caller.step] at h
  rcases hs : pt.step env addr timeout st with ⟨r, st2⟩
  rw [hs] at h
  cases r with
  | ok pt1 =>
    simp only [Prod.mk.injEq, Res.ok.injEq] at h
    obtain ⟨rfl, rfl⟩ := h
    exact ⟨pt1, rfl, rfl⟩
  | panic msg => simp at h
  | fatal msg => simp at h
  | blocked => simp at h

theorem Caller.step_listen_snd (env : Env ω) (l : Option Lis) (pt : ListenPoint) (st : St ω) :
    ((Caller.listen l pt).step env st).2 = (pt.step env l st).2 := by
  simp only [Caller.step]
  rcases h : pt.step env l st with ⟨r, st1⟩
  cases r <;> rfl

theorem Caller.step_listen_ok (env : Env ω) (l : Option Lis) (pt : ListenPoint)
    (st st1 : St ω) (c1 : Caller)
    (h : (Caller.listen l pt).step env st = (Res.ok c1, st1)) :
    ∃ pt1, pt.step env l st = (Res.ok pt1, st1) ∧ c1 = Caller.listen l pt1 := by
  simp only [Caller.step] at h
  rcases hs : pt.step env l st with ⟨r, st2⟩
  rw [hs] at h
  cases r with
  | ok pt1 =>
    simp only [Prod.mk.injEq, Res.ok.injEq] at h
    obtain ⟨rfl, rfl⟩ := h
    exact ⟨pt1, rfl, rfl⟩
  | panic msg => simp at h
  | fatal msg => simp at h
  | blocked => simp at h

/-- The callers stay serialised when one of them, the only one that is or
gets inside, moves to a point it may stand at. -/
theorem Serialised_update_alone (p : Program ω) (i : Nat) (c1 : Caller) (st1 : St ω)
    (hm : Serialised p)
    (hothers : ∀ (j : Nat) (cj : Caller), j ≠ i → p.callers[j]? = some cj →
      cj.inside = false)
    (hin : c1.inside = true → st1.layer.mutex.locked = true)
    (hfresh : c1.launching = true → st1.layer.client = none)
    (hsound : c1.failed = false) :
    Serialised { st := st1, callers := p.callers.set i c1, stopped := none } := by
  constructor
  · intro j cj hj hinside
    rcases getElem?_set_cases _ _ _ _ _ hj with ⟨-, rfl⟩ | ⟨hne, hold⟩
    · exact hin hinside
    · rw [hothers j cj hne hold] at hinside
      cases hinside
  · intro j k cj ck hj hk hinj hink
    rcases getElem?_set_cases _ _ _ _ _ hj with ⟨rfl, -⟩ | ⟨hne, hold⟩
    · rcases getElem?_set_cases _ _ _ _ _ hk with ⟨rfl, -⟩ | ⟨hne2, hold2⟩
      · rfl
      · rw [hothers k ck hne2 hold2] at hink
        cases hink
    · rw [hothers j cj hne hold] at hinj
      cases hinj
  · intro j cj hj hl
    rcases getElem?_set_cases _ _ _ _ _ hj with ⟨-, rfl⟩ | ⟨hne, hold⟩
    · exact hfresh hl
    · have := hothers j cj hne hold
      rw [cj.inside_of_launching hl] at this
      cases this
  · intro j cj hj
    rcases getElem?_set_cases _ _ _ _ _ hj with ⟨-, rfl⟩ | ⟨hne, hold⟩
    · exact hsound
    · exact hm.sound j cj hold

/-- The callers stay serialised when one of them moves to a point outside
and leaves the mutex and the client of the layer as they are. -/
theorem Serialised_update_outside (p : Program ω) (i : Nat) (c1 : Caller) (st1 : St ω)
    (hm : Serialised p)
    (hmutex : st1.layer.mutex = p.st.layer.mutex) (hclient : st1.layer.client = p.st.layer.client)
    (hout : c1.inside = false) (hsound : c1.failed = false) :
    Serialised { st := st1, callers := p.callers.set i c1, stopped := none } := by
  constructor
  · intro j cj hj hinside
    rcases getElem?_set_cases _ _ _ _ _ hj with ⟨-, rfl⟩ | ⟨hne, hold⟩
    · rw [hout] at hinside
      cases hinside
    · simp only [hmutex]
      exact hm.locked j cj hold hinside
  · intro j k cj ck hj hk hinj hink
    rcases getElem?_set_cases _ _ _ _ _ hj with ⟨-, rfl⟩ | ⟨hne, hold⟩
    · rw [hout] at hinj
      cases hinj
    · rcases getElem?_set_cases _ _ _ _ _ hk with ⟨-, rfl⟩ | ⟨hne2, hold2⟩
      · rw [hout] at hink
        cases hink
      · exact hm.unique j k cj ck hold hold2 hinj hink
  · intro j cj hj hl
    rcases getElem?_set_cases _ _ _ _ _ hj with ⟨-, rfl⟩ | ⟨hne, hold⟩
    · rw [cj.inside_of_launching hl] at hout
      cases hout
    · simp only [hclient]
      exact hm.fresh j cj hold hl
  · intro j cj hj
    rcases getElem?_set_cases _ _ _ _ _ hj with ⟨-, rfl⟩ | ⟨hne, hold⟩
    · exact hsound
    · exact hm.sound j cj hold

/-- When a caller is inside, no other caller is. -/
theorem Serialised.others_outside {p : Program ω} (hm : Serialised p) (i : Nat) (c : Caller)
    (hc : p.callers[i]? = some c) (hin : c.inside = true) :
    ∀ (j : Nat) (cj : Caller), j ≠ i → p.callers[j]? = some cj → cj.inside = false := by
  intro j cj hne hj
  cases hcj : cj.inside with
  | false => rfl
  | true => exact absurd (hm.unique j i cj c hj hc hcj hin) hne

/-- When the mutex is free, no caller is inside. -/
theorem Serialised.nobody_inside {p : Program ω} (hm : Serialised p)
    (hfree : p.st.layer.mutex.locked = false) :
    ∀ (j : Nat) (cj : Caller), p.callers[j]? = some cj → cj.inside = false := by
  intro j cj hj
  cases hcj : cj.inside with
  | false => rfl
  | true =>
    rw [hm.locked j cj hj hcj] at hfree
    cases hfree

theorem Program.step_eq (env : Env ω) (i : Nat) (p : Program ω) (c : Caller)
    (hs : p.stopped = none) (hc : p.callers[i]? = some c) :
    p.step env i =
      match c.step env p.st with
      | (Res.ok c1, st1) => { st := st1, callers := p.callers.set i c1, stopped := none }
      | (Res.blocked, _) => p
      | (Res.panic msg, st1) => { st := st1, callers := p.callers, stopped := some msg }
      | (Res.fatal msg, st1) => { st := st1, callers := p.callers, stopped := some msg } := by
  unfold Program.step
  simp only [hs, hc]

/-- A step keeps the invariant when the state it leaves has at most one
successful launch and, if the caller moved, the callers are still
serialised. -/
theorem Program.Safe_step_of (env : Env ω) (i : Nat) (p : Program ω) (c : Caller)
    (hs : p.stopped = none) (hc : p.callers[i]? = some c) (h : p.Safe)
    (hbound : LaunchedAtMostOnce (c.step env p.st).2)
    (hser : ∀ c1 st1, c.step env p.st = (Res.ok c1, st1) →
      Serialised { st := st1, callers := p.callers.set i c1, stopped := none }) :
    (p.step env i).Safe := by
  rw [Program.step_eq env i p c hs hc]
  rcases hstep : c.step env p.st with ⟨r, st1⟩
  rw [hstep] at hbound
  cases r with
  | ok c1 => exact ⟨hbound, fun _ => hser c1 st1 hstep⟩
  | blocked => exact h
  | panic msg => exact ⟨hbound, fun h2 => by cases h2⟩
  | fatal msg => exact ⟨hbound, fun h2 => by cases h2⟩

/-- A caller about to launch sees no client, so no launch has succeeded. -/
theorem Serialised.none_launched {p : Program ω} (hm : Serialised p)
    (hb : LaunchedAtMostOnce p.st) (i : Nat) (c : Caller) (hc : p.callers[i]? = some c)
    (hl : c.launching = true) : successfulLaunches p.st.trace = [] := by
  have hclient := hm.fresh i c hc hl
  rcases hb with h0 | ⟨c0, -, hc0⟩
  · exact h0
  · rw [hclient] at hc0
    cases hc0

/-- In a world where no launch fails, a step of a caller of `Dial` leaves at
most one successful launch. -/
theorem dial_step_bound (env : Env ω) (hL : ∀ opts w, (env.Launch opts w).1.2 = none)
    (p : Program ω) (hb : LaunchedAtMostOnce p.st) (hm : Serialised p) (i : Nat)
    (addr : String) (timeout : Int) (pt : DialPoint)
    (hc : p.callers[i]? = some (Caller.dial addr timeout pt)) :
    LaunchedAtMostOnce (pt.step env addr timeout p.st).2 := by
  cases pt with
  | proxyTest =>
    simp only [DialPoint.step]
    split <;> exact hb
  | lock =>
    simp only [DialPoint.step, M.andThen]
    have hf := Lock_frame p.st
    rcases hl : (Lock : M ω Unit) p.st with ⟨r, st1⟩
    rw [hl] at hf
    have := LaunchedAtMostOnce_of_frame p.st st1 hf.1 hf.2 hb
    cases r <;> exact this
  | clientTest =>
    simp only [DialPoint.step]
    split <;> exact hb
  | launch =>
    have hspec := (launchClient_spec env hL p.st (hm.none_launched hb i _ hc rfl)).2.1
    simp only [DialPoint.step]
    rcases hl : Layer.launchClient env p.st with ⟨r, st1⟩
    rw [hl] at hspec
    cases r <;> exact hspec
  | gotClient r =>
    simp only [DialPoint.step]
    rcases r with ⟨_ | client, _ | err⟩
    · exact hb
    · exact hb
    · refine LaunchedAtMostOnce_of_frame p.st _ rfl ?_ hb
      simp only [cached, emit]
      rw [successfulLaunches_append]
      simp [successfulLaunches]
    · exact hb
  | deferredUnlock r =>
    simp only [DialPoint.step, M.andThen]
    have hf := Unlock_frame p.st
    rcases hl : (Unlock : M ω Unit) p.st with ⟨r1, st1⟩
    rw [hl] at hf
    have := LaunchedAtMostOnce_of_frame p.st st1 hf.1 hf.2 hb
    cases r1 with
    | ok u =>
      simp only
      split <;> exact this
    | panic msg => exact this
    | fatal msg => exact this
    | blocked => exact this
  | panicking msg =>
    simp only [DialPoint.step, M.andThen]
    have hf := Unlock_frame p.st
    rcases hl : (Unlock : M ω Unit) p.st with ⟨r1, st1⟩
    rw [hl] at hf
    have := LaunchedAtMostOnce_of_frame p.st st1 hf.1 hf.2 hb
    cases r1 <;> exact this
  | errorUnlock err =>
    simp only [DialPoint.step, M.andThen]
    have hf := Unlock_frame p.st
    rcases hl : (Unlock : M ω Unit) p.st with ⟨r1, st1⟩
    rw [hl] at hf
    have := LaunchedAtMostOnce_of_frame p.st st1 hf.1 hf.2 hb
    cases r1 <;> exact this
  | socks proxyaddr =>
    simp only [DialPoint.step]
    have hf := dialThrough_keeps env addr timeout proxyaddr p.st
    rcases hl : Layer.dialThrough env addr timeout proxyaddr p.st with ⟨r1, st1⟩
    rw [hl] at hf
    have := LaunchedAtMostOnce_of_frame p.st st1 (by rw [hf.1]) hf.2 hb
    cases r1 <;> exact this
  | returned r => exact hb

/-- In a world where no launch fails, a step of a caller of `Dial` that
moves it leaves the callers serialised. -/
theorem dial_step_serialised (env : Env ω) (hL : ∀ opts w, (env.Launch opts w).1.2 = none)
    (p : Program ω) (hb : LaunchedAtMostOnce p.st) (hm : Serialised p) (i : Nat)
    (addr : String) (timeout : Int) (pt pt1 : DialPoint) (st1 : St ω)
    (hc : p.callers[i]? = some (Caller.dial addr timeout pt))
    (hstep : pt.step env addr timeout p.st = (Res.ok pt1, st1)) :
    Serialised { st := st1, callers := p.callers.set i (Caller.dial addr timeout pt1),
                 stopped := none } := by
  cases pt with
  | proxyTest =>
    simp only [DialPoint.step] at hstep
    split at hstep <;>
      · simp only [Prod.mk.injEq, Res.ok.injEq] at hstep
        obtain ⟨rfl, rfl⟩ := hstep
        exact Serialised_update_outside p i _ _ hm rfl rfl rfl rfl
  | lock =>
    simp only [DialPoint.step, M.andThen, Lock] at hstep
    by_cases hlk : p.st.layer.mutex.locked = true
    · rw [if_pos hlk] at hstep
      simp at hstep
    · rw [if_neg hlk] at hstep
      simp only [Prod.mk.injEq, Res.ok.injEq] at hstep
      obtain ⟨rfl, rfl⟩ := hstep
      exact Serialised_update_alone p i _ _ hm
        (fun j cj _ hj => hm.nobody_inside (by simpa using hlk) j cj hj)
        (fun _ => rfl) (fun h2 => by simp [Caller.launching] at h2) rfl
  | clientTest =>
    have hothers := hm.others_outside i _ hc rfl
    have hlocked := hm.locked i _ hc rfl
    simp only [DialPoint.step] at hstep
    split at hstep
    · simp only [Prod.mk.injEq, Res.ok.injEq] at hstep
      obtain ⟨rfl, rfl⟩ := hstep
      exact Serialised_update_alone p i _ _ hm hothers (fun _ => hlocked)
        (fun h2 => by simp [Caller.launching] at h2) rfl
    · rename_i hnone
      simp only [Prod.mk.injEq, Res.ok.injEq] at hstep
      obtain ⟨rfl, rfl⟩ := hstep
      exact Serialised_update_alone p i _ _ hm hothers (fun _ => hlocked)
        (fun _ => hnone) rfl
  | launch =>
    have hothers := hm.others_outside i _ hc rfl
    have hlocked := hm.locked i _ hc rfl
    obtain ⟨hmu, -, herr⟩ := launchClient_spec env hL p.st (hm.none_launched hb i _ hc rfl)
    simp only [DialPoint.step] at hstep
    rcases hl : Layer.launchClient env p.st with ⟨r, st2⟩
    rw [hl] at hstep hmu herr
    cases r with
    | ok a =>
      simp only [Prod.mk.injEq, Res.ok.injEq] at hstep
      obtain ⟨rfl, rfl⟩ := hstep
      have ha := herr a rfl
      refine Serialised_update_alone p i _ _ hm hothers
        (fun _ => by rw [hmu]; exact hlocked) (fun h2 => by simp [Caller.launching] at h2) ?_
      rcases a with ⟨cl, e⟩
      simp only at ha
      subst ha
      cases cl <;> rfl
    | panic msg =>
      simp only [Prod.mk.injEq, Res.ok.injEq] at hstep
      obtain ⟨rfl, rfl⟩ := hstep
      exact Serialised_update_alone p i _ _ hm hothers
        (fun _ => by rw [hmu]; exact hlocked) (fun h2 => by simp [Caller.launching] at h2) rfl
    | fatal msg => simp at hstep
    | blocked => simp at hstep
  | gotClient r =>
    have hothers := hm.others_outside i _ hc rfl
    have hlocked := hm.locked i _ hc rfl
    have hsound := hm.sound i _ hc
    simp only [DialPoint.step] at hstep
    rcases r with ⟨_ | client, _ | err⟩
    · simp only [Prod.mk.injEq, Res.ok.injEq] at hstep
      obtain ⟨rfl, rfl⟩ := hstep
      exact Serialised_update_alone p i _ _ hm hothers (fun _ => hlocked)
        (fun h2 => by simp [Caller.launching] at h2) rfl
    · simp [Caller.failed, DialPoint.failed] at hsound
    · simp only [Prod.mk.injEq, Res.ok.injEq] at hstep
      obtain ⟨rfl, rfl⟩ := hstep
      exact Serialised_update_alone p i _ _ hm hothers (fun _ => hlocked)
        (fun h2 => by simp [Caller.launching] at h2) rfl
    · simp [Caller.failed, DialPoint.failed] at hsound
  | deferredUnlock r =>
    have hothers := hm.others_outside i _ hc rfl
    have hsound := hm.sound i _ hc
    rcases r with ⟨proxyaddr, _ | err⟩
    · simp only [DialPoint.step, M.andThen, Unlock] at hstep
      by_cases hlk : p.st.layer.mutex.locked = true
      · rw [if_pos hlk] at hstep
        simp only [Prod.mk.injEq, Res.ok.injEq] at hstep
        obtain ⟨rfl, rfl⟩ := hstep
        exact Serialised_update_alone p i _ _ hm hothers
          (fun h2 => by simp [Caller.inside, DialPoint.inside] at h2)
          (fun h2 => by simp [Caller.launching] at h2) rfl
      · rw [if_neg hlk] at hstep
        simp at hstep
    · simp [Caller.failed, DialPoint.failed] at hsound
  | panicking msg =>
    simp only [DialPoint.step, M.andThen] at hstep
    rcases hl : (Unlock : M ω Unit) p.st with ⟨r1, st2⟩
    rw [hl] at hstep
    cases r1 <;> simp at hstep
  | errorUnlock err =>
    have hsound := hm.sound i _ hc
    simp [Caller.failed, DialPoint.failed] at hsound
  | socks proxyaddr =>
    simp only [DialPoint.step] at hstep
    have hf := dialThrough_keeps env addr timeout proxyaddr p.st
    rcases hl : Layer.dialThrough env addr timeout proxyaddr p.st with ⟨r1, st2⟩
    rw [hl] at hf hstep
    cases r1 with
    | ok a =>
      simp only [Prod.mk.injEq, Res.ok.injEq] at hstep
      obtain ⟨rfl, rfl⟩ := hstep
      exact Serialised_update_outside p i _ _ hm (by rw [hf.1]) (by rw [hf.1]) rfl rfl
    | panic msg => simp at hstep
    | fatal msg => simp at hstep
    | blocked => simp at hstep
  | returned r =>
    simp only [DialPoint.step, Prod.mk.injEq, Res.ok.injEq] at hstep
    obtain ⟨rfl, rfl⟩ := hstep
    exact Serialised_update_outside p i _ _ hm rfl rfl rfl rfl

/-- In a world where no launch fails, a step of a caller of `Listener`
leaves at most one successful launch. -/
theorem listen_step_bound (env : Env ω) (hL : ∀ opts w, (env.Launch opts w).1.2 = none)
    (p : Program ω) (hb : LaunchedAtMostOnce p.st) (hm : Serialised p) (i : Nat)
    (l : Option Lis) (pt : ListenPoint)
    (hc : p.callers[i]? = some (Caller.listen l pt)) :
    LaunchedAtMostOnce (pt.step env l p.st).2 := by
  cases pt with
  | addrTest =>
    simp only [ListenPoint.step]
    split
    · exact hb
    · rename_i l0
      split
      · have hf := closeLocal_keeps env l0 p.st
        exact LaunchedAtMostOnce_of_frame p.st _ (by rw [hf.1]) hf.2 hb
      · exact hb
  | lock loc =>
    simp only [ListenPoint.step, M.andThen]
    have hf := Lock_frame p.st
    rcases hl : (Lock : M ω Unit) p.st with ⟨r, st1⟩
    rw [hl] at hf
    have := LaunchedAtMostOnce_of_frame p.st st1 hf.1 hf.2 hb
    cases r <;> exact this
  | controlTest loc =>
    simp only [ListenPoint.step]
    split <;> exact hb
  | clientTest loc =>
    simp only [ListenPoint.step]
    split <;> exact hb
  | launch loc =>
    have hspec := (launchClient_spec env hL p.st (hm.none_launched hb i _ hc rfl)).2.1
    simp only [ListenPoint.step]
    rcases hl : Layer.launchClient env p.st with ⟨r, st1⟩
    rw [hl] at hspec
    cases r <;> exact hspec
  | gotClient loc r =>
    simp only [ListenPoint.step]
    have hf := afterTorClientControl_keeps env r p.st
    rcases hl : afterTorClientControl env r p.st with ⟨r1, st1⟩
    rw [hl] at hf
    have := LaunchedAtMostOnce_of_frame p.st st1 hf.1 hf.2.2 hb
    cases r1 <;> exact this
  | deferredUnlock loc ret =>
    simp only [ListenPoint.step, M.andThen]
    have hf := Unlock_frame p.st
    rcases hl : (Unlock : M ω Unit) p.st with ⟨r1, st1⟩
    rw [hl] at hf
    have := LaunchedAtMostOnce_of_frame p.st st1 hf.1 hf.2 hb
    cases r1 <;> exact this
  | panicking msg =>
    simp only [ListenPoint.step, M.andThen]
    have hf := Unlock_frame p.st
    rcases hl : (Unlock : M ω Unit) p.st with ⟨r1, st1⟩
    rw [hl] at hf
    have := LaunchedAtMostOnce_of_frame p.st st1 hf.1 hf.2 hb
    cases r1 <;> exact this
  | register loc ret =>
    simp only [ListenPoint.step]
    have hf := register_keeps env loc.l loc.addr ret p.st
    rcases hl : Layer.register env loc.l loc.addr ret p.st with ⟨r1, st1⟩
    rw [hl] at hf
    have := LaunchedAtMostOnce_of_frame p.st st1 (by rw [hf.1]) hf.2 hb
    cases r1 <;> exact this
  | returned r => exact hb

/-- In a world where no launch fails, a step of a caller of `Listener` that
moves it leaves the callers serialised. -/
theorem listen_step_serialised (env : Env ω) (hL : ∀ opts w, (env.Launch opts w).1.2 = none)
    (p : Program ω) (hb : LaunchedAtMostOnce p.st) (hm : Serialised p) (i : Nat)
    (l : Option Lis) (pt pt1 : ListenPoint) (st1 : St ω)
    (hc : p.callers[i]? = some (Caller.listen l pt))
    (hstep : pt.step env l p.st = (Res.ok pt1, st1)) :
    Serialised { st := st1, callers := p.callers.set i (Caller.listen l pt1),
                 stopped := none } := by
  cases pt with
  | addrTest =>
    simp only [ListenPoint.step] at hstep
    split at hstep
    · simp at hstep
    · rename_i l0
      split at hstep
      · simp only [Prod.mk.injEq, Res.ok.injEq] at hstep
        obtain ⟨rfl, rfl⟩ := hstep
        have hf := closeLocal_keeps env l0 p.st
        exact Serialised_update_outside p i _ _ hm (by rw [hf.1]) (by rw [hf.1]) rfl rfl
      · simp only [Prod.mk.injEq, Res.ok.injEq] at hstep
        obtain ⟨rfl, rfl⟩ := hstep
        exact Serialised_update_outside p i _ _ hm rfl rfl rfl rfl
  | lock loc =>
    simp only [ListenPoint.step, M.andThen, Lock] at hstep
    by_cases hlk : p.st.layer.mutex.locked = true
    · rw [if_pos hlk] at hstep
      simp at hstep
    · rw [if_neg hlk] at hstep
      simp only [Prod.mk.injEq, Res.ok.injEq] at hstep
      obtain ⟨rfl, rfl⟩ := hstep
      exact Serialised_update_alone p i _ _ hm
        (fun j cj _ hj => hm.nobody_inside (by simpa using hlk) j cj hj)
        (fun _ => rfl) (fun h2 => by simp [Caller.launching] at h2) rfl
  | controlTest loc =>
    have hothers := hm.others_outside i _ hc rfl
    have hlocked := hm.locked i _ hc rfl
    simp only [ListenPoint.step] at hstep
    split at hstep <;>
      · simp only [Prod.mk.injEq, Res.ok.injEq] at hstep
        obtain ⟨rfl, rfl⟩ := hstep
        exact Serialised_update_alone p i _ _ hm hothers (fun _ => hlocked)
          (fun h2 => by simp [Caller.launching] at h2) rfl
  | clientTest loc =>
    have hothers := hm.others_outside i _ hc rfl
    have hlocked := hm.locked i _ hc rfl
    simp only [ListenPoint.step] at hstep
    split at hstep
    · simp only [Prod.mk.injEq, Res.ok.injEq] at hstep
      obtain ⟨rfl, rfl⟩ := hstep
      exact Serialised_update_alone p i _ _ hm hothers (fun _ => hlocked)
        (fun h2 => by simp [Caller.launching] at h2) rfl
    · rename_i hnone
      simp only [Prod.mk.injEq, Res.ok.injEq] at hstep
      obtain ⟨rfl, rfl⟩ := hstep
      exact Serialised_update_alone p i _ _ hm hothers (fun _ => hlocked)
        (fun _ => hnone) rfl
  | launch loc =>
    have hothers := hm.others_outside i _ hc rfl
    have hlocked := hm.locked i _ hc rfl
    obtain ⟨hmu, -, -⟩ := launchClient_spec env hL p.st (hm.none_launched hb i _ hc rfl)
    simp only [ListenPoint.step] at hstep
    rcases hl : Layer.launchClient env p.st with ⟨r, st2⟩
    rw [hl] at hstep hmu
    cases r with
    | ok a =>
      simp only [Prod.mk.injEq, Res.ok.injEq] at hstep
      obtain ⟨rfl, rfl⟩ := hstep
      exact Serialised_update_alone p i _ _ hm hothers
        (fun _ => by rw [hmu]; exact hlocked) (fun h2 => by simp [Caller.launching] at h2) rfl
    | panic msg =>
      simp only [Prod.mk.injEq, Res.ok.injEq] at hstep
      obtain ⟨rfl, rfl⟩ := hstep
      exact Serialised_update_alone p i _ _ hm hothers
        (fun _ => by rw [hmu]; exact hlocked) (fun h2 => by simp [Caller.launching] at h2) rfl
    | fatal msg => simp at hstep
    | blocked => simp at hstep
  | gotClient loc r =>
    have hothers := hm.others_outside i _ hc rfl
    have hlocked := hm.locked i _ hc rfl
    simp only [ListenPoint.step] at hstep
    have hf := afterTorClientControl_keeps env r p.st
    rcases hl : afterTorClientControl env r p.st with ⟨r1, st2⟩
    rw [hl] at hf hstep
    cases r1 with
    | ok a =>
      simp only [Prod.mk.injEq, Res.ok.injEq] at hstep
      obtain ⟨rfl, rfl⟩ := hstep
      exact Serialised_update_alone p i _ _ hm hothers
        (fun _ => by rw [hf.2.1]; exact hlocked) (fun h2 => by simp [Caller.launching] at h2) rfl
    | panic msg =>
      simp only [Prod.mk.injEq, Res.ok.injEq] at hstep
      obtain ⟨rfl, rfl⟩ := hstep
      exact Serialised_update_alone p i _ _ hm hothers
        (fun _ => by rw [hf.2.1]; exact hlocked) (fun h2 => by simp [Caller.launching] at h2) rfl
    | fatal msg => simp at hstep
    | blocked => simp at hstep
  | deferredUnlock loc ret =>
    have hothers := hm.others_outside i _ hc rfl
    simp only [ListenPoint.step, M.andThen, Unlock] at hstep
    by_cases hlk : p.st.layer.mutex.locked = true
    · rw [if_pos hlk] at hstep
      simp only [Prod.mk.injEq, Res.ok.injEq] at hstep
      obtain ⟨rfl, rfl⟩ := hstep
      exact Serialised_update_alone p i _ _ hm hothers
        (fun h2 => by simp [Caller.inside, ListenPoint.inside] at h2)
        (fun h2 => by simp [Caller.launching] at h2) rfl
    · rw [if_neg hlk] at hstep
      simp at hstep
  | panicking msg =>
    simp only [ListenPoint.step, M.andThen] at hstep
    rcases hl : (Unlock : M ω Unit) p.st with ⟨r1, st2⟩
    rw [hl] at hstep
    cases r1 <;> simp at hstep
  | register loc ret =>
    simp only [ListenPoint.step] at hstep
    have hf := register_keeps env loc.l loc.addr ret p.st
    rcases hl : Layer.register env loc.l loc.addr ret p.st with ⟨r1, st2⟩
    rw [hl] at hf hstep
    cases r1 with
    | ok a =>
      simp only [Prod.mk.injEq, Res.ok.injEq] at hstep
      obtain ⟨rfl, rfl⟩ := hstep
      exact Serialised_update_outside p i _ _ hm (by rw [hf.1]) (by rw [hf.1]) rfl rfl
    | panic msg => simp at hstep
    | fatal msg => simp at hstep
    | blocked => simp at hstep
  | returned r =>
    simp only [ListenPoint.step, Prod.mk.injEq, Res.ok.injEq] at hstep
    obtain ⟨rfl, rfl⟩ := hstep
    exact Serialised_update_outside p i _ _ hm rfl rfl rfl rfl

/-- In a world where no launch fails, a step of the program keeps the
invariant. -/
theorem Program.step_safe (env : Env ω) (hL : ∀ opts w, (env.Launch opts w).1.2 = none)
    (i : Nat) (p : Program ω) (h : p.Safe) : (p.step env i).Safe := by
  cases hs : p.stopped with
  | some msg =>
    have : p.step env i = p := by
      unfold Program.step
      simp only [hs]
    rw [this]
    exact h
  | none =>
    cases hc : p.callers[i]? with
    | none =>
      have : p.step env i = p := by
        unfold Program.step
        simp only [hs, hc]
      rw [this]
      exact h
    | some c =>
      obtain ⟨hb, hser⟩ := h
      have hm := hser hs
      apply Program.Safe_step_of env i p c hs hc ⟨hb, hser⟩
      · rcases c with ⟨addr, timeout, pt⟩ | ⟨l, pt⟩
        · rw [Caller.step_dial_snd]
          exact dial_step_bound env hL p hb hm i addr timeout pt hc
        · rw [Caller.step_listen_snd]
          exact listen_step_bound env hL p hb hm i l pt hc
      · intro c1 st1 hstep
        rcases c with ⟨addr, timeout, pt⟩ | ⟨l, pt⟩
        · obtain ⟨pt1, hpt, rfl⟩ := Caller.step_dial_ok env addr timeout pt p.st st1 c1 hstep
          exact dial_step_serialised env hL p hb hm i addr timeout pt pt1 st1 hc hpt
        · obtain ⟨pt1, hpt, rfl⟩ := Caller.step_listen_ok env l pt p.st st1 c1 hstep
          exact listen_step_serialised env hL p hb hm i l pt pt1 st1 hc hpt

/-- In a world where no launch fails, a run of the program keeps the
invariant. -/
theorem Program.run_safe (env : Env ω) (hL : ∀ opts w, (env.Launch opts w).1.2 = none)
    (schedule : List Nat) : ∀ p : Program ω, p.Safe → (p.run env schedule).Safe := by
  induction schedule with
  | nil => intro p h; exact h
  | cons i rest ih =>
    intro p h
    exact ih (p.step env i) (Program.step_safe env hL i p h)

/-! ## Claim about the launches of concurrent callers -/

/-- C11 (what the code does).  Callers of `Dial` and `Listener` run
concurrently on one layer, interleaved at the points of `DialPoint` and
`ListenPoint`.  (1) In a world where no launch fails: from a layer that
holds no client, with its mutex free and no successful launch behind it,
whatever the callers and whatever the schedule, at most one launch succeeds.
(2) Two callers of `Dial` that both pass the proxy test before either takes
the lock, in either order of locking, cause exactly one launch; both read the
endpoint of that process and both dial through it.  (3) A caller of `Dial`
and a caller of `Listener` that overlap, in either order of locking, cause
exactly one launch, and both return what they were called for.  (4) In a
world where the first launch fails and the next ones succeed, there is a
schedule of three callers of `Dial` with two successful launches: after
caller 0 failed and released the lock, caller 1 takes it and is about to
launch; the `Unlock` in the error branch of `Dial`, executed by caller 0,
releases the lock caller 1 holds; caller 2 takes it, finds no client, and
both launch.  The two processes report different endpoints. -/
theorem concurrent_callers_launch_twice :
    (∀ (ω : Type) (env : Env ω), (∀ opts w, (env.Launch opts w).1.2 = none) →
      ∀ (p : Program ω), p.st.layer.client = none → p.st.layer.mutex.locked = false →
        successfulLaunches p.st.trace = [] →
        (∀ c ∈ p.callers, c.starting = true) →
        ∀ schedule : List Nat,
          (successfulLaunches (p.run env schedule).st.trace).length ≤ 1) ∧
    (∀ first second, (first = 0 ∧ second = 1) ∨ (first = 1 ∧ second = 0) →
      (overlappingDials first second).stopped = none ∧
      launches (overlappingDials first second).st.trace = [(some { id := 1 }, none)] ∧
      proxyReports (overlappingDials first second).st.trace =
        [({ id := 1 }, "127.0.0.1:9051"), ({ id := 1 }, "127.0.0.1:9051")] ∧
      socksProxies (overlappingDials first second).st.trace =
        ["127.0.0.1:9051", "127.0.0.1:9051"] ∧
      (overlappingDials first second).callers =
        [Caller.dial "a.onion:80" (5 * Onion.Second)
           (DialPoint.returned (some { id := 1 }, none)),
         Caller.dial "b.onion:80" (5 * Onion.Second)
           (DialPoint.returned (some { id := 1 }, none))]) ∧
    (∀ dialFirst : Bool,
      (dialAndListen dialFirst).stopped = none ∧
      launches (dialAndListen dialFirst).st.trace = [(some { id := 1 }, none)] ∧
      (dialAndListen dialFirst).callers =
        [Caller.dial "a.onion:80" (5 * Onion.Second)
           (DialPoint.returned (some { id := 1 }, none)),
         Caller.listen (some { id := 7 }) (ListenPoint.returned (some usedListener, none))]) ∧
    ((errorUnlockRun 9).callers =
        [Caller.dial "a.onion:80" (5 * Onion.Second) (DialPoint.errorUnlock "E"),
         Caller.dial "b.onion:80" (5 * Onion.Second) DialPoint.launch,
         Caller.dial "c.onion:80" (5 * Onion.Second) DialPoint.proxyTest] ∧
      (errorUnlockRun 9).st.layer.mutex.locked = true ∧
      launches (errorUnlockRun 9).st.trace = [(none, some "E")]) ∧
    ((errorUnlockRun 10).callers =
        [Caller.dial "a.onion:80" (5 * Onion.Second) (DialPoint.returned (none, some "E")),
         Caller.dial "b.onion:80" (5 * Onion.Second) DialPoint.launch,
         Caller.dial "c.onion:80" (5 * Onion.Second) DialPoint.proxyTest] ∧
      (errorUnlockRun 10).st.layer.mutex.locked = false ∧
      (errorUnlockRun 10).stopped = none) ∧
    ((errorUnlockRun 15).stopped = none ∧
      launches (errorUnlockRun 15).st.trace =
        [(none, some "E"), (some { id := 1 }, none), (some { id := 2 }, none)] ∧
      successfulLaunches (errorUnlockRun 15).st.trace = [{ id := 1 }, { id := 2 }]) ∧
    proxyReports (errorUnlockRun 17).st.trace =
      [({ id := 1 }, "127.0.0.1:9051"), ({ id := 2 }, "127.0.0.1:9052")] := by
  refine ⟨?_, ?_, ?_, by decide, by decide, by decide, by decide⟩
  · intro ω env hL p hclient hfree hnone hstart schedule
    have hsafe : p.Safe := by
      refine ⟨Or.inl hnone, fun _ => ?_⟩
      have hout : ∀ (i : Nat) (c : Caller), p.callers[i]? = some c →
          c.inside = false ∧ c.launching = false ∧ c.failed = false := by
        intro i c hc
        have h := hstart c (List.getElem?_mem hc)
        rcases c with ⟨addr, timeout, pt⟩ | ⟨l, pt⟩ <;> cases pt <;>
          first | exact ⟨rfl, rfl, rfl⟩ | simp [Caller.starting] at h
      constructor
      · intro i c hc hin
        rw [(hout i c hc).1] at hin
        cases hin
      · intro i j ci cj hi hj hin
        rw [(hout i ci hi).1] at hin
        cases hin
      · intro i c hc hl
        exact hclient
      · intro i c hc
        exact (hout i c hc).2.2
    rcases (Program.run_safe env hL schedule p hsafe).1 with h | ⟨c, h, -⟩
    · rw [h]
      simp
    · rw [h]
      simp
  · intro first second h
    rcases h with ⟨rfl, rfl⟩ | ⟨rfl, rfl⟩ <;> decide
  · intro dialFirst
    cases dialFirst <;> decide

/-- The first part of `concurrent_callers_launch_twice` at the world of the
scenarios, where no launch fails: two callers of `Dial` that both pass the
proxy test before either takes the lock launch at most once. -/
theorem concurrent_callers_launch_twice_witness :
    (∀ opts w, (steadyEnv.Launch opts w).1.2 = none) ∧
    (successfulLaunches (overlappingDials 0 1).st.trace).length ≤ 1 :=
  ⟨fun _ _ => rfl,
    concurrent_callers_launch_twice.1 MockWorld steadyEnv (fun _ _ => rfl)
      (program [] mockWorld [dialer "a.onion:80", dialer "b.onion:80"])
      rfl rfl rfl (by decide) [0, 1, 0, 0, 0, 0, 0, 1, 1, 1, 1, 0, 1]⟩

/-! ## Claims about listeners made of nothing -/

/-- C12, as stated, fails for both layers: given an absent listener, the
tor layer's `Listener` panics on `l.Addr()`, and the sch layer's `Listener`
returns, with no error, a listener that wraps nothing. -/
theorem Listener_of_absent_listener :
    (Layer.Listener mockEnv none (start (NewLayer []) mockWorld)).1 = Res.panic nilDeref ∧
    Sch.Layer.Listener (Sch.NewLayer []) (none : Option Lis) =
      (some { Listener := none, layer := Sch.NewLayer [] }, none) := by
  decide

/-- C12, amended.  The sch layer's `Listener` makes no check: it returns no
error and a listener wrapping whatever it was given, so that with an absent
listener it returns a listener that wraps nothing.  The tor layer's
`Listener`, given a listener that is not bound to a TCP address, closes it,
returns no listener and fails with "failed to extract local port", without
taking the lock or launching anything. -/
theorem Listener_without_local_port :
    (∀ (L : Type) (layer : Sch.Layer) (l : Option L),
      Sch.Layer.Listener layer l = (some { Listener := l, layer := layer }, none)) ∧
    (∀ (L : Type) (layer : Sch.Layer),
      Sch.Layer.Listener layer (none : Option L) =
        (some { Listener := none, layer := layer }, none)) ∧
    (∀ (ω : Type) (env : Env ω) (st : St ω) (l0 : Lis) (network text : String),
      env.ListenerAddr l0 st.world = NetAddr.other network text →
      Layer.Listener env (some l0) st =
        (Res.ok (none, some "failed to extract local port"),
          { st with world := (env.ListenerClose l0 st.world).2,
                    trace := st.trace ++
                      [Event.listenerClose l0 (env.ListenerClose l0 st.world).1] })) := by
  refine ⟨fun _ _ _ => rfl, fun _ _ => rfl, ?_⟩
  intro ω env st l0 network text h
  simp [Layer.Listener, h, closeLocal, emit]

/-- The hypothesis of `Listener_without_local_port` holds for a local
listener with a Unix address: the tor layer's `Listener` fails with an
error and returns no listener. -/
theorem Listener_without_local_port_witness :
    ({ mockEnv with ListenerAddr := fun _ _ => NetAddr.other "unix" "/tmp/s" } :
        Env MockWorld).ListenerAddr { id := 7 } mockWorld = NetAddr.other "unix" "/tmp/s" ∧
    (Layer.Listener
        ({ mockEnv with ListenerAddr := fun _ _ => NetAddr.other "unix" "/tmp/s" } :
          Env MockWorld)
        (some { id := 7 }) (start (NewLayer []) mockWorld)).1 =
      Res.ok (none, some "failed to extract local port") :=
  ⟨rfl,
    congrArg Prod.fst
      (Listener_without_local_port.2.2 MockWorld
        ({ mockEnv with ListenerAddr := fun _ _ => NetAddr.other "unix" "/tmp/s" } :
          Env MockWorld)
        (start (NewLayer []) mockWorld) { id := 7 } "unix" "/tmp/s" rfl)⟩

end TorLemmas

end Tor
